import Mathlib

/-!
# WebKit view for OpenHarmony: process launch contract and host-thread bridge

A shallow embedding of the parts of `entry/src/main/cpp` that carry the
parameter-blob contract between the launcher (`runtime/wk_runtime.cpp`) and the
two auxiliary process images (`network_process/network_process.cpp`,
`web_process/web_process.cpp`), and of the host-thread bridge
(`runtime/arkts_runtime.{h,cpp}`).

Conventions of the embedding:

* a `const char*` / `std::string` is a `List Char`; reading a buffer at or past
  its length yields the terminating NUL, so a NUL inside the list ends the
  C string early, exactly as for the pointer walk in the source;
* a nullable pointer is an `Option`;
* pointers into a buffer are indices into the list;
* calls into the platform (dlopen, the spawn facility, libuv, N-API) are
  parameters of the model, their visible effects are recorded as events.
-/

namespace WebKitView

/-! ## Parameter blob: `SplitByColon` and `JoinWithColon` -/

/-- The character `*p` for a pointer `p = str + i` into a NUL-terminated buffer. -/
def charAt (str : List Char) (i : Nat) : Char := str.getD i '\x00'

/-- The string built by `std::string(start, len)`, `start` being `str + start`. -/
def substr (str : List Char) (start len : Nat) : List Char := (str.drop start).take len

/-- The `while (*end != 0)` loop of `SplitByColon`, with the pointers `start` and
`end` as indices; the first argument bounds the number of iterations. It returns
the final `start`, `end` and `out`. -/
def splitLoop (str : List Char) : Nat → Nat → Nat → List (List Char) →
    Nat × Nat × List (List Char)
  | 0, start, e, out => (start, e, out)
  | fuel + 1, start, e, out =>
    if charAt str e = '\x00' then (start, e, out)
    else if charAt str e = ':' then
      splitLoop str fuel (e + 1) (e + 1) (out ++ [substr str start (e - start)])
    else splitLoop str fuel start (e + 1) out

/-- Model of `SplitByColon(str, out)` of `network_process.cpp` and
`web_process.cpp` (the two copies are the same text). The result is the returned `int` and the final
contents of `out`. The loop bound `length + 1` is never exhausted, see
`splitLoop_stops_at_nul`. The count is `out.size()` as a mathematical integer:
the conversion to `int` changes it only for 2^31 or more segments. -/
def SplitByColon (str : Option (List Char)) : Int × List (List Char) :=
  match str with
  | none => (-1, [])
  | some s =>
    let r := splitLoop s (s.length + 1) 0 0 []
    let out := if r.1 ≠ r.2.1 then r.2.2 ++ [substr s r.1 (r.2.1 - r.1)] else r.2.2
    ((out.length : Int), out)

/-- One iteration of the second loop of `JoinWithColon`; the loop state is the
string `out` built so far and the flag `first`. -/
def joinStep (st : List Char × Bool) (s : List Char) : List Char × Bool :=
  ((if !st.2 then st.1 ++ [':'] else st.1) ++ s, false)

/-- Model of `JoinWithColon(parts, out)` of `wk_runtime.cpp`: `out` is cleared
and the loop runs from `first = true`. (The first loop only computes a capacity to reserve.) -/
def JoinWithColon (parts : List (List Char)) : List Char :=
  (parts.foldl joinStep ([], true)).1

/-! ### A list-level reading of the scan -/

/-- The scan of `SplitByColon` over the unread rest of the buffer, carrying the
characters of the current segment instead of the two pointers. -/
def scan : List Char → List Char → List (List Char) → List Char × List (List Char)
  | [], cur, out => (cur, out)
  | c :: rest, cur, out =>
    if c = '\x00' then (cur, out)
    else if c = ':' then scan rest [] (out ++ [cur])
    else scan rest (cur ++ [c]) out


/-! ## Auxiliary process images: `Main` -/

/-- An externally visible action of a process entry point, in program order. -/
inductive Effect where
  | logD (msg : String)
  | logE (msg : String)
  | dlopen (lib : String)
  | dlsym (symbol : String)
  | dlclose
  | environmentInitialize (params : List (List Char))
  | setenv (name value : String)
  | entrypoint (symbol : String) (argv : List (List Char))
  | callNull
  deriving DecidableEq, Repr

/-- One node of `NativeChildProcess_FdList`. -/
structure NativeChildProcess_Fd where
  fdName : List Char
  fd : Int
  deriving DecidableEq, Repr

/-- The argument of `Main`: the parameter blob (nullable) and the fd list, whose
`head` is the first element if there is one. -/
structure NativeChildProcess_Args where
  entryParams : Option (List Char)
  fdList : List NativeChildProcess_Fd
  deriving DecidableEq, Repr

/-- What the dynamic loader answers in the child: whether `dlopen` of the engine
library yields a handle and whether `dlsym` finds the entry point. -/
structure Loader where
  engineLoads : Bool
  entrypointFound : Bool
  deriving DecidableEq, Repr

/-- The `if (fdArgs != nullptr)` block shared by both images, followed by the
statements `rest` that stand after it: look the entry point up, build `argv` and
call it. When `dlsym` did not find the entry point the call goes through a null
pointer and the process ends there: nothing follows `callNull`. -/
def runEntrypoint (ld : Loader) (infoTag tag symbol : String) (params : List (List Char))
    (head : Option NativeChildProcess_Fd) (rest : List Effect) : List Effect :=
  match head with
  | none => rest
  | some fdArgs =>
    [Effect.dlsym symbol, Effect.logD (infoTag ++ " - entryParams, fd, entryPoint"),
      Effect.logD (tag ++ " - entrypoint start")] ++
    (if ld.entrypointFound then
      [Effect.entrypoint symbol [params.getD 0 [], fdArgs.fdName, (toString fdArgs.fd).toList],
        Effect.logD (tag ++ " - entrypoint end")] ++ rest
     else [Effect.callNull])

/-- Model of `Main` of `network_process.cpp`: the engine library is loaded first,
then the blob is parsed and checked. -/
def NetworkProcess.Main (ld : Loader) (args : NativeChildProcess_Args) : List Effect :=
  [Effect.logD "libnetworkprocess::Main - start", Effect.dlopen "libWPEWebKit-2.0.so"] ++
  if !ld.engineLoads then [Effect.logE "Failed to load libWPEWebKit-2.0.so"]
  else
    let r := SplitByColon args.entryParams
    if r.1 < 1 || r.2.length < 5 then
      [Effect.logE "libnetworkprocess::Main - invalid entryParams"]
    else
      [Effect.environmentInitialize r.2] ++
      runEntrypoint ld "libnetworkprocess::Main" "libnetworkprocess::Main"
        "_ZN6WebKit18NetworkProcessMainEiPPc" r.2
        args.fdList.head?
        [Effect.dlclose, Effect.logD "libnetworkprocess::Main - end"]

/-- Model of `Main` of `web_process.cpp`: the blob is parsed and checked first;
the engine library is loaded after the environment is set up. -/
def WebProcess.Main (ld : Loader) (args : NativeChildProcess_Args) : List Effect :=
  [Effect.logD "libwebprocess::Main"] ++
  let r := SplitByColon args.entryParams
  if r.1 < 1 || r.2.length < 5 then
    [Effect.logE "libwebprocess::Main - invalid entryParams"]
  else
    [Effect.environmentInitialize r.2,
      Effect.setenv "WEBKIT_SKIA_ENABLE_CPU_RENDERING" "1",
      Effect.setenv "WEBKIT_SKIA_GPU_PAINTING_THREADS" "0",
      Effect.dlopen "libWPEWebKit-2.0.so"] ++
    if !ld.engineLoads then [Effect.logE "Failed to load libWPEWebKit-2.0.so"]
    else
      runEntrypoint ld "libWebProcess::Main" "libwebprocess::Main"
        "_ZN6WebKit14WebProcessMainEiPPc" r.2
        args.fdList.head?
        [Effect.dlclose, Effect.logD "libwebprocess::Main - end"]

/-! ## The host-thread bridge `ArkTSRuntime` -/

/-- A `std::thread::id` of a running thread. -/
abbrev ThreadId := Nat

/-- What the platform answers during `DoInit`: the status and loop of
`napi_get_uv_event_loop` (status 0 is `napi_ok`) and the result of
`uv_async_init`. -/
structure napi_env where
  status : Nat
  loop : Option Nat
  asyncInit : Int
  deriving DecidableEq, Repr

/-- The `uv_async_t` member: the loop it is registered with, whether `data`
points to the bridge, and whether `uv_async_send` asked for a wake-up. -/
structure uv_async_t where
  loop : Option Nat := none
  data : Bool := false
  sent : Bool := false
  deriving DecidableEq, Repr

/-- The fields of `class ArkTSRuntime` (the mutex is implicit: every operation
below is one critical section). `τ` is the type of the queued closures; a
default-constructed `std::thread::id` is `none`. -/
structure ArkTSRuntime (τ : Type) where
  inited_ : Bool := false
  uvLoop_ : Option Nat := none
  async_ : uv_async_t := {}
  deque_ : List τ := []
  arktsThreadId_ : Option ThreadId := none
  deriving DecidableEq, Repr

/-- Model of `ArkTSRuntime::IsOnArkTSThread`, `tid` being `std::this_thread::get_id()`. -/
def ArkTSRuntime.IsOnArkTSThread {τ : Type} (self : ArkTSRuntime τ) (tid : ThreadId) : Bool :=
  self.arktsThreadId_ == some tid

/-- Model of `ArkTSRuntime::DoInit`, called on thread `tid`: the returned flag and the
bridge afterwards. -/
def ArkTSRuntime.DoInit {τ : Type} (self : ArkTSRuntime τ) (env : napi_env) (tid : ThreadId) :
    Bool × ArkTSRuntime τ :=
  if self.inited_ then (true, self)
  else if env.status ≠ 0 || env.loop == none then (false, self)
  else
    let s1 := { self with uvLoop_ := env.loop, arktsThreadId_ := some tid }
    if env.asyncInit ≠ 0 then (false, { s1 with uvLoop_ := none })
    else
      (true, { s1 with async_ := { s1.async_ with loop := env.loop, data := true },
                       inited_ := true })

/-- Model of `ArkTSRuntime::DoInvoke` (and the static `Invoke`, which forwards to it on
the singleton). -/
def ArkTSRuntime.DoInvoke {τ : Type} (self : ArkTSRuntime τ) (f : τ) : ArkTSRuntime τ :=
  if !self.inited_ then self
  else { self with deque_ := self.deque_ ++ [f], async_ := { self.async_ with sent := true } }

/-- Model of `ArkTSRuntime::OnAsync`: the queue is swapped out, then every closure of the
local copy runs in order. `exec` runs one closure on the whole state (the bridge
and the rest of the process `σ`), so a closure may itself use the bridge. Every
element `DoInvoke` stores is a non-empty `std::function`, so `if (fn)` holds. -/
def ArkTSRuntime.OnAsync {τ σ : Type} (exec : τ → ArkTSRuntime τ × σ → ArkTSRuntime τ × σ)
    (s : ArkTSRuntime τ × σ) : ArkTSRuntime τ × σ :=
  let localQ := s.1.deque_
  localQ.foldl (fun st fn => exec fn st) ({ s.1 with deque_ := [] }, s.2)

/-- How a call of `InvokeSync` continues for its caller. -/
inductive SyncOutcome (R : Type) where
  | returned (r : R)
  | blocked
  deriving DecidableEq, Repr

/-- Model of `ArkTSRuntime::DoInvokeSync` called on thread `tid`. On the host thread `f`
runs inline. Otherwise the trampoline (the closure that runs `f` and fulfils the
promise) goes through `DoInvoke` and the caller blocks in `fut.get()` until the
host thread has run it. -/
def ArkTSRuntime.DoInvokeSync {τ σ R : Type}
    (f : ArkTSRuntime τ × σ → R × (ArkTSRuntime τ × σ)) (trampoline : τ) (tid : ThreadId)
    (s : ArkTSRuntime τ × σ) : SyncOutcome R × (ArkTSRuntime τ × σ) :=
  if s.1.IsOnArkTSThread tid then (SyncOutcome.returned (f s).1, (f s).2)
  else (SyncOutcome.blocked, (s.1.DoInvoke trampoline, s.2))

/-! ## The process launcher `WPELaunchProcess` -/

/-- The role of the auxiliary process (`wpe_process_type` of the WPE headers);
any other value of the enum type is `other`. -/
inductive wpe_process_type where
  | WPE_PROCESS_TYPE_WEB
  | WPE_PROCESS_TYPE_NETWORK
  | other (raw : Nat)
  deriving DecidableEq, Repr

/-- The values of `AbilityRuntime_ErrorCode` the code tells apart. -/
inductive AbilityRuntime_ErrorCode where
  | NO_ERROR
  | PARAM_INVALID
  | other (code : Nat)
  deriving DecidableEq, Repr

/-- What a directory query of the application context does for a buffer of a
given size: its return code, the value stored in `written` and the bytes it put
into the (zero-filled) buffer. -/
structure DirAnswer where
  ret : AbilityRuntime_ErrorCode
  written : Int
  data : List Char

/-- A directory query `fn(buffer, size, &written)` as a function of `size`. -/
abbrev DirQuery := Int → DirAnswer

/-- The C string at the start of a buffer. -/
def cstr (buf : List Char) : List Char := buf.takeWhile (fun c => c ≠ '\x00')

/-- The `while (size <= kMax)` loop of `GetDir`; the first argument bounds the
number of iterations, the second is `size`. -/
def GetDirLoop (fn : DirQuery) (outStr : List Char) :
    Nat → Int → AbilityRuntime_ErrorCode × List Char
  | 0, _ => (AbilityRuntime_ErrorCode.PARAM_INVALID, outStr)
  | fuel + 1, size =>
    if size ≤ 64 * 1024 then
      let a := fn size
      if a.ret = AbilityRuntime_ErrorCode.NO_ERROR then
        (AbilityRuntime_ErrorCode.NO_ERROR, cstr (a.data.take (size.toNat - 1)))
      else if a.ret = AbilityRuntime_ErrorCode.PARAM_INVALID then
        GetDirLoop fn outStr fuel
          (if a.written > size ∧ a.written < 64 * 1024 then a.written + 1 else size * 2)
      else (a.ret, outStr)
    else (AbilityRuntime_ErrorCode.PARAM_INVALID, outStr)

/-- Model of `GetDir(fn, outStr)`: the returned code and `outStr` afterwards. The size
starts at 512 and grows on every retry, so 65536 iterations are never used up. -/
def GetDir (fn : DirQuery) (outStr : List Char) : AbilityRuntime_ErrorCode × List Char :=
  GetDirLoop fn outStr 65536 512

/-- One call of `OH_Ability_StartNativeChildProcess`: the library entry point,
the parameter blob and the single descriptor of the fd list. -/
structure SpawnRequest where
  libEntry : String
  entryParams : List Char
  fdName : List Char
  fd : Int
  deriving DecidableEq, Repr

/-- The platform as the launcher sees it: the four directory queries, `std::stoi`
(`none` when it throws) and the spawn facility (the pid it stores through the
out-parameter, `none` when it stores nothing). -/
structure Platform where
  GetCacheDir : DirQuery
  GetFilesDir : DirQuery
  GetTempDir : DirQuery
  GetBundleCodeDir : DirQuery
  stoi : List Char → Option Int
  StartNativeChildProcess : SpawnRequest → Option Int

/-- Model of `GetEnvronmentParamsFromApplicationContext(outParams)`: the returned flag and
`outParams` afterwards. -/
def GetEnvronmentParamsFromApplicationContext (P : Platform) (outParams : List (List Char)) :
    Bool × List (List Char) :=
  let cache := GetDir P.GetCacheDir []
  if cache.1 ≠ AbilityRuntime_ErrorCode.NO_ERROR then (false, outParams)
  else
    let files := GetDir P.GetFilesDir []
    if files.1 ≠ AbilityRuntime_ErrorCode.NO_ERROR then (false, outParams)
    else
      let temp := GetDir P.GetTempDir []
      if temp.1 ≠ AbilityRuntime_ErrorCode.NO_ERROR then (false, outParams)
      else
        let bundle := GetDir P.GetBundleCodeDir []
        if bundle.1 ≠ AbilityRuntime_ErrorCode.NO_ERROR then (false, outParams)
        else (true, outParams ++ [cache.2, files.2, temp.2, bundle.2])

/-- The part of the UI process the launch closure acts on: the spawns issued so
far and the values handed to waiting callers through their promises. -/
structure HostWorld where
  spawns : List SpawnRequest := []
  delivered : List Int := []
  deriving DecidableEq, Repr

/-- One branch of the launch closure: build the blob for `tag` and spawn
`libEntry`. -/
def launchBranch (P : Platform) (tag : String) (libEntry : String) (fdName : List Char)
    (fd : Int) (w : HostWorld) : Int × HostWorld :=
  let r := GetEnvronmentParamsFromApplicationContext P [tag.toList]
  if !r.1 then (-1, w)
  else
    let req : SpawnRequest :=
      { libEntry := libEntry, entryParams := cstr (JoinWithColon r.2), fdName := fdName, fd := fd }
    ((P.StartNativeChildProcess req).getD (-1), { w with spawns := w.spawns ++ [req] })

/-- The closure `WPELaunchProcess` passes to `InvokeSync`: the returned
`int64_t` and the spawns issued. -/
def launchTask (P : Platform) (wpeProcessType : wpe_process_type) (fdName : List Char)
    (fd : Int) (w : HostWorld) : Int × HostWorld :=
  match wpeProcessType with
  | wpe_process_type.WPE_PROCESS_TYPE_WEB =>
    launchBranch P "WPEWebProcess" "libwebkit_web_process.so:Main" fdName fd w
  | wpe_process_type.WPE_PROCESS_TYPE_NETWORK =>
    launchBranch P "WPENetworkProcess" "libwebkit_network_process.so:Main" fdName fd w
  | wpe_process_type.other _ => (-1, w)

/-- The closures this program queues on the bridge: the launch closure wrapped
with its promise is the only one. -/
inductive HostTask where
  | launch (wpeProcessType : wpe_process_type) (fdName : List Char) (fd : Int)
  deriving DecidableEq, Repr

/-- Running a queued trampoline on the host thread: the launch closure runs and
its result is stored in the promise. -/
def execHostTask (P : Platform) :
    HostTask → ArkTSRuntime HostTask × HostWorld → ArkTSRuntime HostTask × HostWorld
  | HostTask.launch ty fdName fd, s =>
    let r := launchTask P ty fdName fd s.2
    (s.1, { r.2 with delivered := r.2.delivered ++ [r.1] })

/-- How a call of `WPELaunchProcess` continues for its caller: it returns a pid,
it waits for the host thread to run its trampoline (and then returns the value
delivered), or `std::stoi` throws out of the `noexcept` function. -/
inductive LaunchOutcome where
  | returned (pid : Int)
  | blocked
  | terminated
  deriving DecidableEq, Repr

/-- Model of `WPELaunchProcess(backend, wpeProcessType, userData)` called on thread `tid`;
`userData` is the nullable option array with its two nullable entries. -/
def WPELaunchProcess (P : Platform) (wpeProcessType : wpe_process_type)
    (userData : Option (Option (List Char) × Option (List Char))) (tid : ThreadId)
    (s : ArkTSRuntime HostTask × HostWorld) :
    LaunchOutcome × (ArkTSRuntime HostTask × HostWorld) :=
  match userData with
  | some (some o0, some o1) =>
    match P.stoi (cstr o1) with
    | none => (LaunchOutcome.terminated, s)
    | some socketFd =>
      let r := ArkTSRuntime.DoInvokeSync
        (fun st => ((launchTask P wpeProcessType (cstr o0) socketFd st.2).1,
                    (st.1, (launchTask P wpeProcessType (cstr o0) socketFd st.2).2)))
        (HostTask.launch wpeProcessType (cstr o0) socketFd) tid s
      match r.1 with
      | SyncOutcome.returned pid => (LaunchOutcome.returned pid, r.2)
      | SyncOutcome.blocked => (LaunchOutcome.blocked, r.2)
  | _ => (LaunchOutcome.returned (-1), s)

/-- The parameter blob of a launch whose four directories resolve: the role tag
and the directories, joined and passed on as a C string. -/
def launchBlob (P : Platform) (tag : String) : List Char :=
  cstr (JoinWithColon [tag.toList, (GetDir P.GetCacheDir []).2, (GetDir P.GetFilesDir []).2,
    (GetDir P.GetTempDir []).2, (GetDir P.GetBundleCodeDir []).2])

/-! ## The web view `WKWebView` -/

/-- A renderer instance (`WPEViewOHOSGLES3Renderer`) with the window and size it
was initialized for. -/
structure Renderer where
  window : Nat
  width : Int
  height : Int
  deriving DecidableEq, Repr

/-- What the engine and the renderer answer on the native loop: the object
`g_object_new` yields for the view with a given identifier, the platform view of
an engine view, the token `g_signal_connect_swapped` yields for an engine view
and a signal name, and whether `Initialize` of a new renderer succeeds. -/
structure Engine where
  newWebView : String → Option Nat
  getWpeView : Nat → Option Nat
  signalConnect : Nat → String → Nat
  rendererInitialize : Nat → Int → Int → Bool

/-- A call a `WKWebView` makes into the engine, the platform view or the
renderer, or a log line, in program order. -/
inductive ViewEvent where
  | logD (msg : String)
  | logE (msg : String)
  | webViewNew (id : String)
  | signalConnect (webView : Nat) (signal : String) (token : Nat)
  | setTlsErrorsPolicyIgnore
  | setUserAgent (webView : Nat)
  | rendererNew
  | rendererInitialize (window : Nat) (width height : Int) (ok : Bool)
  | setRenderer (wpeView : Option Nat) (renderer : Option Renderer)
  | resize (wpeView : Option Nat) (width height : Int)
  | map (wpeView : Option Nat)
  | rendererCleanup (renderer : Renderer)
  | dispatchTouchEvent (wpeView : Option Nat)
  | loadUri (webView : Nat) (url : String)
  | signalHandlerDisconnect (webView : Option Nat) (token : Nat)
  | webViewUnref (webView : Nat)
  deriving DecidableEq, Repr

/-- The fields of `class WKWebView` that its methods read or write; the
constructor `WKWebView(id)` sets `id_` and leaves the defaults. -/
structure WKWebView where
  id_ : String
  nativeWindow_ : Option Nat := none
  width_ : Int := 0
  height_ : Int := 0
  webView_ : Option Nat := none
  wpeView_ : Option Nat := none
  wpeViewRenderer_ : Option Renderer := none
  signalHandlers_ : List Nat := []
  deriving DecidableEq, Repr

/-- Model of `WKWebView::InitializeRenderer`: the view afterwards and the calls
made. -/
def WKWebView.InitializeRenderer (E : Engine) (v : WKWebView) : WKWebView × List ViewEvent :=
  match v.nativeWindow_ with
  | none =>
    (v, [ViewEvent.logD "WKWebView::InitializeRenderer",
      ViewEvent.logE "Cannot initialize renderer: nativeWindow_ is nullptr"])
  | some window =>
    if v.wpeViewRenderer_.isSome then
      (v, [ViewEvent.logD "WKWebView::InitializeRenderer",
        ViewEvent.logD "Renderer already initialized"])
    else if !E.rendererInitialize window v.width_ v.height_ then
      ({ v with wpeViewRenderer_ := none },
        [ViewEvent.logD "WKWebView::InitializeRenderer", ViewEvent.rendererNew,
          ViewEvent.rendererInitialize window v.width_ v.height_ false,
          ViewEvent.logE "Failed to initialize WPEView renderer"])
    else
      ({ v with wpeViewRenderer_ := some ⟨window, v.width_, v.height_⟩ },
        [ViewEvent.logD "WKWebView::InitializeRenderer", ViewEvent.rendererNew,
          ViewEvent.rendererInitialize window v.width_ v.height_ true,
          ViewEvent.setRenderer v.wpeView_ (some ⟨window, v.width_, v.height_⟩),
          ViewEvent.resize v.wpeView_ v.width_ v.height_,
          ViewEvent.map v.wpeView_])

/-- Model of `WKWebView::Init`: the view afterwards and the calls made. -/
def WKWebView.Init (E : Engine) (v : WKWebView) : WKWebView × List ViewEvent :=
  if v.webView_.isSome then (v, [])
  else
    match E.newWebView v.id_ with
    | none =>
      (v, [ViewEvent.logD "WKWebView::Init", ViewEvent.webViewNew v.id_,
        ViewEvent.logE "Failed to create WebKitWebView"])
    | some w =>
      match E.getWpeView w with
      | none =>
        ({ v with webView_ := some w, wpeView_ := none },
          [ViewEvent.logD "WKWebView::Init", ViewEvent.webViewNew v.id_,
            ViewEvent.logE "Failed to get WPEViewOHOS from WebKitWebView"])
      | some wpe =>
        let v2 : WKWebView :=
          { v with webView_ := some w, wpeView_ := some wpe,
                   signalHandlers_ := v.signalHandlers_ ++
                    [E.signalConnect w "load-changed", E.signalConnect w "load-failed",
                      E.signalConnect w "load-failed-with-tls-errors"] }
        let evs : List ViewEvent :=
          [ViewEvent.logD "WKWebView::Init", ViewEvent.webViewNew v.id_,
            ViewEvent.signalConnect w "load-changed" (E.signalConnect w "load-changed"),
            ViewEvent.signalConnect w "load-failed" (E.signalConnect w "load-failed"),
            ViewEvent.signalConnect w "load-failed-with-tls-errors"
              (E.signalConnect w "load-failed-with-tls-errors"),
            ViewEvent.setTlsErrorsPolicyIgnore, ViewEvent.setUserAgent w]
        if v2.nativeWindow_.isSome && v2.wpeViewRenderer_.isNone then
          ((v2.InitializeRenderer E).1, evs ++ (v2.InitializeRenderer E).2)
        else (v2, evs)

/-! ## The native loop host `WKRuntime` -/

/-- A callback queued on the native loop through `WKRuntime::DoInvoke`. -/
inductive NativeTask where
  | initView (id : String)
  | surfaceCreated (id : String) (window : Option Nat) (width height : Int)
  | surfaceChanged (id : String) (window : Option Nat) (width height : Int)
  | surfaceDestroyed (id : String) (window : Option Nat)
  | touchEvent (id : String)
  | loadURL (id url : String)
  deriving DecidableEq, Repr

/-- The fields of `class WKRuntime` used by the view registry and the deferred
initialization. `mainContext_` is null or holds the callbacks queued on the
context; a `WKWebView*` is null or the address of an object in `views`, the
objects created by `new WKWebView` in creation order. -/
structure WKRuntime where
  mainContext_ : Option (List NativeTask) := none
  uiReady_ : Bool := false
  pendingInitialization_ : List String := []
  wkWebViewMap_ : List (String × Option Nat) := []
  views : List WKWebView := []
  deriving DecidableEq, Repr

/-- Model of `WKRuntime::DoInvoke`: the callback is handed to the main context;
`none` is the dereference of a null `mainContext_`. -/
def WKRuntime.DoInvoke (rt : WKRuntime) (task : NativeTask) : Option WKRuntime :=
  match rt.mainContext_ with
  | none => none
  | some queued => some { rt with mainContext_ := some (queued ++ [task]) }

/-- Model of `WKRuntime::GetWebViewInternal`: the returned pointer and the
runtime afterwards. -/
def WKRuntime.GetWebViewInternal (rt : WKRuntime) (id : String) : Option Nat × WKRuntime :=
  match rt.wkWebViewMap_.lookup id with
  | none =>
    (some rt.views.length,
      { rt with views := rt.views ++ [{ id_ := id }],
                wkWebViewMap_ := rt.wkWebViewMap_ ++ [(id, some rt.views.length)] })
  | some webView => (webView, rt)

/-- Model of `WKRuntime::DoRequestWebViewInit`. -/
def WKRuntime.DoRequestWebViewInit (rt : WKRuntime) (id : String) : Option WKRuntime :=
  if rt.uiReady_ then rt.DoInvoke (NativeTask.initView id)
  else if id ∈ rt.pendingInitialization_ then some rt
  else some { rt with pendingInitialization_ := rt.pendingInitialization_ ++ [id] }

/-- One invocation of `Init()` made by the host: the identifier looked up, the
address of the view and the calls that `Init()` made. -/
structure InitCall where
  id : String
  view : Nat
  events : List ViewEvent
  deriving DecidableEq, Repr

/-- The body of the loop of `FlushPendingInitsOnUIReady` for one identifier:
look the view up and, if the pointer is not null, call `Init()` on it. -/
def WKRuntime.initPending (E : Engine) (st : WKRuntime × List InitCall) (id : String) :
    WKRuntime × List InitCall :=
  match (st.1.GetWebViewInternal id).1 with
  | none => ((st.1.GetWebViewInternal id).2, st.2)
  | some a =>
    match (st.1.GetWebViewInternal id).2.views[a]? with
    | none => ((st.1.GetWebViewInternal id).2, st.2)
    | some v =>
      ({ (st.1.GetWebViewInternal id).2 with
          views := (st.1.GetWebViewInternal id).2.views.set a (v.Init E).1 },
        st.2 ++ [⟨id, a, (v.Init E).2⟩])

/-- Model of `WKRuntime::FlushPendingInitsOnUIReady`: the runtime afterwards and
the `Init()` invocations made, in order. -/
def WKRuntime.FlushPendingInitsOnUIReady (E : Engine) (rt : WKRuntime) :
    WKRuntime × List InitCall :=
  if rt.pendingInitialization_ = [] then (rt, [])
  else
    rt.pendingInitialization_.foldl (WKRuntime.initPending E)
      ({ rt with pendingInitialization_ := [] }, [])

/-- A sequence of `GetWebViewInternal` calls: the pointers returned, in call
order, and the runtime afterwards. -/
def WKRuntime.lookups : List String → WKRuntime → List (Option Nat) × WKRuntime
  | [], rt => ([], rt)
  | id :: ids, rt =>
    ((rt.GetWebViewInternal id).1 :: (WKRuntime.lookups ids (rt.GetWebViewInternal id).2).1,
      (WKRuntime.lookups ids (rt.GetWebViewInternal id).2).2)

/-- A sequence of `RequestWebViewInit` calls; `none` when one of them
dereferences a null `mainContext_`. -/
def WKRuntime.requestAll : List String → WKRuntime → Option WKRuntime
  | [], rt => some rt
  | id :: ids, rt =>
    match rt.DoRequestWebViewInit id with
    | none => none
    | some rt1 => WKRuntime.requestAll ids rt1

/-- The readiness transition of `WKRuntime::UIProcessThread`: the flag is
published, then the pending identifiers are flushed. -/
def WKRuntime.onUIReady (E : Engine) (rt : WKRuntime) : WKRuntime × List InitCall :=
  WKRuntime.FlushPendingInitsOnUIReady E { rt with uiReady_ := true }

/-- The registry is consistent: every entry of the map points to an object that
carries the key as its identifier, and every object is the entry of its
identifier. -/
def WKRuntime.Consistent (rt : WKRuntime) : Prop :=
  (∀ id p, rt.wkWebViewMap_.lookup id = some p →
    ∃ a, p = some a ∧ (rt.views[a]?).map WKWebView.id_ = some id) ∧
  (∀ a v, rt.views[a]? = some v → rt.wkWebViewMap_.lookup v.id_ = some (some a))

/-! ## The presentation pipeline `WPEViewOHOS` -/

/-- The frame timer source: its ready time (-1 is disarmed, 0 is immediately) and
whether it was destroyed. -/
structure GSource where
  readyTime : Int := -1
  destroyed : Bool := false
  deriving DecidableEq, Repr

/-- The fields of `struct _WPEViewOHOS`; a buffer is named by a number. Times
are `gint64` microseconds of the monotonic clock, far below 2^63, and are
integers here. -/
structure WPEViewOHOS where
  pendingBuffer : Option Nat := none
  committedBuffer : Option Nat := none
  frameSource : Option GSource := none
  renderer : Option Renderer := none
  lastFrameTime : Int := 0
  deriving DecidableEq, Repr

/-- What the pipeline does to the outside, in program order. `promoted` marks
the assignment of the pending buffer to `committedBuffer`. -/
inductive FrameEvent where
  | ref (buffer : Nat)
  | unref (buffer : Nat)
  | bufferReleased (buffer : Nat)
  | promoted (buffer : Nat)
  | importFailed (buffer : Nat)
  | render (buffer : Nat) (image : Nat)
  | bufferRendered (buffer : Nat)
  deriving DecidableEq, Repr

/-- The return value of a source callback. -/
inductive SourceReturn where
  | G_SOURCE_CONTINUE
  | G_SOURCE_REMOVE
  deriving DecidableEq, Repr

/-- The effect of `g_source_set_ready_time(source, t)`; on a null source GLib
returns without doing anything. -/
def g_source_set_ready_time (source : Option GSource) (t : Int) : Option GSource :=
  source.map (fun s => { s with readyTime := t })

/-- The effect of `g_set_object(&slot, buffer)`: the references taken and dropped. -/
def g_set_object (slot : Option Nat) (buffer : Nat) : List FrameEvent :=
  if slot = some buffer then []
  else
    match slot with
    | none => [FrameEvent.ref buffer]
    | some old => [FrameEvent.ref buffer, FrameEvent.unref old]

/-- Model of `wpeViewOHOSRenderBuffer`: `eglDisplay` tells whether the EGL display
is available, `now` is `g_get_monotonic_time()`. The result is the returned
flag, the view afterwards and the references moved. -/
def wpeViewOHOSRenderBuffer (eglDisplay : Bool) (now : Int) (v : WPEViewOHOS) (buffer : Nat) :
    Bool × WPEViewOHOS × List FrameEvent :=
  if !eglDisplay then (false, v, [])
  else
    let last := if v.lastFrameTime = 0 then now else v.lastFrameTime
    let next := last + 1000000 / 60
    (true,
      { v with pendingBuffer := some buffer, lastFrameTime := now,
               frameSource := g_source_set_ready_time v.frameSource
                (if next ≤ now then 0 else next) },
      g_set_object v.pendingBuffer buffer)

/-- The promotion step of the frame source callback: the view afterwards and the
events. -/
def promotePending (v : WPEViewOHOS) : WPEViewOHOS × List FrameEvent :=
  match v.pendingBuffer with
  | none => (v, [])
  | some p =>
    ({ v with committedBuffer := some p, pendingBuffer := none },
      (match v.committedBuffer with
        | none => []
        | some c => [FrameEvent.bufferReleased c, FrameEvent.unref c]) ++
      [FrameEvent.promoted p])

/-- Model of the callback of the frame source (the lambda set in
`wpeViewOHOSConstructed`): `importToEglImage` is the answer of
`wpe_buffer_import_to_egl_image` for a buffer. The result is the returned value,
the view afterwards and the events. -/
def frameSourceCallback (importToEglImage : Nat → Option Nat) (v : WPEViewOHOS) :
    SourceReturn × WPEViewOHOS × List FrameEvent :=
  let notifyBufferRendered := v.pendingBuffer.isSome
  let v1 := (promotePending v).1
  let ev1 := (promotePending v).2
  match v1.committedBuffer with
  | none => (SourceReturn.G_SOURCE_CONTINUE, v1, ev1)
  | some c =>
    match importToEglImage c with
    | none => (SourceReturn.G_SOURCE_CONTINUE, v1, ev1 ++ [FrameEvent.importFailed c])
    | some image =>
      ((match v1.frameSource with
          | none => SourceReturn.G_SOURCE_REMOVE
          | some src =>
            if src.destroyed then SourceReturn.G_SOURCE_REMOVE
            else SourceReturn.G_SOURCE_CONTINUE),
        v1,
        ev1 ++ (if v1.renderer.isSome then [FrameEvent.render c image] else []) ++
          (if notifyBufferRendered then [FrameEvent.bufferRendered c] else []))

/-- A run of accepted submissions `(now, buffer)` with no timer fire in between. -/
def submitAll (subs : List (Int × Nat)) (v : WPEViewOHOS) : WPEViewOHOS :=
  subs.foldl (fun w s => (wpeViewOHOSRenderBuffer true s.1 w s.2).2.1) v

/-- A run of timer fires with no submission in between, one import answer per
fire: the view afterwards and all events. -/
def fireAll (answers : List (Nat → Option Nat)) (v : WPEViewOHOS) :
    WPEViewOHOS × List FrameEvent :=
  answers.foldl
    (fun st imp => ((frameSourceCallback imp st.1).2.1, st.2 ++ (frameSourceCallback imp st.1).2.2))
    (v, [])

/-- One step of the pipeline: a submission (with the availability of the EGL
display and the time) or a timer fire (with the import answer). -/
inductive PipelineOp where
  | submit (eglDisplay : Bool) (now : Int)
  | fire (importToEglImage : Nat → Option Nat)

/-- The pipeline with its submissions numbered 1, 2, 3, ... in the order
`render_buffer` receives them: `received` is the number of the last one. -/
structure NumberedView where
  view : WPEViewOHOS := {}
  received : Nat := 0

/-- One step on the numbered pipeline: a submission carries the next number as
its buffer. -/
def NumberedView.step (s : NumberedView) : PipelineOp → NumberedView
  | PipelineOp.submit eglDisplay now =>
    { view := (wpeViewOHOSRenderBuffer eglDisplay now s.view (s.received + 1)).2.1,
      received := s.received + 1 }
  | PipelineOp.fire imp => { s with view := (frameSourceCallback imp s.view).2.1 }

/-- The number of the committed buffer, 0 when the slot is empty. -/
def NumberedView.committedNumber (s : NumberedView) : Nat :=
  s.view.committedBuffer.getD 0

/-- Whether every submission of a run finds the EGL display available. -/
def PipelineOp.accepted : PipelineOp → Bool
  | PipelineOp.submit eglDisplay _ => eglDisplay
  | PipelineOp.fire _ => true

/-- The buffer an event commits, draws or reports as rendered, if it does one of
these. -/
def FrameEvent.shows : FrameEvent → Option Nat
  | FrameEvent.promoted b => some b
  | FrameEvent.render b _ => some b
  | FrameEvent.bufferRendered b => some b
  | _ => none

/-! ## Second copy of the splitter, retry sizes of `GetDir`, `Environment` -/

/-- Model of `SplitByColon(str, out)` as it stands in `web_process.cpp`; the text
is that of the copy in `network_process.cpp`. -/
def WebProcess.SplitByColon (str : Option (List Char)) : Int × List (List Char) :=
  match str with
  | none => (-1, [])
  | some s =>
    let r := splitLoop s (s.length + 1) 0 0 []
    let out := if r.1 ≠ r.2.1 then r.2.2 ++ [substr s r.1 (r.2.1 - r.1)] else r.2.2
    ((out.length : Int), out)

/-- The next buffer size of `GetDir` after a query for `size` bytes that asked for
a resize and stored `written`. -/
def GetDirNext (size written : Int) : Int :=
  if written > size ∧ written < 64 * 1024 then written + 1 else size * 2

/-- The sizes `GetDir` passes to the query function, call by call, for the loop
started at `size`; the first argument bounds the number of iterations as in
`GetDirLoop`. -/
def GetDirCalls (fn : DirQuery) : Nat → Int → List Int
  | 0, _ => []
  | fuel + 1, size =>
    if size ≤ 64 * 1024 then
      size ::
        (if (fn size).ret = AbilityRuntime_ErrorCode.NO_ERROR then []
         else if (fn size).ret = AbilityRuntime_ErrorCode.PARAM_INVALID then
          GetDirCalls fn fuel (GetDirNext size (fn size).written)
         else [])
    else []

/-- Model of `Environment::Initialize(params)`: the `setenv` calls in order, each
with the name and the value; `none` is an index past the end of the vector. -/
def Environment.Initialize (params : List (List Char)) : Option (List (String × List Char)) :=
  match params[1]?, params[2]?, params[4]? with
  | some cache, some files, some bundle =>
    some [("TMP", cstr cache), ("TEMP", cstr cache), ("TMPDIR", cstr cache),
      ("XDG_CACHE_HOME", cstr cache), ("XDG_RUNTIME_DIR", cstr cache),
      ("FONTCONFIG_PATH", cstr files), ("HOME", cstr files), ("XDG_DATA_HOME", cstr files),
      ("XDG_DATA_DIRS", cstr files), ("XDG_CONFIG_HOME", cstr files),
      ("XDG_CONFIG_DIRS", cstr files),
      ("GIO_EXTRA_MODULES", cstr (bundle ++ "/libs/arm64/gio/modules/".toList)),
      ("WEBKIT_INJECTED_BUNDLE_PATH",
        cstr (bundle ++ "/libs/arm64/wpe-webkit-2.0/injected-bundle/".toList))]
  | _, _, _ => none

/-- The vector the constructor `WKRuntime::WKRuntime()` passes to
`Environment::Initialize`: the tag, then whatever
`GetEnvronmentParamsFromApplicationContext` appended; its returned flag is not
looked at. -/
def WKRuntime.constructorParams (P : Platform) : List (List Char) :=
  (GetEnvronmentParamsFromApplicationContext P ["WPEUIProcess".toList]).2

/-- The call of `Environment::Initialize` in the constructor `WKRuntime::WKRuntime()`. -/
def WKRuntime.constructorEnvironment (P : Platform) : Option (List (String × List Char)) :=
  Environment.Initialize (WKRuntime.constructorParams P)

/-! ## Timer dispatch, teardown and touch input of `WPEViewOHOS` -/

/-- Model of the `dispatch` function of `frameSourceFuncs`, called with the frame
source of the view: a disarmed source is left alone, an armed one is disarmed
and its callback runs. A view without a frame source has no timer to dispatch. -/
def frameSourceDispatch (importToEglImage : Nat → Option Nat) (v : WPEViewOHOS) :
    SourceReturn × WPEViewOHOS × List FrameEvent :=
  match v.frameSource with
  | none => (SourceReturn.G_SOURCE_CONTINUE, v, [])
  | some src =>
    if src.readyTime = -1 then (SourceReturn.G_SOURCE_CONTINUE, v, [])
    else
      frameSourceCallback importToEglImage
        { v with frameSource := g_source_set_ready_time (some src) (-1) }

/-- What `wpeViewOHOSDispose` does, in program order. -/
inductive DisposeEvent where
  | logD (msg : String)
  | sourceDestroy
  | unref (buffer : Nat)
  | rendererReset (renderer : Renderer)
  | parentDispose
  deriving DecidableEq, Repr

/-- The effect of `g_clear_object(&slot)`. -/
def g_clear_object (slot : Option Nat) : List DisposeEvent :=
  match slot with
  | none => []
  | some b => [DisposeEvent.unref b]

/-- Model of `wpeViewOHOSDispose`: the view afterwards and the calls made. -/
def wpeViewOHOSDispose (v : WPEViewOHOS) : WPEViewOHOS × List DisposeEvent :=
  ({ v with frameSource := none, pendingBuffer := none, committedBuffer := none,
            renderer := none },
    [DisposeEvent.logD "WPEViewOHOS::dispose"] ++
    (if v.frameSource.isSome then [DisposeEvent.sourceDestroy] else []) ++
    g_clear_object v.pendingBuffer ++
    g_clear_object v.committedBuffer ++
    (match v.renderer with
      | none => []
      | some r => [DisposeEvent.rendererReset r]) ++
    [DisposeEvent.parentDispose])

/-- The kinds of touch event of the component; `OH_NATIVEXCOMPONENT_UNKNOWN`
stands for every value the `switch` has no case for. -/
inductive OH_NativeXComponent_TouchEventType where
  | OH_NATIVEXCOMPONENT_DOWN
  | OH_NATIVEXCOMPONENT_UP
  | OH_NATIVEXCOMPONENT_MOVE
  | OH_NATIVEXCOMPONENT_CANCEL
  | OH_NATIVEXCOMPONENT_UNKNOWN
  deriving DecidableEq, Repr

/-- The event types of the engine that the touch dispatch uses. -/
inductive WPEEventType where
  | WPE_EVENT_NONE
  | WPE_EVENT_TOUCH_DOWN
  | WPE_EVENT_TOUCH_UP
  | WPE_EVENT_TOUCH_MOVE
  | WPE_EVENT_TOUCH_CANCEL
  deriving DecidableEq, Repr

/-- One sample of a touch event: the fields `id`, `x`, `y` of a touch point;
the coordinates are passed through as they are and are integers here. -/
structure OH_NativeXComponent_TouchPoint where
  id : Int
  x : Int
  y : Int
  deriving DecidableEq, Repr

/-- The fields of `OH_NativeXComponent_TouchEvent` that the dispatch reads. -/
structure OH_NativeXComponent_TouchEvent where
  id : Int
  type : OH_NativeXComponent_TouchEventType
  timeStamp : Int
  touchPoints : List OH_NativeXComponent_TouchPoint
  numPoints : Int
  deriving DecidableEq, Repr

/-- The arguments of one `wpe_event_touch_new` call followed by `wpe_view_event`,
as the callee receives them. -/
structure WPEEventTouch where
  type : WPEEventType
  view : Nat
  time : Int
  sequenceId : Int
  x : Int
  y : Int
  deriving DecidableEq, Repr

/-- The `switch` of `wpe_view_ohos_dispatch_touch_event`. -/
def touchEventType : OH_NativeXComponent_TouchEventType → WPEEventType
  | OH_NativeXComponent_TouchEventType.OH_NATIVEXCOMPONENT_DOWN => WPEEventType.WPE_EVENT_TOUCH_DOWN
  | OH_NativeXComponent_TouchEventType.OH_NATIVEXCOMPONENT_UP => WPEEventType.WPE_EVENT_TOUCH_UP
  | OH_NativeXComponent_TouchEventType.OH_NATIVEXCOMPONENT_MOVE => WPEEventType.WPE_EVENT_TOUCH_MOVE
  | OH_NativeXComponent_TouchEventType.OH_NATIVEXCOMPONENT_CANCEL =>
    WPEEventType.WPE_EVENT_TOUCH_CANCEL
  | OH_NativeXComponent_TouchEventType.OH_NATIVEXCOMPONENT_UNKNOWN => WPEEventType.WPE_EVENT_NONE

/-- The `for` loop of `wpe_view_ohos_dispatch_touch_event` with `remaining`
iterations to go from index `i`; `none` is a read past the end of `touchPoints`.
The parameters `time` and `sequence_id` of `wpe_event_touch_new` are `guint32`:
the time stamp (a `long long`) and the `id` (an `int32_t`) of the event arrive
reduced modulo 2^32 = 4294967296. -/
def touchLoop (view : Nat) (event : OH_NativeXComponent_TouchEvent) :
    Nat → Nat → Option (List WPEEventTouch)
  | 0, _ => some []
  | remaining + 1, i =>
    match event.touchPoints[i]? with
    | none => none
    | some point =>
      (touchLoop view event remaining (i + 1)).map
        (fun rest =>
          { type := touchEventType event.type, view := view,
            time := event.timeStamp % 4294967296,
            sequenceId := event.id % 4294967296, x := point.x, y := point.y } :: rest)

/-- Model of `wpe_view_ohos_dispatch_touch_event`: the engine events emitted, in
order; a null view or a null event returns at the guard. -/
def wpe_view_ohos_dispatch_touch_event (view : Option Nat)
    (event : Option OH_NativeXComponent_TouchEvent) : Option (List WPEEventTouch) :=
  match view, event with
  | some vw, some ev => touchLoop vw ev ev.numPoints.toNat 0
  | _, _ => some []

/-! ## Entry points of the host and the states of its worker thread -/

/-- Model of `WKRuntime::UIProcessThread`: the states of the host that other
threads can observe while the worker runs, in order: the context built, then
either nothing more (the display does not connect), or readiness published, the
pending identifiers flushed (the loop runs in this state), the context reset
after the loop has stopped, and readiness withdrawn. -/
def WKRuntime.UIProcessThread (E : Engine) (displayConnects : Bool) (rt : WKRuntime) :
    List WKRuntime :=
  let built : WKRuntime := { rt with mainContext_ := some [] }
  if !displayConnects then [built]
  else
    let ready : WKRuntime := { built with uiReady_ := true }
    let running : WKRuntime := (WKRuntime.FlushPendingInitsOnUIReady E ready).1
    let stopped : WKRuntime := { running with mainContext_ := none }
    [built, ready, running, stopped, { stopped with uiReady_ := false }]

/-- Model of the static `WKRuntime::Invoke`: it forwards to `DoInvoke` of the
instance. -/
def WKRuntime.Invoke (rt : WKRuntime) (task : NativeTask) : Option WKRuntime :=
  rt.DoInvoke task

/-- Model of `OnSurfaceCreatedCB` on the host. -/
def OnSurfaceCreatedCB (rt : WKRuntime) (id : String) (window : Option Nat)
    (width height : Int) : Option WKRuntime :=
  rt.Invoke (NativeTask.surfaceCreated id window width height)

/-- Model of `OnSurfaceChangedCB` on the host. -/
def OnSurfaceChangedCB (rt : WKRuntime) (id : String) (window : Option Nat)
    (width height : Int) : Option WKRuntime :=
  rt.Invoke (NativeTask.surfaceChanged id window width height)

/-- Model of `OnSurfaceDestroyedCB` on the host. -/
def OnSurfaceDestroyedCB (rt : WKRuntime) (id : String) (window : Option Nat) :
    Option WKRuntime :=
  rt.Invoke (NativeTask.surfaceDestroyed id window)

/-- Model of `DispatchTouchEventCB` on the host; `gotEvent` tells whether
`OH_NativeXComponent_GetTouchEvent` succeeded. -/
def DispatchTouchEventCB (rt : WKRuntime) (id : String) (gotEvent : Bool) : Option WKRuntime :=
  if !gotEvent then some rt else rt.Invoke (NativeTask.touchEvent id)

/-- Model of `NapiLoadURL` on the host once its arguments are read. -/
def NapiLoadURL (rt : WKRuntime) (id url : String) : Option WKRuntime :=
  rt.Invoke (NativeTask.loadURL id url)

/-! ## The surface, touch and load methods of `WKWebView` and its destructor -/

/-- Model of `WKWebView::OnSurfaceCreated`: the view afterwards and the calls
made. -/
def WKWebView.OnSurfaceCreated (E : Engine) (v : WKWebView) (window : Option Nat)
    (width height : Int) : WKWebView × List ViewEvent :=
  let v1 : WKWebView := { v with nativeWindow_ := window, width_ := width, height_ := height }
  if v1.wpeViewRenderer_.isNone && v1.wpeView_.isSome then v1.InitializeRenderer E
  else (v1, [])

/-- Model of `WKWebView::OnSurfaceChanged`, whose body is empty. -/
def WKWebView.OnSurfaceChanged (v : WKWebView) (_window : Option Nat) (_width _height : Int) :
    WKWebView × List ViewEvent :=
  (v, [])

/-- Model of `WKWebView::OnSurfaceDestroyed`: the view afterwards and the calls
made. -/
def WKWebView.OnSurfaceDestroyed (v : WKWebView) (_window : Option Nat) :
    WKWebView × List ViewEvent :=
  match v.wpeView_ with
  | none => (v, [])
  | some wpe =>
    match v.wpeViewRenderer_ with
    | none => (v, [ViewEvent.setRenderer (some wpe) none])
    | some r =>
      ({ v with wpeViewRenderer_ := none },
        [ViewEvent.setRenderer (some wpe) none, ViewEvent.rendererCleanup r])

/-- Model of `WKWebView::DispatchTouchEvent`. -/
def WKWebView.DispatchTouchEvent (v : WKWebView) : WKWebView × List ViewEvent :=
  (v, [ViewEvent.dispatchTouchEvent v.wpeView_])

/-- Model of `WKWebView::LoadURL`. -/
def WKWebView.LoadURL (v : WKWebView) (url : String) : WKWebView × List ViewEvent :=
  match v.webView_ with
  | none => (v, [ViewEvent.logE "WKWebView::LoadURL - webView_ is nullptr"])
  | some w => (v, [ViewEvent.logD "WKWebView::LoadURL", ViewEvent.loadUri w url])

/-- Model of the destructor of `WKWebView`: the fields afterwards and the calls
made, in program order. -/
def WKWebView.destructor (v : WKWebView) : WKWebView × List ViewEvent :=
  ({ v with signalHandlers_ := [], webView_ := none, wpeViewRenderer_ := none },
    [ViewEvent.logD "WKWebView::~WKWebView"] ++
    v.signalHandlers_.map (fun handler => ViewEvent.signalHandlerDisconnect v.webView_ handler) ++
    (match v.webView_ with
      | none => []
      | some w => [ViewEvent.webViewUnref w]) ++
    (match v.wpeViewRenderer_ with
      | none => []
      | some r => [ViewEvent.setRenderer v.wpeView_ none, ViewEvent.rendererCleanup r]))

/-- One call of a method of `WKWebView` made on the native loop. -/
inductive ViewOp where
  | Init
  | LoadURL (url : String)
  | OnSurfaceCreated (window : Option Nat) (width height : Int)
  | OnSurfaceChanged (window : Option Nat) (width height : Int)
  | OnSurfaceDestroyed (window : Option Nat)
  | DispatchTouchEvent
  deriving DecidableEq, Repr

/-- The method call that a `ViewOp` stands for. -/
def WKWebView.apply (E : Engine) (v : WKWebView) : ViewOp → WKWebView × List ViewEvent
  | ViewOp.Init => v.Init E
  | ViewOp.LoadURL url => v.LoadURL url
  | ViewOp.OnSurfaceCreated window width height => v.OnSurfaceCreated E window width height
  | ViewOp.OnSurfaceChanged window width height => v.OnSurfaceChanged window width height
  | ViewOp.OnSurfaceDestroyed window => v.OnSurfaceDestroyed window
  | ViewOp.DispatchTouchEvent => v.DispatchTouchEvent

/-- A sequence of method calls: the view afterwards and the calls made by each
method call, one list per call. -/
def WKWebView.run (E : Engine) : List ViewOp → WKWebView → WKWebView × List (List ViewEvent)
  | [], v => (v, [])
  | op :: ops, v =>
    ((WKWebView.run E ops (v.apply E op).1).1,
      (v.apply E op).2 :: (WKWebView.run E ops (v.apply E op).1).2)

/-- Whether an event is the `Initialize` call of a new renderer. -/
def ViewEvent.isRendererInitialize : ViewEvent → Bool
  | ViewEvent.rendererInitialize _ _ _ _ => true
  | _ => false

/-- Whether a method call is not `OnSurfaceCreated` with a null window. -/
def ViewOp.windowNotNull : ViewOp → Bool
  | ViewOp.OnSurfaceCreated none _ _ => false
  | _ => true

/-- The relation between the fields of a `WKWebView` that its methods keep: the
platform view exists only with the engine view, handlers and renderer exist only
with the platform view, and with the platform view there are three handlers. -/
def WKWebView.WellFormed (v : WKWebView) : Prop :=
  (v.webView_ = none → v.wpeView_ = none) ∧
  (v.wpeView_ = none → v.signalHandlers_ = [] ∧ v.wpeViewRenderer_ = none) ∧
  (v.wpeView_.isSome = true → v.signalHandlers_.length = 3)

/-! ## Sample inputs -/

/-- A view with a frame source, both slots filled and a renderer. -/
def fullView : WPEViewOHOS :=
  { pendingBuffer := some 2, committedBuffer := some 1, frameSource := some {},
    renderer := some ⟨1, 10, 10⟩ }

/-- A touch-down event of the finger with identifier 1 while the finger with
identifier 0 is still down: two samples. -/
def twoFingerDown : OH_NativeXComponent_TouchEvent :=
  { id := 1, type := OH_NativeXComponent_TouchEventType.OH_NATIVEXCOMPONENT_DOWN,
    timeStamp := 5, touchPoints := [⟨0, 10, 20⟩, ⟨1, 30, 40⟩], numPoints := 2 }

/-- A directory query that asks twice for a larger buffer, the first time naming
1500 bytes, and answers "/tmp" once it is given at least 2000 bytes. -/
def growDir : DirQuery := fun size =>
  if size < 2000 then ⟨AbilityRuntime_ErrorCode.PARAM_INVALID, 1500, []⟩
  else ⟨AbilityRuntime_ErrorCode.NO_ERROR, 4, "/tmp".toList⟩

/-- A constructed view: the frame source exists and is disarmed, nothing was
submitted yet. -/
def freshView : WPEViewOHOS := { frameSource := some {} }

/-- An import that succeeds for every buffer, with the buffer number as image. -/
def importOk : Nat → Option Nat := fun b => some b

/-- An import that fails for every buffer. -/
def importFails : Nat → Option Nat := fun _ => none

/-- An engine on which every call succeeds. -/
def sampleEngine : Engine :=
  { newWebView := fun _ => some 100, getWpeView := fun _ => some 200,
    signalConnect := fun _ s => s.length, rendererInitialize := fun _ _ _ => true }

/-- An engine that creates the engine view but has no platform view for it. -/
def noWpeViewEngine : Engine :=
  { sampleEngine with getWpeView := fun _ => none }


/-- A directory query that succeeds with `path` whatever the buffer size. -/
def okDir (path : String) : DirQuery :=
  fun _ => ⟨AbilityRuntime_ErrorCode.NO_ERROR, path.length, path.toList⟩

/-- A directory query that fails with a code other than the resize request. -/
def failDir : DirQuery :=
  fun _ => ⟨AbilityRuntime_ErrorCode.other 1, 0, []⟩

/-- A platform on which all four directories resolve and every spawn yields
pid 4242. -/
def samplePlatform : Platform :=
  { GetCacheDir := okDir "/cache", GetFilesDir := okDir "/files", GetTempDir := okDir "/temp",
    GetBundleCodeDir := okDir "/bundle", stoi := fun _ => some 7,
    StartNativeChildProcess := fun _ => some 4242 }

/-- A platform on which the files directory does not resolve. -/
def brokenPlatform : Platform :=
  { samplePlatform with GetFilesDir := failDir }

/-- An initialized bridge whose host thread is thread 1. -/
def readyBridge (τ : Type) : ArkTSRuntime τ :=
  { inited_ := true, uvLoop_ := some 0, async_ := { loop := some 0, data := true },
    arktsThreadId_ := some 1 }

/-! # Theorems -/

theorem charAt_append_cons (pre : List Char) (c : Char) (suf : List Char) :
    charAt (pre ++ c :: suf) pre.length = c := by
  unfold charAt
  rw [List.getD_eq_getElem?_getD, List.getElem?_append_right (le_refl _)]
  simp

theorem charAt_length (s : List Char) : charAt s s.length = '\x00' := by
  simp [charAt, List.getD_eq_getElem?_getD]

theorem substr_mid (pre cur suf : List Char) :
    substr (pre ++ (cur ++ suf)) pre.length cur.length = cur := by
  simp [substr]

/-- The pointer loop computes the list-level scan: with `start` and `end`
delimiting `cur` and enough iterations left for the unread rest. -/
theorem splitLoop_eq_scan (suf : List Char) :
    ∀ (pre cur : List Char) (out : List (List Char)) (fuel : Nat),
      suf.length + 1 ≤ fuel →
      ∃ pre2 suf2 : List Char,
        pre ++ (cur ++ suf) = pre2 ++ ((scan suf cur out).1 ++ suf2) ∧
        charAt (pre ++ (cur ++ suf)) (pre2.length + (scan suf cur out).1.length) = '\x00' ∧
        splitLoop (pre ++ (cur ++ suf)) fuel pre.length (pre.length + cur.length) out
          = (pre2.length, pre2.length + (scan suf cur out).1.length, (scan suf cur out).2) := by
  induction suf with
  | nil =>
    intro pre cur out fuel hf
    refine ⟨pre, [], rfl, ?_, ?_⟩
    · have := charAt_length (pre ++ cur)
      simpa [scan] using this
    · obtain ⟨k, rfl⟩ : ∃ k, fuel = k + 1 := ⟨fuel - 1, by omega⟩
      have := charAt_length (pre ++ cur)
      simp only [List.append_nil, List.length_append] at this ⊢
      simp [splitLoop, scan, this]
  | cons c rest ih =>
    intro pre cur out fuel hf
    obtain ⟨k, rfl⟩ : ∃ k, fuel = k + 1 := ⟨fuel - 1, by simp at hf; omega⟩
    have hk : rest.length + 1 ≤ k := by simp at hf; omega
    have hc : charAt (pre ++ (cur ++ c :: rest)) (pre.length + cur.length) = c := by
      have := charAt_append_cons (pre ++ cur) c rest
      simpa using this
    by_cases h0 : c = '\x00'
    · refine ⟨pre, c :: rest, ?_, ?_, ?_⟩
      · simp [scan, h0]
      · simp [scan, h0] at hc ⊢
        exact hc
      · rw [splitLoop, hc, if_pos h0]
        simp [scan, h0]
    · by_cases h1 : c = ':'
      · obtain ⟨pre2, suf2, e1, e2, e3⟩ := ih (pre ++ (cur ++ [c])) [] (out ++ [cur]) k hk
        have hs : substr (pre ++ (cur ++ c :: rest)) pre.length cur.length = cur :=
          substr_mid pre cur (c :: rest)
        have hstr : pre ++ (cur ++ c :: rest) = (pre ++ (cur ++ [c])) ++ ([] ++ rest) := by simp
        refine ⟨pre2, suf2, ?_, ?_, ?_⟩
        · rw [hstr, e1]; simp [scan, h0, h1]
        · rw [hstr]; simpa [scan, h0, h1] using e2
        · rw [splitLoop, hc, if_neg h0, if_pos h1]
          simp only [Nat.add_sub_cancel_left, hs]
          rw [hstr]
          have hl : (pre ++ (cur ++ [c])).length = pre.length + cur.length + 1 := by
            simp; omega
          rw [hl] at e3
          simpa [scan, h0, h1] using e3
      · obtain ⟨pre2, suf2, e1, e2, e3⟩ := ih pre (cur ++ [c]) out k hk
        have hstr : pre ++ (cur ++ c :: rest) = pre ++ ((cur ++ [c]) ++ rest) := by simp
        refine ⟨pre2, suf2, ?_, ?_, ?_⟩
        · rw [hstr, e1]; simp [scan, h0, h1]
        · rw [hstr]; simpa [scan, h0, h1] using e2
        · rw [splitLoop, hc, if_neg h0, if_neg h1, hstr]
          have hl : pre.length + (cur ++ [c]).length = pre.length + cur.length + 1 := by
            simp; omega
          rw [hl] at e3
          simpa [scan, h0, h1] using e3

/-- The iteration bound of `SplitByColon` is never what ends the loop: the loop
ends with `*end` being the terminator. -/
theorem splitLoop_stops_at_nul (s : List Char) :
    charAt s (splitLoop s (s.length + 1) 0 0 []).2.1 = '\x00' := by
  obtain ⟨pre2, suf2, _, e2, e3⟩ := splitLoop_eq_scan s [] [] [] (s.length + 1) le_rfl
  simp only [List.nil_append, List.length_nil, Nat.add_zero] at e2 e3
  rw [e3]
  exact e2

/-- The result of `SplitByColon` on a non-null buffer, read off the list-level scan. -/
theorem SplitByColon_some (s : List Char) :
    SplitByColon (some s) =
      (((if (scan s [] []).1 ≠ [] then (scan s [] []).2 ++ [(scan s [] []).1]
          else (scan s [] []).2).length : Int),
        if (scan s [] []).1 ≠ [] then (scan s [] []).2 ++ [(scan s [] []).1]
          else (scan s [] []).2) := by
  obtain ⟨pre2, suf2, e1, _, e3⟩ := splitLoop_eq_scan s [] [] [] (s.length + 1) le_rfl
  simp only [List.nil_append, List.length_nil, Nat.add_zero] at e1 e3
  have hs : substr s pre2.length (scan s [] []).1.length = (scan s [] []).1 := by
    have := substr_mid pre2 (scan s [] []).1 suf2
    rw [← e1] at this
    exact this
  simp only [SplitByColon, e3, Nat.add_sub_cancel_left, hs]
  by_cases h : (scan s [] []).1 = []
  · simp [h]
  · have : (scan s [] []).1.length ≠ 0 := by simpa using h
    simp [h, this]

/-- A run of characters free of ':' and NUL is added to the current segment. -/
theorem scan_segment (seg : List Char) (h1 : ':' ∉ seg) (h0 : '\x00' ∉ seg) :
    ∀ (rest cur : List Char) (out : List (List Char)),
      scan (seg ++ rest) cur out = scan rest (cur ++ seg) out := by
  induction seg with
  | nil => intro rest cur out; simp
  | cons c seg ih =>
    intro rest cur out
    have hc1 : c ≠ ':' := fun h => h1 (by simp [h])
    have hc0 : c ≠ '\x00' := fun h => h0 (by simp [h])
    have ih2 := ih (fun h => h1 (List.mem_cons_of_mem _ h)) (fun h => h0 (List.mem_cons_of_mem _ h))
    simp [scan, hc1, hc0, ih2]

theorem scan_colon (rest cur : List Char) (out : List (List Char)) :
    scan (':' :: rest) cur out = scan rest [] (out ++ [cur]) := by
  simp [scan]

/-- The segments already stored are never touched again. -/
theorem scan_out_prefix (suf : List Char) :
    ∀ (cur : List Char) (out : List (List Char)), ∃ more, (scan suf cur out).2 = out ++ more := by
  induction suf with
  | nil => intro cur out; exact ⟨[], by simp [scan]⟩
  | cons c rest ih =>
    intro cur out
    by_cases h0 : c = '\x00'
    · exact ⟨[], by simp [scan, h0]⟩
    · by_cases h1 : c = ':'
      · obtain ⟨m, hm⟩ := ih [] (out ++ [cur])
        exact ⟨cur :: m, by simp [scan, h0, h1, hm]⟩
      · obtain ⟨m, hm⟩ := ih (cur ++ [c]) out
        exact ⟨m, by simp [scan, h0, h1, hm]⟩

/-- The loop of `JoinWithColon` once `first` is false. -/
theorem JoinWithColon_foldl (ps : List (List Char)) :
    ∀ acc : List Char,
      (ps.foldl joinStep (acc, false)).1 = acc ++ (ps.map (fun s => ':' :: s)).flatten := by
  induction ps with
  | nil => intro acc; simp
  | cons p ps ih =>
    intro acc
    rw [List.foldl_cons]
    have : joinStep (acc, false) p = (acc ++ ':' :: p, false) := by simp [joinStep]
    rw [this, ih]
    simp

theorem JoinWithColon_cons (p : List Char) (ps : List (List Char)) :
    JoinWithColon (p :: ps) = p ++ (ps.map (fun s => ':' :: s)).flatten := by
  unfold JoinWithColon
  rw [List.foldl_cons]
  have : joinStep ([], true) p = (p, false) := by simp [joinStep]
  rw [this, JoinWithColon_foldl]

theorem JoinWithColon_eq_intercalate (parts : List (List Char)) :
    JoinWithColon parts = List.intercalate [':'] parts := by
  cases parts with
  | nil => rfl
  | cons p ps =>
    rw [JoinWithColon_cons]
    induction ps generalizing p with
    | nil => simp [List.intercalate]
    | cons q qs ih =>
      have := ih q
      simp only [List.intercalate, List.intersperse, List.map_cons, List.flatten_cons] at this ⊢
      simp [this]

/-- The scan over a joined list of segments free of ':' and NUL stores all but
the last and leaves the last as the current segment. -/
theorem scan_join (ps : List (List Char)) :
    ∀ (p cur : List Char) (out : List (List Char)),
      (∀ q ∈ p :: ps, ':' ∉ q ∧ '\x00' ∉ q) →
      scan (p ++ (ps.map (fun s => ':' :: s)).flatten) cur out =
        (((cur ++ p) :: ps).getLast (List.cons_ne_nil _ _),
          out ++ ((cur ++ p) :: ps).dropLast) := by
  induction ps with
  | nil =>
    intro p cur out h
    have hp := h p (by simp)
    have := scan_segment p hp.1 hp.2 [] cur out
    simpa [scan] using this
  | cons q qs ih =>
    intro p cur out h
    have hp := h p (by simp)
    have hq : ∀ r ∈ q :: qs, ':' ∉ r ∧ '\x00' ∉ r := fun r hr => h r (List.mem_cons_of_mem _ hr)
    rw [List.map_cons, List.flatten_cons, scan_segment p hp.1 hp.2, List.cons_append, scan_colon,
      ih q [] _ hq]
    simp

/-- Round trip on the well-formed blobs: segments free of ':' and NUL, the last
one non-empty, come back from `SplitByColon` as they went into `JoinWithColon`. -/
theorem SplitByColon_JoinWithColon (parts : List (List Char)) (hne : parts ≠ [])
    (hclean : ∀ q ∈ parts, ':' ∉ q ∧ '\x00' ∉ q) (hlast : parts.getLast hne ≠ []) :
    SplitByColon (some (JoinWithColon parts)) = ((parts.length : Int), parts) := by
  cases parts with
  | nil => exact absurd rfl hne
  | cons p ps =>
    rw [SplitByColon_some, JoinWithColon_cons, scan_join ps p [] [] hclean]
    simp only [List.nil_append] at hlast ⊢
    rw [if_pos hlast, List.dropLast_append_getLast]

/-- A blob is read only up to its first NUL. -/
theorem scan_cstr (l : List Char) :
    ∀ (cur : List Char) (out : List (List Char)), scan (cstr l) cur out = scan l cur out := by
  induction l with
  | nil => intro cur out; rfl
  | cons c rest ih =>
    intro cur out
    by_cases h0 : c = '\x00'
    · simp [cstr, scan, h0]
    · have hc : cstr (c :: rest) = c :: cstr rest := by simp [cstr, h0]
      rw [hc]
      by_cases h1 : c = ':'
      · simp [scan, h0, h1, ih]
      · simp [scan, h0, h1, ih]

theorem SplitByColon_cstr (l : List Char) :
    SplitByColon (some (cstr l)) = SplitByColon (some l) := by
  rw [SplitByColon_some, SplitByColon_some, scan_cstr]

/-- Segment 0 of a blob joined from a tag and at least one more field is the tag. -/
theorem SplitByColon_head (tag p : List Char) (ps : List (List Char))
    (h1 : ':' ∉ tag) (h0 : '\x00' ∉ tag) :
    (SplitByColon (some (cstr (JoinWithColon (tag :: p :: ps))))).2.head? = some tag := by
  rw [SplitByColon_cstr, SplitByColon_some, JoinWithColon_cons, List.map_cons, List.flatten_cons,
    scan_segment tag h1 h0, List.cons_append, scan_colon]
  obtain ⟨more, hm⟩ := scan_out_prefix (p ++ (ps.map (fun s => ':' :: s)).flatten) []
    ([] ++ [[] ++ tag])
  rw [hm]
  split <;> simp

/-- Extra iterations change nothing once the bound covers the sizes left below
the maximum: every retry enlarges `size`. -/
theorem GetDirLoop_fuel (fn : DirQuery) (outStr : List Char) :
    ∀ (fuel : Nat) (size : Int), 1 ≤ size → 65537 - size ≤ (fuel : Int) →
      ∀ k : Nat, GetDirLoop fn outStr (fuel + k) size = GetDirLoop fn outStr fuel size := by
  intro fuel
  induction fuel with
  | zero =>
    intro size _ hbig k
    have hgt : ¬ size ≤ 64 * 1024 := by
      simp only [Nat.cast_zero] at hbig
      omega
    cases k with
    | zero => rfl
    | succ k =>
      rw [Nat.zero_add]
      simp only [GetDirLoop, if_neg hgt]
  | succ fuel ih =>
    intro size hpos hbig k
    have hk : fuel + 1 + k = (fuel + k) + 1 := by omega
    rw [hk]
    simp only [GetDirLoop]
    by_cases hle : size ≤ 64 * 1024
    · simp only [if_pos hle]
      by_cases h0 : (fn size).ret = AbilityRuntime_ErrorCode.NO_ERROR
      · simp only [if_pos h0]
      · simp only [if_neg h0]
        by_cases h1 : (fn size).ret = AbilityRuntime_ErrorCode.PARAM_INVALID
        · simp only [if_pos h1]
          apply ih
          · split <;> omega
          · push_cast at hbig ⊢
            split <;> omega
        · simp only [if_neg h1]
    · simp only [if_neg hle]

/-- The iteration bound of `GetDir` is never what ends its loop. -/
theorem GetDir_fuel (fn : DirQuery) (outStr : List Char) (k : Nat) :
    GetDirLoop fn outStr (65536 + k) 512 = GetDir fn outStr :=
  GetDirLoop_fuel fn outStr 65536 512 (by norm_num) (by norm_num) k

theorem GetEnvronmentParams_ok (P : Platform) (outParams : List (List Char))
    (hc : (GetDir P.GetCacheDir []).1 = AbilityRuntime_ErrorCode.NO_ERROR)
    (hf : (GetDir P.GetFilesDir []).1 = AbilityRuntime_ErrorCode.NO_ERROR)
    (ht : (GetDir P.GetTempDir []).1 = AbilityRuntime_ErrorCode.NO_ERROR)
    (hb : (GetDir P.GetBundleCodeDir []).1 = AbilityRuntime_ErrorCode.NO_ERROR) :
    GetEnvronmentParamsFromApplicationContext P outParams =
      (true, outParams ++ [(GetDir P.GetCacheDir []).2, (GetDir P.GetFilesDir []).2,
        (GetDir P.GetTempDir []).2, (GetDir P.GetBundleCodeDir []).2]) := by
  simp [GetEnvronmentParamsFromApplicationContext, hc, hf, ht, hb]

theorem GetEnvronmentParams_fail (P : Platform) (outParams : List (List Char))
    (h : (GetDir P.GetCacheDir []).1 ≠ AbilityRuntime_ErrorCode.NO_ERROR ∨
      (GetDir P.GetFilesDir []).1 ≠ AbilityRuntime_ErrorCode.NO_ERROR ∨
      (GetDir P.GetTempDir []).1 ≠ AbilityRuntime_ErrorCode.NO_ERROR ∨
      (GetDir P.GetBundleCodeDir []).1 ≠ AbilityRuntime_ErrorCode.NO_ERROR) :
    GetEnvronmentParamsFromApplicationContext P outParams = (false, outParams) := by
  unfold GetEnvronmentParamsFromApplicationContext
  by_cases hc : (GetDir P.GetCacheDir []).1 = AbilityRuntime_ErrorCode.NO_ERROR
  · by_cases hf : (GetDir P.GetFilesDir []).1 = AbilityRuntime_ErrorCode.NO_ERROR
    · by_cases ht : (GetDir P.GetTempDir []).1 = AbilityRuntime_ErrorCode.NO_ERROR
      · by_cases hb : (GetDir P.GetBundleCodeDir []).1 = AbilityRuntime_ErrorCode.NO_ERROR
        · rcases h with h | h | h | h <;> contradiction
        · simp [hc, hf, ht, hb]
      · simp [hc, hf, ht]
    · simp [hc, hf]
  · simp [hc]

theorem launchBranch_ok (P : Platform) (tag libEntry : String) (fdName : List Char) (fd : Int)
    (w : HostWorld)
    (hc : (GetDir P.GetCacheDir []).1 = AbilityRuntime_ErrorCode.NO_ERROR)
    (hf : (GetDir P.GetFilesDir []).1 = AbilityRuntime_ErrorCode.NO_ERROR)
    (ht : (GetDir P.GetTempDir []).1 = AbilityRuntime_ErrorCode.NO_ERROR)
    (hb : (GetDir P.GetBundleCodeDir []).1 = AbilityRuntime_ErrorCode.NO_ERROR) :
    launchBranch P tag libEntry fdName fd w =
      ((P.StartNativeChildProcess ⟨libEntry, launchBlob P tag, fdName, fd⟩).getD (-1),
        { w with spawns := w.spawns ++ [⟨libEntry, launchBlob P tag, fdName, fd⟩] }) := by
  simp [launchBranch, launchBlob, GetEnvronmentParams_ok P _ hc hf ht hb]

theorem launchBranch_fail (P : Platform) (tag libEntry : String) (fdName : List Char) (fd : Int)
    (w : HostWorld)
    (h : (GetDir P.GetCacheDir []).1 ≠ AbilityRuntime_ErrorCode.NO_ERROR ∨
      (GetDir P.GetFilesDir []).1 ≠ AbilityRuntime_ErrorCode.NO_ERROR ∨
      (GetDir P.GetTempDir []).1 ≠ AbilityRuntime_ErrorCode.NO_ERROR ∨
      (GetDir P.GetBundleCodeDir []).1 ≠ AbilityRuntime_ErrorCode.NO_ERROR) :
    launchBranch P tag libEntry fdName fd w = (-1, w) := by
  simp [launchBranch, GetEnvronmentParams_fail P _ h]

theorem DoInvoke_inited {τ : Type} (rt : ArkTSRuntime τ) (t : τ) (h : rt.inited_ = true) :
    rt.DoInvoke t =
      { rt with deque_ := rt.deque_ ++ [t], async_ := { rt.async_ with sent := true } } := by
  simp [ArkTSRuntime.DoInvoke, h]

theorem DoInvoke_not_inited {τ : Type} (rt : ArkTSRuntime τ) (t : τ) (h : rt.inited_ = false) :
    rt.DoInvoke t = rt := by
  simp [ArkTSRuntime.DoInvoke, h]

theorem DoInit_inited {τ : Type} (rt : ArkTSRuntime τ) (env : napi_env) (tid : ThreadId)
    (h : rt.inited_ = true) : rt.DoInit env tid = (true, rt) := by
  simp [ArkTSRuntime.DoInit, h]

/-- A run of `Invoke` calls on an initialized bridge appends the tasks in call
order and keeps the bridge initialized. -/
theorem foldl_DoInvoke {τ : Type} (ts : List τ) :
    ∀ rt : ArkTSRuntime τ, rt.inited_ = true →
      (ts.foldl ArkTSRuntime.DoInvoke rt).deque_ = rt.deque_ ++ ts ∧
      (ts.foldl ArkTSRuntime.DoInvoke rt).inited_ = true := by
  induction ts with
  | nil => intro rt h; simp [h]
  | cons t ts ih =>
    intro rt h
    rw [List.foldl_cons, DoInvoke_inited rt t h]
    have := ih { rt with deque_ := rt.deque_ ++ [t], async_ := { rt.async_ with sent := true } } h
    simpa using this

/-- A drain in which no closure touches the bridge leaves the bridge as the swap
left it. -/
theorem foldl_exec_bridge {τ σ : Type} (exec : τ → ArkTSRuntime τ × σ → ArkTSRuntime τ × σ)
    (hexec : ∀ t st, (exec t st).1 = st.1) (q : List τ) :
    ∀ st : ArkTSRuntime τ × σ, (q.foldl (fun st fn => exec fn st) st).1 = st.1 := by
  induction q with
  | nil => intro st; rfl
  | cons t q ih => intro st; rw [List.foldl_cons, ih, hexec]

/-! ## Claims on the parameter blob -/

/-- C1: for every list of n >= 1 non-empty C strings none of which contains ':',
`SplitByColon` applied to those strings joined with single ':' characters returns
n and stores exactly those n strings in the same order; the blob
"WPENetworkProcess:/cache:/files:/temp:/bundle" parses into the 5 segments
WPENetworkProcess, /cache, /files, /temp, /bundle. -/
theorem SplitByColon_joined_segments (parts : List (List Char)) (hne : parts ≠ [])
    (hseg : ∀ p ∈ parts, p ≠ [] ∧ ':' ∉ p ∧ '\x00' ∉ p) :
    SplitByColon (some (List.intercalate [':'] parts)) = ((parts.length : Int), parts) ∧
    SplitByColon (some "WPENetworkProcess:/cache:/files:/temp:/bundle".toList) =
      (5, ["WPENetworkProcess".toList, "/cache".toList, "/files".toList, "/temp".toList,
            "/bundle".toList]) := by
  refine ⟨?_, by decide⟩
  rw [← JoinWithColon_eq_intercalate]
  exact SplitByColon_JoinWithColon parts hne (fun q hq => (hseg q hq).2)
    (hseg _ (List.getLast_mem hne)).1

/-- C1 at the two segments "ab" and "c". -/
theorem SplitByColon_joined_segments_witness :
    ([['a', 'b'], ['c']] : List (List Char)) ≠ [] ∧
    (∀ p ∈ ([['a', 'b'], ['c']] : List (List Char)), p ≠ [] ∧ ':' ∉ p ∧ '\x00' ∉ p) ∧
    SplitByColon (some (List.intercalate [':'] [['a', 'b'], ['c']])) =
      ((([['a', 'b'], ['c']] : List (List Char)).length : Int), [['a', 'b'], ['c']]) ∧
    SplitByColon (some "WPENetworkProcess:/cache:/files:/temp:/bundle".toList) =
      (5, ["WPENetworkProcess".toList, "/cache".toList, "/files".toList, "/temp".toList,
            "/bundle".toList]) :=
  ⟨by decide, by decide,
    SplitByColon_joined_segments [['a', 'b'], ['c']] (by decide) (by decide)⟩

/-- C2: on the blob "WPENetworkProcess:/cache:/files:/temp:", which has four ':'
and ends with ':', `SplitByColon` returns 4 and stores the four segments before
the last ':'; the empty trailing segment is not stored, while the empty segment
inside "a::b" is. -/
theorem SplitByColon_trailing_colon :
    SplitByColon (some "WPENetworkProcess:/cache:/files:/temp:".toList) =
      (4, ["WPENetworkProcess".toList, "/cache".toList, "/files".toList, "/temp".toList]) ∧
    SplitByColon (some "a::b".toList) = (3, [['a'], [], ['b']]) := by
  decide

/-- C4: for the role tag "WPEWebProcess" and the directories "/cache", "/files",
"/temp" and the empty bundle directory, the blob built by `JoinWithColon` is
"WPEWebProcess:/cache:/files:/temp:" and `SplitByColon` gives back only 4
segments: the round trip loses the empty last field. -/
theorem SplitByColon_JoinWithColon_empty_bundle :
    JoinWithColon ["WPEWebProcess".toList, "/cache".toList, "/files".toList, "/temp".toList, []]
      = "WPEWebProcess:/cache:/files:/temp:".toList ∧
    SplitByColon (some (JoinWithColon
        ["WPEWebProcess".toList, "/cache".toList, "/files".toList, "/temp".toList, []])) =
      (4, ["WPEWebProcess".toList, "/cache".toList, "/files".toList, "/temp".toList]) := by
  decide

/-! ## Claims on the process entry points -/

/-- The trace of both images on a short blob: for every entry-parameter blob, the
null blob included, that parses into fewer than 5 segments (such as "a:b:c:d"),
`Main` of the content image only logs and returns, and `Main` of the network
image returns after its attempt to load the engine library and one error line;
neither calls `Environment::Initialize`, looks up or invokes the engine entry
point. -/
theorem Main_rejects_short_blob (ld : Loader) (args : NativeChildProcess_Args)
    (h : (SplitByColon args.entryParams).2.length < 5) :
    WebProcess.Main ld args =
      [Effect.logD "libwebprocess::Main",
        Effect.logE "libwebprocess::Main - invalid entryParams"] ∧
    NetworkProcess.Main ld args =
      [Effect.logD "libnetworkprocess::Main - start", Effect.dlopen "libWPEWebKit-2.0.so",
        Effect.logE (if ld.engineLoads then "libnetworkprocess::Main - invalid entryParams"
          else "Failed to load libWPEWebKit-2.0.so")] ∧
    (∀ e ∈ WebProcess.Main ld args ++ NetworkProcess.Main ld args,
      (∀ params, e ≠ Effect.environmentInitialize params) ∧
      (∀ symbol argv, e ≠ Effect.entrypoint symbol argv) ∧
      (∀ symbol, e ≠ Effect.dlsym symbol) ∧ e ≠ Effect.callNull) ∧
    (SplitByColon none).2.length < 5 ∧
    (SplitByColon (some "a:b:c:d".toList)).2.length < 5 := by
  have hw : WebProcess.Main ld args =
      [Effect.logD "libwebprocess::Main",
        Effect.logE "libwebprocess::Main - invalid entryParams"] := by
    simp [WebProcess.Main, h]
  have hn : NetworkProcess.Main ld args =
      [Effect.logD "libnetworkprocess::Main - start", Effect.dlopen "libWPEWebKit-2.0.so",
        Effect.logE (if ld.engineLoads then "libnetworkprocess::Main - invalid entryParams"
          else "Failed to load libWPEWebKit-2.0.so")] := by
    cases hl : ld.engineLoads <;> simp [NetworkProcess.Main, h, hl]
  refine ⟨hw, hn, ?_, by decide, by decide⟩
  intro e he
  rw [hw, hn] at he
  simp only [List.cons_append, List.nil_append, List.mem_cons, List.mem_singleton,
    List.not_mem_nil, or_false] at he
  rcases he with rfl | rfl | rfl | rfl | rfl <;> simp

/-- The trace of both images at the 4-field blob "a:b:c:d" with one descriptor and
a working loader. -/
theorem Main_rejects_short_blob_witness :
    (SplitByColon (some "a:b:c:d".toList)).2.length < 5 ∧
    WebProcess.Main ⟨true, true⟩ ⟨some "a:b:c:d".toList, [⟨"7".toList, 7⟩]⟩ =
      [Effect.logD "libwebprocess::Main",
        Effect.logE "libwebprocess::Main - invalid entryParams"] ∧
    NetworkProcess.Main ⟨true, true⟩ ⟨some "a:b:c:d".toList, [⟨"7".toList, 7⟩]⟩ =
      [Effect.logD "libnetworkprocess::Main - start", Effect.dlopen "libWPEWebKit-2.0.so",
        Effect.logE "libnetworkprocess::Main - invalid entryParams"] :=
  ⟨by decide,
   (Main_rejects_short_blob ⟨true, true⟩ ⟨some "a:b:c:d".toList, [⟨"7".toList, 7⟩]⟩
      (by decide)).1,
   (Main_rejects_short_blob ⟨true, true⟩ ⟨some "a:b:c:d".toList, [⟨"7".toList, 7⟩]⟩
      (by decide)).2.1⟩

/-- C3: on the 4-field blob "a:b:c:d", and on the null blob, `Main` of the network
image has loaded the engine library before it parses and rejects the blob, and
it returns without closing the library: the rejection is not a no-op. `Main` of
the content image parses first and only logs. Neither image calls
`Environment::Initialize`, looks up the entry point or invokes it. -/
theorem NetworkProcess_Main_loads_engine_before_the_check :
    NetworkProcess.Main ⟨true, true⟩ ⟨some "a:b:c:d".toList, [⟨"7".toList, 7⟩]⟩ =
      [Effect.logD "libnetworkprocess::Main - start", Effect.dlopen "libWPEWebKit-2.0.so",
        Effect.logE "libnetworkprocess::Main - invalid entryParams"] ∧
    NetworkProcess.Main ⟨true, true⟩ ⟨none, [⟨"7".toList, 7⟩]⟩ =
      [Effect.logD "libnetworkprocess::Main - start", Effect.dlopen "libWPEWebKit-2.0.so",
        Effect.logE "libnetworkprocess::Main - invalid entryParams"] ∧
    Effect.dlopen "libWPEWebKit-2.0.so" ∈
      NetworkProcess.Main ⟨true, true⟩ ⟨some "a:b:c:d".toList, [⟨"7".toList, 7⟩]⟩ ∧
    Effect.dlclose ∉
      NetworkProcess.Main ⟨true, true⟩ ⟨some "a:b:c:d".toList, [⟨"7".toList, 7⟩]⟩ ∧
    WebProcess.Main ⟨true, true⟩ ⟨some "a:b:c:d".toList, [⟨"7".toList, 7⟩]⟩ =
      [Effect.logD "libwebprocess::Main",
        Effect.logE "libwebprocess::Main - invalid entryParams"] ∧
    WebProcess.Main ⟨true, true⟩ ⟨none, [⟨"7".toList, 7⟩]⟩ =
      [Effect.logD "libwebprocess::Main",
        Effect.logE "libwebprocess::Main - invalid entryParams"] := by
  decide

/-- On a 5-field blob with one descriptor both images set up the environment and
run the engine entry point with the role tag, the descriptor name and the
descriptor number. -/
theorem Main_runs_on_five_fields :
    NetworkProcess.Main ⟨true, true⟩
        ⟨some "WPENetworkProcess:/cache:/files:/temp:/bundle".toList, [⟨"12".toList, 7⟩]⟩ =
      [Effect.logD "libnetworkprocess::Main - start", Effect.dlopen "libWPEWebKit-2.0.so",
        Effect.environmentInitialize ["WPENetworkProcess".toList, "/cache".toList,
          "/files".toList, "/temp".toList, "/bundle".toList],
        Effect.dlsym "_ZN6WebKit18NetworkProcessMainEiPPc",
        Effect.logD "libnetworkprocess::Main - entryParams, fd, entryPoint",
        Effect.logD "libnetworkprocess::Main - entrypoint start",
        Effect.entrypoint "_ZN6WebKit18NetworkProcessMainEiPPc"
          ["WPENetworkProcess".toList, "12".toList, "7".toList],
        Effect.logD "libnetworkprocess::Main - entrypoint end",
        Effect.dlclose, Effect.logD "libnetworkprocess::Main - end"] ∧
    Effect.entrypoint "_ZN6WebKit14WebProcessMainEiPPc"
        ["WPEWebProcess".toList, "12".toList, "7".toList] ∈
      WebProcess.Main ⟨true, true⟩
        ⟨some "WPEWebProcess:/cache:/files:/temp:/bundle".toList, [⟨"12".toList, 7⟩]⟩ := by
  decide

/-! ## Claims on the launcher -/

/-- C5: `WPELaunchProcess` selects the spawn target by role only. With a valid
option array and all four directories resolved, role content spawns
"libwebkit_web_process.so:Main" with a blob whose segment 0 is "WPEWebProcess" and
role network spawns "libwebkit_network_process.so:Main" with segment 0
"WPENetworkProcess"; neither role selects the other entry point name, and one
launch issues exactly one spawn: inline when called on the host thread, and
through the one trampoline it queues on an initialized bridge otherwise. -/
theorem WPELaunchProcess_selects_by_role (P : Platform) (o0 o1 : List Char) (fd : Int)
    (tid : ThreadId) (s : ArkTSRuntime HostTask × HostWorld)
    (hfd : P.stoi (cstr o1) = some fd)
    (hc : (GetDir P.GetCacheDir []).1 = AbilityRuntime_ErrorCode.NO_ERROR)
    (hf : (GetDir P.GetFilesDir []).1 = AbilityRuntime_ErrorCode.NO_ERROR)
    (ht : (GetDir P.GetTempDir []).1 = AbilityRuntime_ErrorCode.NO_ERROR)
    (hb : (GetDir P.GetBundleCodeDir []).1 = AbilityRuntime_ErrorCode.NO_ERROR) :
    ∀ (ty : wpe_process_type) (tag libEntry : String),
      (ty, tag, libEntry) ∈
        [(wpe_process_type.WPE_PROCESS_TYPE_WEB, "WPEWebProcess",
            "libwebkit_web_process.so:Main"),
         (wpe_process_type.WPE_PROCESS_TYPE_NETWORK, "WPENetworkProcess",
            "libwebkit_network_process.so:Main")] →
      (SplitByColon (some (launchBlob P tag))).2.head? = some tag.toList ∧
      (s.1.IsOnArkTSThread tid = true →
        WPELaunchProcess P ty (some (some o0, some o1)) tid s =
          (LaunchOutcome.returned
              ((P.StartNativeChildProcess ⟨libEntry, launchBlob P tag, cstr o0, fd⟩).getD (-1)),
            (s.1, { s.2 with
              spawns := s.2.spawns ++ [⟨libEntry, launchBlob P tag, cstr o0, fd⟩] }))) ∧
      (s.1.IsOnArkTSThread tid = false → s.1.inited_ = true →
        WPELaunchProcess P ty (some (some o0, some o1)) tid s =
          (LaunchOutcome.blocked,
            ({ s.1 with deque_ := s.1.deque_ ++ [HostTask.launch ty (cstr o0) fd],
                        async_ := { s.1.async_ with sent := true } }, s.2))) ∧
      (∀ st : ArkTSRuntime HostTask × HostWorld,
        execHostTask P (HostTask.launch ty (cstr o0) fd) st =
          (st.1, { spawns := st.2.spawns ++ [⟨libEntry, launchBlob P tag, cstr o0, fd⟩],
                   delivered := st.2.delivered ++
                    [(P.StartNativeChildProcess
                        ⟨libEntry, launchBlob P tag, cstr o0, fd⟩).getD (-1)] })) := by
  intro ty tag libEntry hmem
  have htask : ∀ (fdName : List Char) (n : Int) (w : HostWorld),
      launchTask P ty fdName n w =
        ((P.StartNativeChildProcess ⟨libEntry, launchBlob P tag, fdName, n⟩).getD (-1),
          { w with spawns := w.spawns ++ [⟨libEntry, launchBlob P tag, fdName, n⟩] }) := by
    intro fdName n w
    simp only [List.mem_cons, Prod.mk.injEq, List.mem_singleton, List.not_mem_nil, or_false]
      at hmem
    rcases hmem with ⟨rfl, rfl, rfl⟩ | ⟨rfl, rfl, rfl⟩
    · exact launchBranch_ok P _ _ fdName n w hc hf ht hb
    · exact launchBranch_ok P _ _ fdName n w hc hf ht hb
  have hseg : (SplitByColon (some (launchBlob P tag))).2.head? = some tag.toList := by
    simp only [List.mem_cons, Prod.mk.injEq, List.mem_singleton, List.not_mem_nil, or_false]
      at hmem
    rcases hmem with ⟨_, rfl, _⟩ | ⟨_, rfl, _⟩
    · exact SplitByColon_head _ _ _ (by decide) (by decide)
    · exact SplitByColon_head _ _ _ (by decide) (by decide)
  refine ⟨hseg, ?_, ?_, ?_⟩
  · intro hon
    simp [WPELaunchProcess, hfd, ArkTSRuntime.DoInvokeSync, hon, htask]
  · intro hoff hinit
    simp [WPELaunchProcess, hfd, ArkTSRuntime.DoInvokeSync, hoff, DoInvoke_inited _ _ hinit]
  · intro st
    simp [execHostTask, htask]

/-- C5 on the sample platform: a content launch from the host thread. -/
theorem WPELaunchProcess_selects_by_role_witness :
    samplePlatform.stoi (cstr "7".toList) = some 7 ∧
    (GetDir samplePlatform.GetCacheDir []).1 = AbilityRuntime_ErrorCode.NO_ERROR ∧
    (GetDir samplePlatform.GetFilesDir []).1 = AbilityRuntime_ErrorCode.NO_ERROR ∧
    (GetDir samplePlatform.GetTempDir []).1 = AbilityRuntime_ErrorCode.NO_ERROR ∧
    (GetDir samplePlatform.GetBundleCodeDir []).1 = AbilityRuntime_ErrorCode.NO_ERROR ∧
    WPELaunchProcess samplePlatform wpe_process_type.WPE_PROCESS_TYPE_WEB
        (some (some "12".toList, some "7".toList)) 1 (readyBridge HostTask, {}) =
      (LaunchOutcome.returned 4242,
        (readyBridge HostTask,
          { spawns := [⟨"libwebkit_web_process.so:Main",
              "WPEWebProcess:/cache:/files:/temp:/bundle".toList, "12".toList, 7⟩] })) :=
  ⟨by decide, by decide, by decide, by decide, by decide,
    (WPELaunchProcess_selects_by_role samplePlatform "12".toList "7".toList 7 1
      (readyBridge HostTask, {}) (by decide) (by decide) (by decide) (by decide) (by decide)
      wpe_process_type.WPE_PROCESS_TYPE_WEB "WPEWebProcess" "libwebkit_web_process.so:Main"
      (by decide)).2.1 (by decide)⟩

/-- C6 as stated fails: a launch for an unknown role made from thread 2 before the
bridge is initialized does not return -1. `InvokeSync` hands its trampoline to
`Invoke`, which discards it, so the queue stays empty, a drain of the host thread
delivers nothing, and the caller waits for its promise without end. No spawn is
issued. -/
theorem WPELaunchProcess_before_Init_never_returns :
    WPELaunchProcess samplePlatform (wpe_process_type.other 7)
        (some (some "12".toList, some "7".toList)) 2 ({}, {}) =
      (LaunchOutcome.blocked, ({}, {})) ∧
    ArkTSRuntime.OnAsync (execHostTask samplePlatform)
        (WPELaunchProcess samplePlatform (wpe_process_type.other 7)
          (some (some "12".toList, some "7".toList)) 2 ({}, {})).2 = ({}, {}) := by
  decide

/-- C6, amended: whenever the role is neither network nor content, or the
resolution of any of the four directories fails (for either role), the launch
closure returns -1 and `WPELaunchProcess` issues no spawn, whatever its
arguments, thread and bridge. The call returns -1 when the option array or one of
its two entries is null, and when it is made on the host thread with a descriptor
string that `std::stoi` parses. Made on another thread with an initialized
bridge, it queues exactly one trampoline, for its own role, descriptor name and
descriptor, behind what the queue holds, and waits; the drain of the host thread
runs the closures queued before it and then this one, which delivers -1 to the
caller and adds no spawn. Made on another thread before the bridge is
initialized, the trampoline is discarded, nothing is queued and the caller waits.
When `std::stoi` rejects the descriptor string the exception ends the process. -/
theorem WPELaunchProcess_failure_sentinel (P : Platform) (ty : wpe_process_type)
    (hfail : (∃ raw, ty = wpe_process_type.other raw) ∨
      (GetDir P.GetCacheDir []).1 ≠ AbilityRuntime_ErrorCode.NO_ERROR ∨
      (GetDir P.GetFilesDir []).1 ≠ AbilityRuntime_ErrorCode.NO_ERROR ∨
      (GetDir P.GetTempDir []).1 ≠ AbilityRuntime_ErrorCode.NO_ERROR ∨
      (GetDir P.GetBundleCodeDir []).1 ≠ AbilityRuntime_ErrorCode.NO_ERROR) :
    (∀ (fdName : List Char) (fd : Int) (w : HostWorld),
      launchTask P ty fdName fd w = (-1, w)) ∧
    (∀ (ud : Option (Option (List Char) × Option (List Char))) (tid : ThreadId)
        (s : ArkTSRuntime HostTask × HostWorld),
      (WPELaunchProcess P ty ud tid s).2.2 = s.2) ∧
    (∀ (o : Option (List Char)) (tid : ThreadId) (s : ArkTSRuntime HostTask × HostWorld),
      WPELaunchProcess P ty none tid s = (LaunchOutcome.returned (-1), s) ∧
      WPELaunchProcess P ty (some (none, o)) tid s = (LaunchOutcome.returned (-1), s) ∧
      WPELaunchProcess P ty (some (o, none)) tid s = (LaunchOutcome.returned (-1), s)) ∧
    (∀ (o0 o1 : List Char) (tid : ThreadId) (s : ArkTSRuntime HostTask × HostWorld),
      P.stoi (cstr o1) = none →
      WPELaunchProcess P ty (some (some o0, some o1)) tid s = (LaunchOutcome.terminated, s)) ∧
    (∀ (o0 o1 : List Char) (fd : Int) (tid : ThreadId) (s : ArkTSRuntime HostTask × HostWorld),
      P.stoi (cstr o1) = some fd → s.1.IsOnArkTSThread tid = true →
      WPELaunchProcess P ty (some (some o0, some o1)) tid s = (LaunchOutcome.returned (-1), s)) ∧
    (∀ (o0 o1 : List Char) (fd : Int) (tid : ThreadId) (s : ArkTSRuntime HostTask × HostWorld),
      P.stoi (cstr o1) = some fd → s.1.IsOnArkTSThread tid = false → s.1.inited_ = true →
      WPELaunchProcess P ty (some (some o0, some o1)) tid s =
        (LaunchOutcome.blocked,
          ({ s.1 with deque_ := s.1.deque_ ++ [HostTask.launch ty (cstr o0) fd],
                      async_ := { s.1.async_ with sent := true } }, s.2)) ∧
      ArkTSRuntime.OnAsync (execHostTask P)
          (WPELaunchProcess P ty (some (some o0, some o1)) tid s).2 =
        ((ArkTSRuntime.OnAsync (execHostTask P)
            ({ s.1 with async_ := { s.1.async_ with sent := true } }, s.2)).1,
          { (ArkTSRuntime.OnAsync (execHostTask P)
              ({ s.1 with async_ := { s.1.async_ with sent := true } }, s.2)).2 with
            delivered := (ArkTSRuntime.OnAsync (execHostTask P)
              ({ s.1 with async_ := { s.1.async_ with sent := true } }, s.2)).2.delivered
                ++ [-1] })) ∧
    (∀ (o0 o1 : List Char) (fd : Int) (tid : ThreadId) (s : ArkTSRuntime HostTask × HostWorld),
      P.stoi (cstr o1) = some fd → s.1.IsOnArkTSThread tid = false → s.1.inited_ = false →
      WPELaunchProcess P ty (some (some o0, some o1)) tid s = (LaunchOutcome.blocked, s)) ∧
    (∀ (fdName : List Char) (fd : Int) (st : ArkTSRuntime HostTask × HostWorld),
      execHostTask P (HostTask.launch ty fdName fd) st =
        (st.1, { st.2 with delivered := st.2.delivered ++ [-1] })) := by
  have htask : ∀ (fdName : List Char) (fd : Int) (w : HostWorld),
      launchTask P ty fdName fd w = (-1, w) := by
    intro fdName fd w
    cases ty with
    | WPE_PROCESS_TYPE_WEB =>
      rcases hfail with ⟨raw, h⟩ | h
      · cases h
      · exact launchBranch_fail P _ _ fdName fd w h
    | WPE_PROCESS_TYPE_NETWORK =>
      rcases hfail with ⟨raw, h⟩ | h
      · cases h
      · exact launchBranch_fail P _ _ fdName fd w h
    | other raw => rfl
  have hexec : ∀ (fdName : List Char) (fd : Int) (st : ArkTSRuntime HostTask × HostWorld),
      execHostTask P (HostTask.launch ty fdName fd) st =
        (st.1, { st.2 with delivered := st.2.delivered ++ [-1] }) := by
    intro fdName fd st
    simp [execHostTask, htask]
  refine ⟨htask, ?_, ?_, ?_, ?_, ?_, ?_, hexec⟩
  · intro ud tid s
    rcases ud with _ | ⟨_ | o0, _ | o1⟩ <;> try rfl
    cases hs : P.stoi (cstr o1) with
    | none => simp [WPELaunchProcess, hs]
    | some fd =>
      cases hon : s.1.IsOnArkTSThread tid <;>
        simp [WPELaunchProcess, hs, ArkTSRuntime.DoInvokeSync, hon, htask]
  · intro o tid s
    refine ⟨rfl, rfl, ?_⟩
    cases o <;> rfl
  · intro o0 o1 tid s hs
    simp [WPELaunchProcess, hs]
  · intro o0 o1 fd tid s hs hon
    simp [WPELaunchProcess, hs, ArkTSRuntime.DoInvokeSync, hon, htask]
  · intro o0 o1 fd tid s hs hon hinit
    have hw : WPELaunchProcess P ty (some (some o0, some o1)) tid s =
        (LaunchOutcome.blocked,
          ({ s.1 with deque_ := s.1.deque_ ++ [HostTask.launch ty (cstr o0) fd],
                      async_ := { s.1.async_ with sent := true } }, s.2)) := by
      simp [WPELaunchProcess, hs, ArkTSRuntime.DoInvokeSync, hon, DoInvoke_inited _ _ hinit]
    refine ⟨hw, ?_⟩
    rw [hw]
    simp only [ArkTSRuntime.OnAsync, List.foldl_append, List.foldl_cons, List.foldl_nil]
    rw [hexec]
  · intro o0 o1 fd tid s hs hon hinit
    simp [WPELaunchProcess, hs, ArkTSRuntime.DoInvokeSync, hon, ArkTSRuntime.DoInvoke, hinit]

/-- C6 on the platform whose files directory does not resolve: a network launch
made on the host thread returns -1, and one made on thread 2 queues its
trampoline on the initialized bridge, whose drain delivers -1 without a spawn. -/
theorem WPELaunchProcess_failure_sentinel_witness :
    ((∃ raw, wpe_process_type.WPE_PROCESS_TYPE_NETWORK = wpe_process_type.other raw) ∨
      (GetDir brokenPlatform.GetCacheDir []).1 ≠ AbilityRuntime_ErrorCode.NO_ERROR ∨
      (GetDir brokenPlatform.GetFilesDir []).1 ≠ AbilityRuntime_ErrorCode.NO_ERROR ∨
      (GetDir brokenPlatform.GetTempDir []).1 ≠ AbilityRuntime_ErrorCode.NO_ERROR ∨
      (GetDir brokenPlatform.GetBundleCodeDir []).1 ≠ AbilityRuntime_ErrorCode.NO_ERROR) ∧
    brokenPlatform.stoi (cstr "7".toList) = some 7 ∧
    (readyBridge HostTask).IsOnArkTSThread 1 = true ∧
    (readyBridge HostTask).IsOnArkTSThread 2 = false ∧
    (readyBridge HostTask).inited_ = true ∧
    WPELaunchProcess brokenPlatform wpe_process_type.WPE_PROCESS_TYPE_NETWORK
        (some (some "12".toList, some "7".toList)) 1 (readyBridge HostTask, {}) =
      (LaunchOutcome.returned (-1), (readyBridge HostTask, {})) ∧
    (WPELaunchProcess brokenPlatform wpe_process_type.WPE_PROCESS_TYPE_NETWORK
        (some (some "12".toList, some "7".toList)) 2 (readyBridge HostTask, {})).2.1.deque_ =
      [HostTask.launch wpe_process_type.WPE_PROCESS_TYPE_NETWORK "12".toList 7] ∧
    (ArkTSRuntime.OnAsync (execHostTask brokenPlatform)
        (WPELaunchProcess brokenPlatform wpe_process_type.WPE_PROCESS_TYPE_NETWORK
          (some (some "12".toList, some "7".toList)) 2 (readyBridge HostTask, {})).2).2 =
      { spawns := [], delivered := [-1] } :=
  ⟨Or.inr (Or.inr (Or.inl (by decide))), rfl, by decide, by decide, rfl,
    (WPELaunchProcess_failure_sentinel brokenPlatform wpe_process_type.WPE_PROCESS_TYPE_NETWORK
      (Or.inr (Or.inr (Or.inl (by decide))))).2.2.2.2.1 "12".toList "7".toList 7 1
      (readyBridge HostTask, {}) rfl (by decide),
    by decide, by decide⟩

/-! ## Claims on the host-thread bridge -/

/-- C7: on an initialized bridge, after the tasks t1..tn have been passed to
`Invoke`, the queue holds them behind what it held before, in call order; one
drain (`OnAsync`) runs exactly the queued closures, each once, in that order,
starting from the emptied queue; when no closure uses the bridge itself, the
queue is empty after the drain and a second drain runs nothing. -/
theorem Invoke_then_OnAsync {τ σ : Type}
    (exec : τ → ArkTSRuntime τ × σ → ArkTSRuntime τ × σ)
    (rt : ArkTSRuntime τ) (w : σ) (ts : List τ) (hinit : rt.inited_ = true) :
    (ts.foldl ArkTSRuntime.DoInvoke rt).deque_ = rt.deque_ ++ ts ∧
    ArkTSRuntime.OnAsync exec (ts.foldl ArkTSRuntime.DoInvoke rt, w) =
      (rt.deque_ ++ ts).foldl (fun st fn => exec fn st)
        ({ ts.foldl ArkTSRuntime.DoInvoke rt with deque_ := [] }, w) ∧
    ((∀ t st, (exec t st).1 = st.1) →
      (ArkTSRuntime.OnAsync exec (ts.foldl ArkTSRuntime.DoInvoke rt, w)).1.deque_ = [] ∧
      ArkTSRuntime.OnAsync exec
          (ArkTSRuntime.OnAsync exec (ts.foldl ArkTSRuntime.DoInvoke rt, w)) =
        ArkTSRuntime.OnAsync exec (ts.foldl ArkTSRuntime.DoInvoke rt, w)) := by
  have hq := (foldl_DoInvoke ts rt hinit).1
  refine ⟨hq, ?_, ?_⟩
  · simp only [ArkTSRuntime.OnAsync, hq]
  · intro hexec
    have h1 : (ArkTSRuntime.OnAsync exec (ts.foldl ArkTSRuntime.DoInvoke rt, w)).1 =
        { ts.foldl ArkTSRuntime.DoInvoke rt with deque_ := [] } := by
      simp only [ArkTSRuntime.OnAsync]
      rw [foldl_exec_bridge exec hexec]
    have h2 : (ArkTSRuntime.OnAsync exec (ts.foldl ArkTSRuntime.DoInvoke rt, w)).1.deque_ = [] := by
      rw [h1]
    refine ⟨h2, ?_⟩
    generalize ArkTSRuntime.OnAsync exec (ts.foldl ArkTSRuntime.DoInvoke rt, w) = r at h2
    obtain ⟨b, x⟩ := r
    simp only at h2
    simp only [ArkTSRuntime.OnAsync, h2, List.foldl_nil]
    congr 1
    cases b
    simp only at h2
    subst h2
    rfl

/-- C7 for the tasks 1, 2, 3 that each append their number to a log. -/
theorem Invoke_then_OnAsync_witness :
    (readyBridge Nat).inited_ = true ∧
    ArkTSRuntime.OnAsync (fun (t : Nat) (st : ArkTSRuntime Nat × List Nat) => (st.1, st.2 ++ [t]))
        ([1, 2, 3].foldl ArkTSRuntime.DoInvoke (readyBridge Nat), []) =
      ([1, 2, 3].foldl (fun st fn => (fun (t : Nat) (st : ArkTSRuntime Nat × List Nat) =>
          (st.1, st.2 ++ [t])) fn st)
        ({ [1, 2, 3].foldl ArkTSRuntime.DoInvoke (readyBridge Nat) with deque_ := [] }, [])) ∧
    (ArkTSRuntime.OnAsync (fun (t : Nat) (st : ArkTSRuntime Nat × List Nat) => (st.1, st.2 ++ [t]))
        ([1, 2, 3].foldl ArkTSRuntime.DoInvoke (readyBridge Nat), [])).2 = [1, 2, 3] ∧
    (ArkTSRuntime.OnAsync (fun (t : Nat) (st : ArkTSRuntime Nat × List Nat) => (st.1, st.2 ++ [t]))
        ([1, 2, 3].foldl ArkTSRuntime.DoInvoke (readyBridge Nat), [])).1.deque_ = [] :=
  ⟨rfl,
    (Invoke_then_OnAsync (fun (t : Nat) (st : ArkTSRuntime Nat × List Nat) => (st.1, st.2 ++ [t]))
      (readyBridge Nat) [] [1, 2, 3] rfl).2.1,
    by decide,
    ((Invoke_then_OnAsync (fun (t : Nat) (st : ArkTSRuntime Nat × List Nat) => (st.1, st.2 ++ [t]))
      (readyBridge Nat) [] [1, 2, 3] rfl).2.2 (fun _ _ => rfl)).1⟩

/-- C8 as stated fails before `Init`: on the freshly constructed bridge `Invoke`
returns the bridge unchanged, the task 7 is not in the queue and the queue length
has not grown by one. -/
theorem DoInvoke_before_Init_discards :
    ArkTSRuntime.DoInvoke ({} : ArkTSRuntime Nat) 7 = {} ∧
    7 ∉ (ArkTSRuntime.DoInvoke ({} : ArkTSRuntime Nat) 7).deque_ ∧
    (ArkTSRuntime.DoInvoke ({} : ArkTSRuntime Nat) 7).deque_.length ≠
      ({} : ArkTSRuntime Nat).deque_.length + 1 := by
  decide

/-- C8, amended: on a bridge on which `Init` has succeeded, a task passed to
`Invoke` is appended to the queue (the length grows by one), it stays there, in
its place, through later `Invoke` and `Init` calls, and a drain runs it after the
tasks queued before it; on a bridge on which `Init` has not succeeded, `Invoke`
discards the task and leaves the bridge unchanged. -/
theorem DoInvoke_appends_when_inited {τ σ : Type} (rt : ArkTSRuntime τ) (t : τ) :
    (rt.inited_ = true →
      (rt.DoInvoke t).deque_ = rt.deque_ ++ [t] ∧
      (rt.DoInvoke t).deque_.length = rt.deque_.length + 1 ∧
      (∀ us : List τ, (us.foldl ArkTSRuntime.DoInvoke (rt.DoInvoke t)).deque_ =
        rt.deque_ ++ t :: us) ∧
      (∀ (env : napi_env) (tid : ThreadId),
        ((rt.DoInvoke t).DoInit env tid).2.deque_ = rt.deque_ ++ [t]) ∧
      (∀ (exec : τ → ArkTSRuntime τ × σ → ArkTSRuntime τ × σ) (w : σ),
        ArkTSRuntime.OnAsync exec (rt.DoInvoke t, w) =
          exec t (rt.deque_.foldl (fun st fn => exec fn st)
            ({ rt.DoInvoke t with deque_ := [] }, w)))) ∧
    (rt.inited_ = false → rt.DoInvoke t = rt) := by
  refine ⟨fun hinit => ?_, DoInvoke_not_inited rt t⟩
  have hq : (rt.DoInvoke t).deque_ = rt.deque_ ++ [t] := by rw [DoInvoke_inited rt t hinit]
  have hi : (rt.DoInvoke t).inited_ = true := by rw [DoInvoke_inited rt t hinit]; exact hinit
  refine ⟨hq, by rw [hq]; simp, ?_, ?_, ?_⟩
  · intro us
    rw [(foldl_DoInvoke us (rt.DoInvoke t) hi).1, hq]
    simp
  · intro env tid
    simp [ArkTSRuntime.DoInit, hi, hq]
  · intro exec w
    simp only [ArkTSRuntime.OnAsync, hq, List.foldl_append, List.foldl_cons, List.foldl_nil]

/-- C8, amended, on the initialized sample bridge and on the fresh bridge. -/
theorem DoInvoke_appends_when_inited_witness :
    (readyBridge Nat).inited_ = true ∧
    ((readyBridge Nat).DoInvoke 7).deque_ = (readyBridge Nat).deque_ ++ [7] ∧
    ({} : ArkTSRuntime Nat).inited_ = false ∧
    ArkTSRuntime.DoInvoke ({} : ArkTSRuntime Nat) 7 = {} :=
  ⟨rfl, ((DoInvoke_appends_when_inited (σ := Unit) (readyBridge Nat) 7).1 rfl).1, rfl,
    (DoInvoke_appends_when_inited (σ := Unit) ({} : ArkTSRuntime Nat) 7).2 rfl⟩

/-- C9: when the calling thread is the captured host thread, `InvokeSync(f)` is
exactly one inline run of `f`: it returns the result of `f` and the state after
the call is the state `f` leaves, nothing is queued. For an `f` that works on the
rest of the process only, the whole bridge, its task queue included, is
unchanged, whatever the queue holds. -/
theorem DoInvokeSync_on_host_thread {τ σ R : Type}
    (f : ArkTSRuntime τ × σ → R × (ArkTSRuntime τ × σ)) (g : σ → R × σ) (trampoline : τ)
    (tid : ThreadId) (s : ArkTSRuntime τ × σ) (hon : s.1.IsOnArkTSThread tid = true) :
    ArkTSRuntime.DoInvokeSync f trampoline tid s = (SyncOutcome.returned (f s).1, (f s).2) ∧
    ArkTSRuntime.DoInvokeSync (fun st => ((g st.2).1, (st.1, (g st.2).2))) trampoline tid s =
      (SyncOutcome.returned (g s.2).1, (s.1, (g s.2).2)) := by
  simp [ArkTSRuntime.DoInvokeSync, hon]

/-- C9 on the sample bridge with two tasks queued, called from host thread 1 with
a closure that increments a counter and returns its old value. -/
theorem DoInvokeSync_on_host_thread_witness :
    ArkTSRuntime.IsOnArkTSThread { readyBridge Nat with deque_ := [4, 5] } 1 = true ∧
    ArkTSRuntime.DoInvokeSync
        (fun (st : ArkTSRuntime Nat × Nat) => ((fun (n : Nat) => (n, n + 1)) st.2 |>.1,
          (st.1, ((fun (n : Nat) => (n, n + 1)) st.2).2)))
        9 1 ({ readyBridge Nat with deque_ := [4, 5] }, 10) =
      (SyncOutcome.returned 10, ({ readyBridge Nat with deque_ := [4, 5] }, 11)) :=
  ⟨rfl,
    (DoInvokeSync_on_host_thread (fun st => (0, st)) (fun (n : Nat) => (n, n + 1)) 9 1
      ({ readyBridge Nat with deque_ := [4, 5] }, 10) rfl).2⟩

/-- C10: `DoInit` reports setup failure as a boolean and initializes at most
once. On an initialized bridge it returns true and changes no field. Otherwise
it returns false and leaves the bridge uninitialized when the host loop cannot be
obtained (status not ok, or null loop; then no field changes) or when the setup
of the wake primitive fails; in the remaining case it returns true with the
bridge initialized, the calling thread captured as host thread and the loop
stored. The initialized flag after the call always equals the returned value, and
a further call after success returns true and changes nothing. -/
theorem DoInit_reports_and_initializes_once {τ : Type} (rt : ArkTSRuntime τ) (env : napi_env)
    (tid : ThreadId) :
    (rt.inited_ = true → rt.DoInit env tid = (true, rt)) ∧
    (rt.inited_ = false → (env.status ≠ 0 ∨ env.loop = none) →
      rt.DoInit env tid = (false, rt)) ∧
    (rt.inited_ = false → env.status = 0 → env.loop ≠ none → env.asyncInit ≠ 0 →
      (rt.DoInit env tid).1 = false ∧ (rt.DoInit env tid).2.inited_ = false ∧
      (rt.DoInit env tid).2.deque_ = rt.deque_) ∧
    (rt.inited_ = false → env.status = 0 → env.loop ≠ none → env.asyncInit = 0 →
      (rt.DoInit env tid).1 = true ∧ (rt.DoInit env tid).2.inited_ = true ∧
      (rt.DoInit env tid).2.arktsThreadId_ = some tid ∧
      (rt.DoInit env tid).2.uvLoop_ = env.loop ∧
      (rt.DoInit env tid).2.deque_ = rt.deque_) ∧
    (rt.DoInit env tid).2.inited_ = (rt.DoInit env tid).1 ∧
    (∀ (env2 : napi_env) (tid2 : ThreadId), (rt.DoInit env tid).1 = true →
      (rt.DoInit env tid).2.DoInit env2 tid2 = (true, (rt.DoInit env tid).2)) := by
  have hflag : (rt.DoInit env tid).2.inited_ = (rt.DoInit env tid).1 := by
    cases hi : rt.inited_
    · by_cases h1 : ¬env.status = 0 ∨ env.loop = none
      · simp [ArkTSRuntime.DoInit, h1, hi]
      · by_cases h2 : env.asyncInit = 0
        · simp [ArkTSRuntime.DoInit, h1, h2, hi]
        · simp [ArkTSRuntime.DoInit, h1, h2, hi]
    · simp [ArkTSRuntime.DoInit, hi]
  refine ⟨DoInit_inited rt env tid, ?_, ?_, ?_, hflag, ?_⟩
  · intro hi hbad
    have h1 : ¬env.status = 0 ∨ env.loop = none := hbad
    simp [ArkTSRuntime.DoInit, hi, h1]
  · intro hi hs hl ha
    have h1 : ¬(¬env.status = 0 ∨ env.loop = none) := by
      rintro (h | h)
      · exact h hs
      · exact hl h
    simp [ArkTSRuntime.DoInit, hi, h1, ha]
  · intro hi hs hl ha
    have h1 : ¬(¬env.status = 0 ∨ env.loop = none) := by
      rintro (h | h)
      · exact h hs
      · exact hl h
    simp [ArkTSRuntime.DoInit, hi, h1, ha]
  · intro env2 tid2 hret
    have : (rt.DoInit env tid).2.inited_ = true := by rw [hflag, hret]
    exact DoInit_inited _ env2 tid2 this

/-- C10 on the fresh bridge: a successful setup on thread 1, and a second call
from thread 2 that changes nothing. -/
theorem DoInit_reports_and_initializes_once_witness :
    ({} : ArkTSRuntime Nat).inited_ = false ∧
    (ArkTSRuntime.DoInit ({} : ArkTSRuntime Nat) ⟨0, some 0, 0⟩ 1) = (true, readyBridge Nat) ∧
    (readyBridge Nat).inited_ = true ∧
    ArkTSRuntime.DoInit (readyBridge Nat) ⟨0, some 5, 0⟩ 2 = (true, readyBridge Nat) ∧
    ArkTSRuntime.DoInit ({} : ArkTSRuntime Nat) ⟨1, some 0, 0⟩ 1 = (false, {}) :=
  ⟨rfl, by decide, rfl,
    (DoInit_reports_and_initializes_once (readyBridge Nat) ⟨0, some 5, 0⟩ 2).1 rfl,
    (DoInit_reports_and_initializes_once ({} : ArkTSRuntime Nat) ⟨1, some 0, 0⟩ 1).2.1 rfl
      (Or.inl (by decide))⟩

/-! ## Claims on frame pacing -/

/-- C15 as stated fails: on the first submission to a constructed view at time
1000 the frame timer is armed for 17666, one frame interval later, not for 0. -/
theorem first_submission_not_immediate :
    freshView.lastFrameTime = 0 ∧
    (wpeViewOHOSRenderBuffer true 1000 freshView 7).2.1.frameSource =
      some { readyTime := 17666 } ∧
    (wpeViewOHOSRenderBuffer true 1000 freshView 7).2.1.frameSource ≠
      some { readyTime := 0 } := by
  decide

/-- C15, amended: on the first accepted submission to a view with a frame source
(lastFrameTime still 0), `render_buffer` arms the frame timer for now + 16666
microseconds, one frame interval after the submission, for every value `now` of
the monotonic time; it stores the buffer as pending and sets lastFrameTime to
`now`. -/
theorem first_submission_arms_one_interval (now : Int) (v : WPEViewOHOS) (src : GSource)
    (buffer : Nat) (hfirst : v.lastFrameTime = 0) (hsrc : v.frameSource = some src) :
    (wpeViewOHOSRenderBuffer true now v buffer).1 = true ∧
    (wpeViewOHOSRenderBuffer true now v buffer).2.1.frameSource =
      some { src with readyTime := now + 16666 } ∧
    (wpeViewOHOSRenderBuffer true now v buffer).2.1.pendingBuffer = some buffer ∧
    (wpeViewOHOSRenderBuffer true now v buffer).2.1.lastFrameTime = now := by
  have h : ¬ (now + 1000000 / 60 ≤ now) := by norm_num
  simp [wpeViewOHOSRenderBuffer, hfirst, hsrc, g_source_set_ready_time, h]

/-- C15, amended, at time 1000 on the constructed view. -/
theorem first_submission_arms_one_interval_witness :
    freshView.lastFrameTime = 0 ∧ freshView.frameSource = some {} ∧
    (wpeViewOHOSRenderBuffer true 1000 freshView 7).2.1.frameSource =
      some { readyTime := 1000 + 16666 } :=
  ⟨rfl, rfl, (first_submission_arms_one_interval 1000 freshView {} 7 rfl rfl).2.1⟩

/-- C16: on an accepted submission at time `now` to a view with a frame source
whose previous submission time `last` is not 0, `render_buffer` computes
next = last + 16666 (1000000 / 60 in integer arithmetic), arms the timer with
ready time 0 when next <= now and with next otherwise, and sets lastFrameTime to
`now`; when last <= now the ready time is 0 or lies after `now` and not after
now + 16666. -/
theorem later_submission_pacing (now last : Int) (v : WPEViewOHOS) (src : GSource)
    (buffer : Nat) (hlast : v.lastFrameTime = last) (hne : last ≠ 0)
    (hsrc : v.frameSource = some src) :
    ((1000000 : Int) / 60 = 16666) ∧
    (wpeViewOHOSRenderBuffer true now v buffer).2.1.frameSource =
      some { src with readyTime := if last + 16666 ≤ now then 0 else last + 16666 } ∧
    (wpeViewOHOSRenderBuffer true now v buffer).2.1.lastFrameTime = now ∧
    (last ≤ now →
      ∃ t, (wpeViewOHOSRenderBuffer true now v buffer).2.1.frameSource =
          some { src with readyTime := t } ∧
        (t = 0 ∨ (now < t ∧ t ≤ now + 16666))) := by
  have hk : (1000000 : Int) / 60 = 16666 := by norm_num
  have hfs : (wpeViewOHOSRenderBuffer true now v buffer).2.1.frameSource =
      some { src with readyTime := if last + 16666 ≤ now then 0 else last + 16666 } := by
    simp [wpeViewOHOSRenderBuffer, hsrc, g_source_set_ready_time, hlast, hne]
  refine ⟨hk, hfs, by simp [wpeViewOHOSRenderBuffer], ?_⟩
  intro hle
  refine ⟨if last + 16666 ≤ now then 0 else last + 16666, hfs, ?_⟩
  by_cases h : last + 16666 ≤ now
  · left; simp [h]
  · right
    simp only [if_neg h]
    omega

/-- C16 for a submission at 50000 after one at 40000 (armed for 56666) and for a
submission at 60000 after one at 40000 (armed for immediately). -/
theorem later_submission_pacing_witness :
    ({ freshView with lastFrameTime := 40000 } : WPEViewOHOS).lastFrameTime = 40000 ∧
    (40000 : Int) ≠ 0 ∧
    (wpeViewOHOSRenderBuffer true 50000 { freshView with lastFrameTime := 40000 } 7).2.1.frameSource
      = some { readyTime := 56666 } ∧
    (wpeViewOHOSRenderBuffer true 60000 { freshView with lastFrameTime := 40000 } 7).2.1.frameSource
      = some { readyTime := 0 } :=
  ⟨rfl, by decide,
    (later_submission_pacing 50000 40000 { freshView with lastFrameTime := 40000 } {} 7 rfl
      (by decide) rfl).2.1,
    (later_submission_pacing 60000 40000 { freshView with lastFrameTime := 40000 } {} 7 rfl
      (by decide) rfl).2.1⟩

/-! ## Claims on the timer fire -/

/-- The callback on a view without a pending buffer and without a committed one. -/
theorem frameSourceCallback_idle (imp : Nat → Option Nat) (v : WPEViewOHOS)
    (hp : v.pendingBuffer = none) (hc : v.committedBuffer = none) :
    frameSourceCallback imp v = (SourceReturn.G_SOURCE_CONTINUE, v, []) := by
  simp [frameSourceCallback, promotePending, hp, hc]

/-- The callback on a view without a pending buffer and with a committed one:
the slots stay, the committed buffer is drawn again if it can be. -/
theorem frameSourceCallback_redraw (imp : Nat → Option Nat) (v : WPEViewOHOS) (c : Nat)
    (hp : v.pendingBuffer = none) (hc : v.committedBuffer = some c) :
    (frameSourceCallback imp v).2.1 = v ∧
    (frameSourceCallback imp v).2.2 =
      (match imp c with
        | none => [FrameEvent.importFailed c]
        | some image => if v.renderer.isSome then [FrameEvent.render c image] else []) := by
  cases hi : imp c <;> simp [frameSourceCallback, promotePending, hp, hc, hi]

/-- The callback on a view with a pending buffer: it is promoted, after the
release of the committed buffer if there is one, then drawn and reported if it
can be. -/
theorem frameSourceCallback_promote (imp : Nat → Option Nat) (v : WPEViewOHOS) (p : Nat)
    (hp : v.pendingBuffer = some p) :
    (frameSourceCallback imp v).2.1 = { v with committedBuffer := some p, pendingBuffer := none } ∧
    (frameSourceCallback imp v).2.2 =
      (match v.committedBuffer with
        | none => []
        | some c => [FrameEvent.bufferReleased c, FrameEvent.unref c]) ++
      [FrameEvent.promoted p] ++
      (match imp p with
        | none => [FrameEvent.importFailed p]
        | some image =>
          (if v.renderer.isSome then [FrameEvent.render p image] else []) ++
          [FrameEvent.bufferRendered p]) := by
  cases hi : imp p <;> simp [frameSourceCallback, promotePending, hp, hi]

/-- C17 as stated fails: in a fire on a view with committed buffer 1 and pending
buffer 2 the released notification for 1 comes first, before 2 is promoted into
the committed slot. -/
theorem release_precedes_promotion :
    (frameSourceCallback importOk
        { freshView with pendingBuffer := some 2, committedBuffer := some 1 }).2.2 =
      [FrameEvent.bufferReleased 1, FrameEvent.unref 1, FrameEvent.promoted 2,
        FrameEvent.bufferRendered 2] ∧
    List.indexOf (FrameEvent.bufferReleased 1)
        (frameSourceCallback importOk
          { freshView with pendingBuffer := some 2, committedBuffer := some 1 }).2.2 <
      List.indexOf (FrameEvent.promoted 2)
        (frameSourceCallback importOk
          { freshView with pendingBuffer := some 2, committedBuffer := some 1 }).2.2 := by
  decide

/-- C17, amended: in every timer fire the buffer-released notification for the
committed buffer is emitted exactly when a pending successor exists; it is then
the first event of the fire, followed by the drop of the reference and directly
by the promotion of the successor into the committed slot, before anything
is imported, drawn or reported, and no other release follows. In a tick that
has no pending successor nothing is released and the committed buffer stays. -/
theorem release_only_with_successor (imp : Nat → Option Nat) (v : WPEViewOHOS) :
    (∀ c, FrameEvent.bufferReleased c ∈ (frameSourceCallback imp v).2.2 ↔
      (v.committedBuffer = some c ∧ v.pendingBuffer.isSome = true)) ∧
    (∀ c p, v.committedBuffer = some c → v.pendingBuffer = some p →
      (frameSourceCallback imp v).2.1.committedBuffer = some p ∧
      ∃ rest, (frameSourceCallback imp v).2.2 =
          [FrameEvent.bufferReleased c, FrameEvent.unref c, FrameEvent.promoted p] ++ rest ∧
        ∀ e ∈ rest, e = FrameEvent.importFailed p ∨ (∃ image, e = FrameEvent.render p image) ∨
          e = FrameEvent.bufferRendered p) ∧
    (v.pendingBuffer = none →
      (frameSourceCallback imp v).2.1.committedBuffer = v.committedBuffer ∧
      ∀ c, FrameEvent.bufferReleased c ∉ (frameSourceCallback imp v).2.2) := by
  refine ⟨?_, ?_, ?_⟩
  · intro c
    cases hp : v.pendingBuffer with
    | none =>
      cases hc : v.committedBuffer with
      | none => simp [frameSourceCallback_idle imp v hp hc]
      | some c0 =>
        rw [(frameSourceCallback_redraw imp v c0 hp hc).2]
        cases imp c0 <;> simp
    | some p =>
      rw [(frameSourceCallback_promote imp v p hp).2]
      cases hc : v.committedBuffer <;> cases imp p <;> simp
      all_goals exact eq_comm
  · intro c p hc hp
    refine ⟨by rw [(frameSourceCallback_promote imp v p hp).1], ?_⟩
    rw [(frameSourceCallback_promote imp v p hp).2, hc]
    cases hi : imp p with
    | none => exact ⟨[FrameEvent.importFailed p], by simp, by simp⟩
    | some image =>
      refine ⟨(if v.renderer.isSome then [FrameEvent.render p image] else []) ++
        [FrameEvent.bufferRendered p], by simp, ?_⟩
      intro e he
      split at he <;> simp at he <;> rcases he with rfl | rfl <;> simp
  · intro hp
    cases hc : v.committedBuffer with
    | none => simp [frameSourceCallback_idle imp v hp hc, hc]
    | some c0 =>
      refine ⟨by rw [(frameSourceCallback_redraw imp v c0 hp hc).1, hc], ?_⟩
      intro c
      rw [(frameSourceCallback_redraw imp v c0 hp hc).2]
      cases imp c0 <;> simp

/-- C17, amended, on a view with committed buffer 1: with pending buffer 2 the
release of 1 is emitted, without a pending buffer it is not. -/
theorem release_only_with_successor_witness :
    FrameEvent.bufferReleased 1 ∈
      (frameSourceCallback importOk
        { freshView with pendingBuffer := some 2, committedBuffer := some 1 }).2.2 ∧
    ({ freshView with committedBuffer := some 1 } : WPEViewOHOS).pendingBuffer = none ∧
    FrameEvent.bufferReleased 1 ∉
      (frameSourceCallback importOk { freshView with committedBuffer := some 1 }).2.2 :=
  ⟨((release_only_with_successor importOk
      { freshView with pendingBuffer := some 2, committedBuffer := some 1 }).1 1).mpr ⟨rfl, rfl⟩,
    rfl,
    ((release_only_with_successor importOk
      { freshView with committedBuffer := some 1 }).2.2 rfl).2 1⟩

/-- The promotion step emits no draw and no rendered notification. -/
theorem promotePending_events (v : WPEViewOHOS) :
    ∀ e ∈ (promotePending v).2,
      (∀ b image, e ≠ FrameEvent.render b image) ∧ ∀ b, e ≠ FrameEvent.bufferRendered b := by
  intro e he
  unfold promotePending at he
  cases hp : v.pendingBuffer with
  | none => simp [hp] at he
  | some p =>
    cases hc : v.committedBuffer with
    | none =>
      simp [hp, hc] at he
      subst he
      simp
    | some c =>
      simp [hp, hc] at he
      rcases he with rfl | rfl | rfl <;> simp

/-- C19: on every timer fire the buffer-rendered notification for a buffer is
emitted if and only if that buffer was pending at the start of the fire and its
image-handle acquisition succeeds; it is emitted at most once, names the newly
committed buffer and is the last event of the fire, directly after the hand-off
to the renderer when a renderer is attached, and it is emitted just the same,
without any hand-off, when no renderer is attached. -/
theorem rendered_iff_promoted_and_imported (imp : Nat → Option Nat) (v : WPEViewOHOS) :
    (∀ b, FrameEvent.bufferRendered b ∈ (frameSourceCallback imp v).2.2 ↔
      (v.pendingBuffer = some b ∧ (imp b).isSome = true)) ∧
    (∀ b, (frameSourceCallback imp v).2.2.count (FrameEvent.bufferRendered b) ≤ 1) ∧
    (∀ b, FrameEvent.bufferRendered b ∈ (frameSourceCallback imp v).2.2 →
      (frameSourceCallback imp v).2.1.committedBuffer = some b ∧
      (frameSourceCallback imp v).2.2.getLast? = some (FrameEvent.bufferRendered b)) ∧
    (∀ b image, v.pendingBuffer = some b → imp b = some image →
      (v.renderer.isSome = true →
        ∃ pre, (frameSourceCallback imp v).2.2 =
          pre ++ [FrameEvent.render b image, FrameEvent.bufferRendered b]) ∧
      (v.renderer = none →
        FrameEvent.bufferRendered b ∈ (frameSourceCallback imp v).2.2 ∧
        ∀ b2 image2, FrameEvent.render b2 image2 ∉ (frameSourceCallback imp v).2.2)) := by
  cases hp : v.pendingBuffer with
  | none =>
    have hev : ∀ b, FrameEvent.bufferRendered b ∉ (frameSourceCallback imp v).2.2 := by
      intro b
      cases hc : v.committedBuffer with
      | none => simp [frameSourceCallback_idle imp v hp hc]
      | some c =>
        rw [(frameSourceCallback_redraw imp v c hp hc).2]
        cases imp c <;> simp
    refine ⟨fun b => ⟨fun h => absurd h (hev b), fun h => by simp at h⟩, ?_, ?_, ?_⟩
    · intro b
      rw [List.count_eq_zero_of_not_mem (hev b)]
      exact Nat.zero_le _
    · intro b h
      exact absurd h (hev b)
    · intro b image h
      simp at h
  | some p =>
    have hst := (frameSourceCallback_promote imp v p hp).1
    have hev := (frameSourceCallback_promote imp v p hp).2
    refine ⟨?_, ?_, ?_, ?_⟩
    · intro b
      rw [hev]
      by_cases hb : p = b
      · subst hb
        cases hc : v.committedBuffer <;> cases hi : imp p <;> simp
      · have hb2 : ¬ b = p := fun h => hb h.symm
        cases hc : v.committedBuffer <;> cases hi : imp p <;> simp [hb, hb2]
    · intro b
      rw [hev]
      cases hc : v.committedBuffer <;> cases hi : imp p <;> cases hr : v.renderer <;>
        simp [List.count_cons, List.count_nil] <;> split <;> simp
    · intro b hb
      rw [hev] at hb ⊢
      rw [hst]
      cases hc : v.committedBuffer <;> cases hi : imp p <;> cases hr : v.renderer <;>
        simp [hc, hi, hr] at hb ⊢ <;> simp [hb]
    · intro b image hb hi
      have hbp : p = b := by simpa using hb
      subst hbp
      rw [hev, hi]
      refine ⟨fun hr => ?_, fun hr => ?_⟩
      · refine ⟨(match v.committedBuffer with
            | none => []
            | some c => [FrameEvent.bufferReleased c, FrameEvent.unref c]) ++
          [FrameEvent.promoted p], ?_⟩
        simp [hr]
      · cases hc : v.committedBuffer <;> simp [hr]

/-- C19 on a view with pending buffer 2 and committed buffer 1: the fire reports
2 as rendered with a working import, and reports nothing with a failing one. -/
theorem rendered_iff_promoted_and_imported_witness :
    FrameEvent.bufferRendered 2 ∈
      (frameSourceCallback importOk
        { freshView with pendingBuffer := some 2, committedBuffer := some 1 }).2.2 ∧
    FrameEvent.bufferRendered 2 ∉
      (frameSourceCallback importFails
        { freshView with pendingBuffer := some 2, committedBuffer := some 1 }).2.2 :=
  ⟨((rendered_iff_promoted_and_imported importOk
      { freshView with pendingBuffer := some 2, committedBuffer := some 1 }).1 2).mpr ⟨rfl, rfl⟩,
    fun h => absurd (((rendered_iff_promoted_and_imported importFails
      { freshView with pendingBuffer := some 2, committedBuffer := some 1 }).1 2).mp h).2
      (by decide)⟩

/-- A fire that cannot draw emits no draw and no rendered notification. -/
theorem cannot_draw_events (imp : Nat → Option Nat) (v : WPEViewOHOS)
    (h : (promotePending v).1.committedBuffer = none ∨
      ∃ c, (promotePending v).1.committedBuffer = some c ∧ imp c = none) :
    ∀ e ∈ (frameSourceCallback imp v).2.2,
      (∀ b image, e ≠ FrameEvent.render b image) ∧ ∀ b, e ≠ FrameEvent.bufferRendered b := by
  have hcb : (frameSourceCallback imp v).2.2 =
      (promotePending v).2 ++
        (match (promotePending v).1.committedBuffer with
          | none => []
          | some c => [FrameEvent.importFailed c]) := by
    unfold frameSourceCallback
    rcases h with h | ⟨c, h, hi⟩
    · simp [h]
    · simp [h, hi]
  rw [hcb]
  intro e he
  simp only [List.mem_append] at he
  rcases he with he | he
  · exact promotePending_events v e he
  · cases hc : (promotePending v).1.committedBuffer with
    | none => simp [hc] at he
    | some c =>
      simp [hc] at he
      subst he
      simp

/-- C20: a timer fire that cannot draw, because no committed buffer exists after
the promotion step or because the image-handle acquisition for the committed
buffer fails, hands nothing to the renderer, emits no rendered notification,
leaves the view (committed and pending slot included) as the promotion step left
it, and returns CONTINUE. -/
theorem fire_skipped_when_cannot_draw (imp : Nat → Option Nat) (v : WPEViewOHOS)
    (h : (promotePending v).1.committedBuffer = none ∨
      ∃ c, (promotePending v).1.committedBuffer = some c ∧ imp c = none) :
    (frameSourceCallback imp v).1 = SourceReturn.G_SOURCE_CONTINUE ∧
    (frameSourceCallback imp v).2.1 = (promotePending v).1 ∧
    (frameSourceCallback imp v).2.1.pendingBuffer = none ∧
    (frameSourceCallback imp v).2.1.committedBuffer =
      (match v.pendingBuffer with
        | some p => some p
        | none => v.committedBuffer) ∧
    (∀ e ∈ (frameSourceCallback imp v).2.2,
      (∀ b image, e ≠ FrameEvent.render b image) ∧ ∀ b, e ≠ FrameEvent.bufferRendered b) := by
  have hslots : (promotePending v).1.pendingBuffer = none ∧
      (promotePending v).1.committedBuffer =
        (match v.pendingBuffer with
          | some p => some p
          | none => v.committedBuffer) := by
    unfold promotePending
    cases hp : v.pendingBuffer <;> simp [hp]
  have hcb : frameSourceCallback imp v =
      (SourceReturn.G_SOURCE_CONTINUE, (promotePending v).1,
        (promotePending v).2 ++
          (match (promotePending v).1.committedBuffer with
            | none => []
            | some c => [FrameEvent.importFailed c])) := by
    unfold frameSourceCallback
    rcases h with h | ⟨c, h, hi⟩
    · simp [h]
    · simp [h, hi]
  rw [hcb]
  refine ⟨rfl, rfl, hslots.1, hslots.2, ?_⟩
  intro e he
  simp only [List.mem_append] at he
  rcases he with he | he
  · exact promotePending_events v e he
  · cases hc : (promotePending v).1.committedBuffer with
    | none => simp [hc] at he
    | some c =>
      simp [hc] at he
      subst he
      simp

/-- C20 on the constructed view without any buffer, and on a view with pending
buffer 2 whose import fails. -/
theorem fire_skipped_when_cannot_draw_witness :
    (promotePending freshView).1.committedBuffer = none ∧
    frameSourceCallback importOk freshView = (SourceReturn.G_SOURCE_CONTINUE, freshView, []) ∧
    (frameSourceCallback importFails { freshView with pendingBuffer := some 2 }).1 =
      SourceReturn.G_SOURCE_CONTINUE :=
  ⟨rfl, by decide,
    (fire_skipped_when_cannot_draw importFails { freshView with pendingBuffer := some 2 }
      (Or.inr ⟨2, rfl, rfl⟩)).1⟩

/-! ## Claims on the buffer slots -/

theorem submitAll_append (subs : List (Int × Nat)) (s : Int × Nat) (v : WPEViewOHOS) :
    submitAll (subs ++ [s]) v = (wpeViewOHOSRenderBuffer true s.1 (submitAll subs v) s.2).2.1 := by
  simp [submitAll, List.foldl_append]

/-- Submissions do not touch the renderer or the committed slot. -/
theorem submitAll_keeps (subs : List (Int × Nat)) :
    ∀ v : WPEViewOHOS, (submitAll subs v).renderer = v.renderer ∧
      (submitAll subs v).committedBuffer = v.committedBuffer := by
  induction subs with
  | nil => intro v; exact ⟨rfl, rfl⟩
  | cons s subs ih =>
    intro v
    have h := ih (wpeViewOHOSRenderBuffer true s.1 v s.2).2.1
    simp only [submitAll, List.foldl_cons] at h ⊢
    rw [h.1, h.2]
    simp [wpeViewOHOSRenderBuffer]

/-- After a run of accepted submissions the pending slot holds the last one. -/
theorem submitAll_pending (subs : List (Int × Nat)) (hne : subs ≠ []) (v : WPEViewOHOS) :
    (submitAll subs v).pendingBuffer = some (subs.getLast hne).2 := by
  have h := List.dropLast_append_getLast hne
  conv_lhs => rw [← h]
  rw [submitAll_append]
  simp [wpeViewOHOSRenderBuffer]

/-- Fires on a view with an empty pending slot and committed buffer `bn` leave
the view as it is and show no buffer but `bn`. -/
theorem fireAll_settled (bn : Nat) (imps : List (Nat → Option Nat)) :
    ∀ (w : WPEViewOHOS) (acc : List FrameEvent),
      w.pendingBuffer = none → w.committedBuffer = some bn →
      (∀ e ∈ acc, ∀ b, e.shows = some b → b = bn) →
      (imps.foldl
        (fun st imp =>
          ((frameSourceCallback imp st.1).2.1, st.2 ++ (frameSourceCallback imp st.1).2.2))
        (w, acc)).1 = w ∧
      ∀ e ∈ (imps.foldl
        (fun st imp =>
          ((frameSourceCallback imp st.1).2.1, st.2 ++ (frameSourceCallback imp st.1).2.2))
        (w, acc)).2, ∀ b, e.shows = some b → b = bn := by
  induction imps with
  | nil => intro w acc _ _ hacc; exact ⟨rfl, hacc⟩
  | cons imp imps ih =>
    intro w acc hp hc hacc
    rw [List.foldl_cons]
    have hr := frameSourceCallback_redraw imp w bn hp hc
    simp only [hr.1]
    apply ih w _ hp hc
    intro e he
    rw [List.mem_append] at he
    rcases he with he | he
    · exact hacc e he
    · rw [hr.2] at he
      cases hi : imp bn with
      | none =>
        simp [hi] at he
        subst he
        intro b hb
        simp [FrameEvent.shows] at hb
      | some image =>
        simp only [hi] at he
        split at he
        · simp at he
          subst he
          intro b hb
          simp [FrameEvent.shows] at hb
          exact hb.symm
        · simp at he

/-- C14 as stated fails: after the submissions 1, 2, 3 to a view with a renderer
attached, a next timer fire whose image-handle acquisition fails promotes buffer
3 to committed but draws nothing and reports nothing as rendered. -/
theorem next_fire_without_image_draws_nothing :
    (submitAll [(1000, 1), (2000, 2), (3000, 3)]
      { freshView with renderer := some ⟨1, 100, 100⟩ }).pendingBuffer = some 3 ∧
    (frameSourceCallback importFails
      (submitAll [(1000, 1), (2000, 2), (3000, 3)]
        { freshView with renderer := some ⟨1, 100, 100⟩ })).2.1.committedBuffer = some 3 ∧
    (frameSourceCallback importFails
      (submitAll [(1000, 1), (2000, 2), (3000, 3)]
        { freshView with renderer := some ⟨1, 100, 100⟩ })).2.2 =
      [FrameEvent.promoted 3, FrameEvent.importFailed 3] := by
  decide

/-- C14, amended (drop-stale): after a run of accepted submissions B1..Bn
(n >= 1) with no timer fire in between, the pending slot holds Bn only; the next
timer fire promotes Bn to committed and empties the pending slot; when the image
handle of Bn is obtained it hands Bn to the renderer, if one is attached, and
reports Bn as rendered, and when the acquisition fails it draws and reports
nothing; in that fire and in all later fires without a new submission the
committed buffer is Bn and every buffer committed, drawn or reported as rendered
is Bn, so none of B1..Bn-1 ever is. -/
theorem drop_stale (v : WPEViewOHOS) (subs : List (Int × Nat)) (hne : subs ≠ [])
    (imp : Nat → Option Nat) (imps : List (Nat → Option Nat)) :
    (submitAll subs v).pendingBuffer = some (subs.getLast hne).2 ∧
    (frameSourceCallback imp (submitAll subs v)).2.1.committedBuffer =
      some (subs.getLast hne).2 ∧
    (frameSourceCallback imp (submitAll subs v)).2.1.pendingBuffer = none ∧
    FrameEvent.promoted (subs.getLast hne).2 ∈
      (frameSourceCallback imp (submitAll subs v)).2.2 ∧
    (∀ image, imp (subs.getLast hne).2 = some image →
      FrameEvent.bufferRendered (subs.getLast hne).2 ∈
        (frameSourceCallback imp (submitAll subs v)).2.2 ∧
      (v.renderer.isSome = true →
        FrameEvent.render (subs.getLast hne).2 image ∈
          (frameSourceCallback imp (submitAll subs v)).2.2)) ∧
    (imp (subs.getLast hne).2 = none →
      ∀ e ∈ (frameSourceCallback imp (submitAll subs v)).2.2,
        (∀ b image, e ≠ FrameEvent.render b image) ∧ ∀ b, e ≠ FrameEvent.bufferRendered b) ∧
    (fireAll (imp :: imps) (submitAll subs v)).1.committedBuffer = some (subs.getLast hne).2 ∧
    (∀ e ∈ (fireAll (imp :: imps) (submitAll subs v)).2,
      ∀ b, e.shows = some b → b = (subs.getLast hne).2) := by
  have hp := submitAll_pending subs hne v
  have hren := (submitAll_keeps subs v).1
  have hpr := frameSourceCallback_promote imp (submitAll subs v) _ hp
  have hfirst : ∀ e ∈ (frameSourceCallback imp (submitAll subs v)).2.2,
      ∀ b, e.shows = some b → b = (subs.getLast hne).2 := by
    intro e he b hb
    rw [hpr.2] at he
    simp only [List.mem_append] at he
    rcases he with (he | he) | he
    · cases hc : (submitAll subs v).committedBuffer with
      | none => simp [hc] at he
      | some c =>
        simp [hc] at he
        rcases he with rfl | rfl <;> simp [FrameEvent.shows] at hb
    · simp at he
      subst he
      simp [FrameEvent.shows] at hb
      exact hb.symm
    · cases hi : imp (subs.getLast hne).2 with
      | none =>
        simp [hi] at he
        subst he
        simp [FrameEvent.shows] at hb
      | some image =>
        simp only [hi, List.mem_append, List.mem_singleton] at he
        rcases he with he | he
        · split at he
          · simp at he
            subst he
            simp [FrameEvent.shows] at hb
            exact hb.symm
          · simp at he
        · subst he
          simp [FrameEvent.shows] at hb
          exact hb.symm
  have hall := fireAll_settled (subs.getLast hne).2 imps
    (frameSourceCallback imp (submitAll subs v)).2.1
    ([] ++ (frameSourceCallback imp (submitAll subs v)).2.2)
    (by rw [hpr.1]) (by rw [hpr.1]) (by simpa using hfirst)
  refine ⟨hp, by rw [hpr.1], by rw [hpr.1], ?_, ?_, ?_, ?_, ?_⟩
  · rw [hpr.2]; simp
  · intro image hi
    rw [hpr.2, hi, hren]
    refine ⟨by simp, fun hr => by simp [hr]⟩
  · intro hi
    refine (cannot_draw_events imp (submitAll subs v) ?_)
    exact Or.inr ⟨(subs.getLast hne).2, by simp [promotePending, hp], hi⟩
  · have : (fireAll (imp :: imps) (submitAll subs v)).1 =
        (frameSourceCallback imp (submitAll subs v)).2.1 := hall.1
    rw [this, hpr.1]
  · exact hall.2

/-- C14, amended, for the submissions 1, 2, 3 to the constructed view followed
by two fires: only buffer 3 is committed and reported. -/
theorem drop_stale_witness :
    ([(1000, 1), (2000, 2), (3000, 3)] : List (Int × Nat)) ≠ [] ∧
    (submitAll [(1000, 1), (2000, 2), (3000, 3)] freshView).pendingBuffer = some 3 ∧
    (fireAll [importOk, importOk] (submitAll [(1000, 1), (2000, 2), (3000, 3)] freshView)).2 =
      [FrameEvent.promoted 3, FrameEvent.bufferRendered 3] :=
  ⟨by decide,
    (drop_stale freshView [(1000, 1), (2000, 2), (3000, 3)] (by decide) importOk [importOk]).1,
    by decide⟩

/-- In every branch the callback leaves the view as the promotion step left it. -/
theorem frameSourceCallback_view (imp : Nat → Option Nat) (v : WPEViewOHOS) :
    (frameSourceCallback imp v).2.1 = (promotePending v).1 := by
  unfold frameSourceCallback
  cases hc : (promotePending v).1.committedBuffer with
  | none => simp [hc]
  | some c => cases hi : imp c <;> simp [hc, hi]

/-- One step keeps the numbering invariant and does not lower the number of the
committed buffer. -/
theorem NumberedView.step_invariant (s : NumberedView) (op : PipelineOp)
    (h1 : s.committedNumber ≤ s.received)
    (h2 : ∀ p, s.view.pendingBuffer = some p → s.committedNumber < p ∧ p ≤ s.received) :
    s.committedNumber ≤ (s.step op).committedNumber ∧
    (s.step op).committedNumber ≤ (s.step op).received ∧
    (∀ p, (s.step op).view.pendingBuffer = some p →
      (s.step op).committedNumber < p ∧ p ≤ (s.step op).received) := by
  cases op with
  | submit eglDisplay now =>
    cases eglDisplay with
    | false =>
      simp only [NumberedView.step, NumberedView.committedNumber, wpeViewOHOSRenderBuffer,
        Bool.not_false, if_true]
      refine ⟨le_refl _, Nat.le_succ_of_le h1, fun p hp => ?_⟩
      have := h2 p hp
      exact ⟨this.1, Nat.le_succ_of_le this.2⟩
    | true =>
      simp only [NumberedView.step, NumberedView.committedNumber, wpeViewOHOSRenderBuffer,
        Bool.not_true, Bool.false_eq_true, if_false]
      refine ⟨le_refl _, Nat.le_succ_of_le h1, fun p hp => ?_⟩
      simp only [Option.some.injEq] at hp
      subst hp
      exact ⟨Nat.lt_succ_of_le h1, le_refl _⟩
  | fire imp =>
    simp only [NumberedView.step, NumberedView.committedNumber, frameSourceCallback_view]
    cases hp : s.view.pendingBuffer with
    | none =>
      have hv : (promotePending s.view).1 = s.view := by simp [promotePending, hp]
      rw [hv]
      exact ⟨le_refl _, h1, fun p hq => by rw [hp] at hq; cases hq⟩
    | some p =>
      have hv : (promotePending s.view).1 =
          { s.view with committedBuffer := some p, pendingBuffer := none } := by
        simp [promotePending, hp]
      rw [hv]
      have := h2 p hp
      refine ⟨?_, ?_, fun q hq => by cases hq⟩
      · exact Nat.le_of_lt this.1
      · exact this.2

/-- The numbering invariant holds after every run from the constructed view. -/
theorem NumberedView.run_invariant (ops : List PipelineOp) (s0 : NumberedView)
    (h0 : s0.view.pendingBuffer = none) (hc0 : s0.view.committedBuffer = none) :
    (ops.foldl NumberedView.step s0).committedNumber ≤ (ops.foldl NumberedView.step s0).received ∧
    (∀ p, (ops.foldl NumberedView.step s0).view.pendingBuffer = some p →
      (ops.foldl NumberedView.step s0).committedNumber < p ∧
      p ≤ (ops.foldl NumberedView.step s0).received) ∧
    ((∀ o ∈ ops, o.accepted = true) →
      ∀ p, (ops.foldl NumberedView.step s0).view.pendingBuffer = some p →
        p = (ops.foldl NumberedView.step s0).received) := by
  induction ops using List.reverseRecOn with
  | nil =>
    simp only [List.foldl_nil]
    refine ⟨?_, ?_, ?_⟩
    · simp [NumberedView.committedNumber, hc0]
    · intro p hp; rw [h0] at hp; cases hp
    · intro _ p hp; rw [h0] at hp; cases hp
  | append_singleton ops op ih =>
    rw [List.foldl_append, List.foldl_cons, List.foldl_nil]
    have hs := NumberedView.step_invariant (ops.foldl NumberedView.step s0) op ih.1 ih.2.1
    refine ⟨hs.2.1, hs.2.2, ?_⟩
    intro hacc p hp
    have hprev := ih.2.2 (fun o ho => hacc o (List.mem_append_left _ ho))
    have hop : op.accepted = true := hacc op (by simp)
    cases op with
    | submit eglDisplay now =>
      simp only [PipelineOp.accepted] at hop
      subst hop
      simp only [NumberedView.step, wpeViewOHOSRenderBuffer, Bool.not_true, Bool.false_eq_true,
        if_false, Option.some.injEq] at hp ⊢
      exact hp.symm
    | fire imp =>
      simp only [NumberedView.step, frameSourceCallback_view] at hp ⊢
      cases hq : (ops.foldl NumberedView.step s0).view.pendingBuffer with
      | none =>
        have hv : (promotePending (ops.foldl NumberedView.step s0).view).1 =
            (ops.foldl NumberedView.step s0).view := by simp [promotePending, hq]
        rw [hv, hq] at hp
        cases hp
      | some q =>
        have hv : (promotePending (ops.foldl NumberedView.step s0).view).1 =
            { (ops.foldl NumberedView.step s0).view with
              committedBuffer := some q, pendingBuffer := none } := by
          simp [promotePending, hq]
        rw [hv] at hp
        cases hp

/-- C18: with the submissions numbered 1, 2, 3, ... in the order `render_buffer`
receives them, after every interleaving of submissions and timer fires from the
constructed view a further step never lowers the submission number of the
committed buffer; a timer fire that finds a pending buffer makes that buffer the
committed one, its number is higher than that of the buffer it replaces, and
when every submission was accepted it is the most recently submitted one. -/
theorem committed_number_monotone (ops : List PipelineOp) (op : PipelineOp) :
    (ops.foldl NumberedView.step ⟨freshView, 0⟩).committedNumber ≤
      ((ops.foldl NumberedView.step ⟨freshView, 0⟩).step op).committedNumber ∧
    (∀ imp p, (ops.foldl NumberedView.step ⟨freshView, 0⟩).view.pendingBuffer = some p →
      ((ops.foldl NumberedView.step ⟨freshView, 0⟩).step (PipelineOp.fire imp)).view.committedBuffer
        = some p ∧
      (ops.foldl NumberedView.step ⟨freshView, 0⟩).committedNumber < p ∧
      ((∀ o ∈ ops, o.accepted = true) →
        p = (ops.foldl NumberedView.step ⟨freshView, 0⟩).received)) := by
  have hinv := NumberedView.run_invariant ops ⟨freshView, 0⟩ rfl rfl
  refine ⟨(NumberedView.step_invariant _ op hinv.1 hinv.2.1).1, ?_⟩
  intro imp p hp
  refine ⟨?_, (hinv.2.1 p hp).1, fun hacc => hinv.2.2 hacc p hp⟩
  simp [NumberedView.step, frameSourceCallback_view, promotePending, hp]

/-- C18 on the run submit, submit, fire, submit: the fire commits submission 2,
the next fire commits submission 3. -/
theorem committed_number_monotone_witness :
    ([PipelineOp.submit true 1000, PipelineOp.submit true 2000, PipelineOp.fire importOk,
        PipelineOp.submit true 3000].foldl NumberedView.step ⟨freshView, 0⟩).committedNumber = 2 ∧
    ([PipelineOp.submit true 1000, PipelineOp.submit true 2000, PipelineOp.fire importOk,
        PipelineOp.submit true 3000].foldl NumberedView.step
          ⟨freshView, 0⟩).view.pendingBuffer = some 3 ∧
    (([PipelineOp.submit true 1000, PipelineOp.submit true 2000, PipelineOp.fire importOk,
        PipelineOp.submit true 3000].foldl NumberedView.step ⟨freshView, 0⟩).step
          (PipelineOp.fire importFails)).view.committedBuffer = some 3 :=
  ⟨by decide, by decide,
    ((committed_number_monotone
      [PipelineOp.submit true 1000, PipelineOp.submit true 2000, PipelineOp.fire importOk,
        PipelineOp.submit true 3000] (PipelineOp.fire importOk)).2 importFails 3 (by decide)).1⟩

/-! ## Claims on the view registry -/

theorem InitializeRenderer_id (E : Engine) (v : WKWebView) :
    (v.InitializeRenderer E).1.id_ = v.id_ := by
  unfold WKWebView.InitializeRenderer
  split
  · rfl
  · split
    · rfl
    · split <;> rfl

theorem Init_id (E : Engine) (v : WKWebView) : (v.Init E).1.id_ = v.id_ := by
  unfold WKWebView.Init
  split
  · rfl
  · split
    · rfl
    · split
      · rfl
      · simp only []
        split
        · rw [InitializeRenderer_id]
        · rfl

/-- A lookup on a consistent registry: the pointer returned is not null, it is
the entry of the identifier afterwards and points to an object carrying the
identifier; the registry stays consistent, entries persist, the entries of other
identifiers and the objects already there are untouched, and one object is
created exactly when the identifier had no entry. -/
theorem GetWebViewInternal_spec (rt : WKRuntime) (id : String) (h : rt.Consistent) :
    (rt.GetWebViewInternal id).2.Consistent ∧
    (∃ a, (rt.GetWebViewInternal id).1 = some a ∧
      (rt.GetWebViewInternal id).2.wkWebViewMap_.lookup id = some (some a) ∧
      ((rt.GetWebViewInternal id).2.views[a]?).map WKWebView.id_ = some id) ∧
    (∀ id2 p, rt.wkWebViewMap_.lookup id2 = some p →
      (rt.GetWebViewInternal id).2.wkWebViewMap_.lookup id2 = some p) ∧
    (rt.GetWebViewInternal id).2.views =
      rt.views ++ (if rt.wkWebViewMap_.lookup id = none then [{ id_ := id }] else []) := by
  unfold WKRuntime.GetWebViewInternal
  cases hl : rt.wkWebViewMap_.lookup id with
  | some p =>
    obtain ⟨a, rfl, ha⟩ := h.1 id p hl
    refine ⟨h, ⟨a, rfl, hl, ha⟩, fun id2 p h2 => h2, by simp⟩
  | none =>
    refine ⟨⟨?_, ?_⟩, ⟨rt.views.length, rfl, ?_, ?_⟩, ?_, by simp⟩
    · intro id2 p h2
      rw [List.lookup_append] at h2
      cases h3 : rt.wkWebViewMap_.lookup id2 with
      | some q =>
        rw [h3] at h2
        simp only [Option.or_some, Option.some.injEq] at h2
        subst h2
        obtain ⟨a, rfl, ha⟩ := h.1 id2 q h3
        refine ⟨a, rfl, ?_⟩
        have hlt : a < rt.views.length := by
          by_contra hge
          rw [List.getElem?_eq_none (Nat.le_of_not_lt hge)] at ha
          simp at ha
        rw [List.getElem?_append_left hlt]
        exact ha
      | none =>
        rw [h3] at h2
        simp only [Option.none_or, List.lookup_cons, List.lookup_nil] at h2
        by_cases he : id2 = id
        · subst he
          simp only [beq_self_eq_true, Option.some.injEq] at h2
          subst h2
          exact ⟨rt.views.length, rfl, by simp⟩
        · have : (id2 == id) = false := by simpa using he
          simp [this] at h2
    · intro a v hv
      rw [List.getElem?_append] at hv
      rw [List.lookup_append]
      by_cases hlt : a < rt.views.length
      · rw [if_pos hlt] at hv
        rw [h.2 a v hv]
        rfl
      · rw [if_neg hlt] at hv
        have ha : a = rt.views.length := by
          by_contra hne
          have : a - rt.views.length ≠ 0 := by omega
          obtain ⟨k, hk⟩ := Nat.exists_eq_succ_of_ne_zero this
          rw [hk] at hv
          simp at hv
        subst ha
        simp only [Nat.sub_self, List.getElem?_cons_zero, Option.some.injEq] at hv
        subst hv
        simp [hl]
    · rw [List.lookup_append, hl]
      simp
    · simp
    · intro id2 p h2
      rw [List.lookup_append, h2]
      rfl

/-- A lookup leaves the entries of all other identifiers and every object that
exists as they are, and changes no other field. -/
theorem GetWebViewInternal_frame (rt : WKRuntime) (id : String) :
    (∀ id2, id2 ≠ id →
      (rt.GetWebViewInternal id).2.wkWebViewMap_.lookup id2 = rt.wkWebViewMap_.lookup id2) ∧
    (∀ a, a < rt.views.length → (rt.GetWebViewInternal id).2.views[a]? = rt.views[a]?) ∧
    (rt.GetWebViewInternal id).2.pendingInitialization_ = rt.pendingInitialization_ ∧
    (rt.GetWebViewInternal id).2.uiReady_ = rt.uiReady_ ∧
    (rt.GetWebViewInternal id).2.mainContext_ = rt.mainContext_ := by
  unfold WKRuntime.GetWebViewInternal
  cases hl : rt.wkWebViewMap_.lookup id with
  | some p => simp
  | none =>
    refine ⟨?_, ?_, rfl, rfl, rfl⟩
    · intro id2 hne
      have : (id2 == id) = false := by simpa using hne
      simp [List.lookup_append, List.lookup_cons, this]
    · intro a ha
      simp [List.getElem?_append_left ha]

/-- In a consistent registry no two objects carry the same identifier. -/
theorem Consistent.nodup (rt : WKRuntime) (h : rt.Consistent) :
    (rt.views.map WKWebView.id_).Nodup := by
  rw [List.nodup_iff_getElem?_ne_getElem?]
  intro i j hij hj heq
  rw [List.length_map] at hj
  rw [List.getElem?_map, List.getElem?_map] at heq
  have hi : i < rt.views.length := Nat.lt_trans hij hj
  rw [List.getElem?_eq_getElem hi, List.getElem?_eq_getElem hj] at heq
  simp only [Option.map_some', Option.some.injEq] at heq
  have h1 := h.2 i rt.views[i] (List.getElem?_eq_getElem hi)
  have h2 := h.2 j rt.views[j] (List.getElem?_eq_getElem hj)
  rw [heq, h2] at h1
  simp only [Option.some.injEq] at h1
  omega

theorem Consistent.empty : ({} : WKRuntime).Consistent := by
  refine ⟨?_, ?_⟩
  · intro id p h; simp at h
  · intro a v h; simp at h

/-- An identifier with an entry in a consistent registry is carried by an object. -/
theorem Consistent.mem_of_lookup (rt : WKRuntime) (h : rt.Consistent) (id : String)
    (p : Option Nat) (hl : rt.wkWebViewMap_.lookup id = some p) :
    id ∈ rt.views.map WKWebView.id_ := by
  obtain ⟨a, _, ha⟩ := h.1 id p hl
  rw [List.mem_iff_getElem?]
  exact ⟨a, by rw [List.getElem?_map]; exact ha⟩

/-- A sequence of lookups on a consistent registry. -/
theorem lookups_spec (ids : List String) :
    ∀ rt : WKRuntime, rt.Consistent →
      (WKRuntime.lookups ids rt).2.Consistent ∧
      (∀ id p, rt.wkWebViewMap_.lookup id = some p →
        (WKRuntime.lookups ids rt).2.wkWebViewMap_.lookup id = some p) ∧
      (WKRuntime.lookups ids rt).1.length = ids.length ∧
      (∀ (i : Nat) (id : String), ids[i]? = some id →
        ∃ a, (WKRuntime.lookups ids rt).1[i]? = some (some a) ∧
          (WKRuntime.lookups ids rt).2.wkWebViewMap_.lookup id = some (some a) ∧
          ((WKRuntime.lookups ids rt).2.views[a]?).map WKWebView.id_ = some id) ∧
      (∀ id, id ∈ (WKRuntime.lookups ids rt).2.views.map WKWebView.id_ ↔
        (id ∈ rt.views.map WKWebView.id_ ∨ id ∈ ids)) ∧
      (∀ a, a < rt.views.length → (WKRuntime.lookups ids rt).2.views[a]? = rt.views[a]?) := by
  induction ids with
  | nil =>
    intro rt h
    refine ⟨h, fun _ _ hl => hl, rfl, ?_, ?_, fun _ _ => rfl⟩
    · intro i id hi; simp at hi
    · intro id; simp [WKRuntime.lookups]
  | cons id0 ids ih =>
    intro rt h
    obtain ⟨hc1, ⟨a0, hres, hent, _⟩, hpers, hviews⟩ := GetWebViewInternal_spec rt id0 h
    obtain ⟨ihc, ihp, ihl, ihi, ihm, iho⟩ := ih (rt.GetWebViewInternal id0).2 hc1
    have hfr := GetWebViewInternal_frame rt id0
    simp only [WKRuntime.lookups]
    refine ⟨ihc, fun id p hl => ihp id p (hpers id p hl), by simp [ihl], ?_, ?_, ?_⟩
    · intro i id hi
      cases i with
      | zero =>
        simp only [List.getElem?_cons_zero, Option.some.injEq] at hi
        subst hi
        have hfin := ihp id0 (some a0) hent
        obtain ⟨a1, ha1, hv⟩ := ihc.1 id0 (some a0) hfin
        simp only [Option.some.injEq] at ha1
        subst ha1
        exact ⟨a0, by simp [hres], hfin, hv⟩
      | succ k =>
        simp only [List.getElem?_cons_succ] at hi ⊢
        exact ihi k id hi
    · intro id
      rw [ihm id, hviews]
      cases hl : rt.wkWebViewMap_.lookup id0 with
      | none =>
        simp only [if_true, List.map_append, List.mem_append, List.map_cons, List.map_nil,
          List.mem_singleton, List.mem_cons]
        tauto
      | some p =>
        have hmem := Consistent.mem_of_lookup rt h id0 p hl
        simp only [reduceCtorEq, if_false, List.append_nil, List.mem_cons]
        constructor
        · rintro (h1 | h1)
          · exact Or.inl h1
          · exact Or.inr (Or.inr h1)
        · rintro (h1 | h1 | h1)
          · exact Or.inl h1
          · subst h1; exact Or.inl hmem
          · exact Or.inr h1
    · intro a ha
      have hlt : a < (rt.GetWebViewInternal id0).2.views.length := by
        rw [hviews, List.length_append]
        omega
      rw [iho a hlt, hfr.2.1 a ha]

/-- C12: the view registry holds at most one WebView per identifier. After every
sequence of `GetWebViewInternal` calls on the empty registry no two objects carry
the same identifier and an object exists for exactly the identifiers looked up;
every call returns a non-null pointer, the one the map holds for the identifier
afterwards, so all calls for one identifier return the same instance; a single
call creates one instance exactly when the identifier has no entry, and leaves
the entries of all other identifiers and all existing objects unchanged. -/
theorem registry_one_view_per_id (ids : List String) :
    ((WKRuntime.lookups ids {}).2.views.map WKWebView.id_).Nodup ∧
    (∀ id, id ∈ (WKRuntime.lookups ids {}).2.views.map WKWebView.id_ ↔ id ∈ ids) ∧
    (∀ (i : Nat) (id : String), ids[i]? = some id →
      ∃ a, (WKRuntime.lookups ids {}).1[i]? = some (some a) ∧
        (WKRuntime.lookups ids {}).2.wkWebViewMap_.lookup id = some (some a) ∧
        ((WKRuntime.lookups ids {}).2.views[a]?).map WKWebView.id_ = some id) ∧
    (∀ id, ((WKRuntime.lookups ids {}).2.GetWebViewInternal id).2.views =
      (WKRuntime.lookups ids {}).2.views ++
        (if (WKRuntime.lookups ids {}).2.wkWebViewMap_.lookup id = none then [{ id_ := id }]
          else [])) ∧
    (∀ id id2, id2 ≠ id →
      ((WKRuntime.lookups ids {}).2.GetWebViewInternal id).2.wkWebViewMap_.lookup id2 =
        (WKRuntime.lookups ids {}).2.wkWebViewMap_.lookup id2) ∧
    (∀ id a, a < (WKRuntime.lookups ids {}).2.views.length →
      ((WKRuntime.lookups ids {}).2.GetWebViewInternal id).2.views[a]? =
        (WKRuntime.lookups ids {}).2.views[a]?) := by
  obtain ⟨hc, _, _, hi, hm, _⟩ := lookups_spec ids {} Consistent.empty
  refine ⟨Consistent.nodup _ hc, ?_, hi, ?_, ?_, ?_⟩
  · intro id
    rw [hm id]
    simp
  · intro id
    exact (GetWebViewInternal_spec _ id hc).2.2.2
  · intro id id2 hne
    exact (GetWebViewInternal_frame _ id).1 id2 hne
  · intro id a ha
    exact (GetWebViewInternal_frame _ id).2.1 a ha

/-- C12 on the lookups a, b, a: two objects are created and the third call
returns the instance of the first. -/
theorem registry_one_view_per_id_witness :
    (["a", "b", "a"] : List String)[2]? = some "a" ∧
    (WKRuntime.lookups ["a", "b", "a"] {}).1 = [some 0, some 1, some 0] ∧
    (WKRuntime.lookups ["a", "b", "a"] {}).2.views.map WKWebView.id_ = ["a", "b"] ∧
    (∃ a, (WKRuntime.lookups ["a", "b", "a"] {}).1[2]? = some (some a) ∧
      (WKRuntime.lookups ["a", "b", "a"] {}).2.wkWebViewMap_.lookup "a" = some (some a) ∧
      ((WKRuntime.lookups ["a", "b", "a"] {}).2.views[a]?).map WKWebView.id_ = some "a") :=
  ⟨rfl, by decide, by decide, (registry_one_view_per_id ["a", "b", "a"]).2.2.1 2 "a" rfl⟩

/-! ## Claims on the deferred initialization -/

/-- Replacing an object by one with the same identifier keeps the registry
consistent. -/
theorem Consistent.set (rt : WKRuntime) (h : rt.Consistent) (a : Nat) (v v2 : WKWebView)
    (hv : rt.views[a]? = some v) (hid : v2.id_ = v.id_) :
    WKRuntime.Consistent { rt with views := rt.views.set a v2 } := by
  have halt : a < rt.views.length := by
    by_contra hge
    rw [List.getElem?_eq_none (Nat.le_of_not_lt hge)] at hv
    cases hv
  refine ⟨?_, ?_⟩
  · intro id p hl
    obtain ⟨b, hb, hbv⟩ := h.1 id p hl
    refine ⟨b, hb, ?_⟩
    show ((rt.views.set a v2)[b]?).map WKWebView.id_ = some id
    rw [List.getElem?_set]
    by_cases hab : a = b
    · subst hab
      rw [hv] at hbv
      simp only [Option.map_some', Option.some.injEq] at hbv
      simp [halt, hid, hbv]
    · simp [hab, hbv]
  · intro b w hw
    show rt.wkWebViewMap_.lookup w.id_ = some (some b)
    have hw2 : (rt.views.set a v2)[b]? = some w := hw
    rw [List.getElem?_set] at hw2
    by_cases hab : a = b
    · subst hab
      simp only [if_true, halt, Option.some.injEq] at hw2
      subst hw2
      rw [hid]
      exact h.2 a v hv
    · simp only [hab, if_false] at hw2
      exact h.2 b w hw2

/-- One round of the flush loop on a consistent registry: `Init()` is invoked
once, on the object registered for the identifier. -/
theorem initPending_spec (E : Engine) (st : WKRuntime × List InitCall) (id : String)
    (h : st.1.Consistent) :
    (WKRuntime.initPending E st id).1.Consistent ∧
    (WKRuntime.initPending E st id).1.pendingInitialization_ = st.1.pendingInitialization_ ∧
    (∀ id2 p, st.1.wkWebViewMap_.lookup id2 = some p →
      (WKRuntime.initPending E st id).1.wkWebViewMap_.lookup id2 = some p) ∧
    ∃ a ev, (WKRuntime.initPending E st id).2 = st.2 ++ [⟨id, a, ev⟩] ∧
      (WKRuntime.initPending E st id).1.wkWebViewMap_.lookup id = some (some a) := by
  obtain ⟨hc1, ⟨a, hres, hent, hview⟩, hpers, _⟩ := GetWebViewInternal_spec st.1 id h
  have hfr := GetWebViewInternal_frame st.1 id
  obtain ⟨v, hv⟩ : ∃ v, (st.1.GetWebViewInternal id).2.views[a]? = some v := by
    cases hq : (st.1.GetWebViewInternal id).2.views[a]? with
    | none => rw [hq] at hview; simp at hview
    | some v => exact ⟨v, rfl⟩
  have hinit : WKRuntime.initPending E st id =
      ({ (st.1.GetWebViewInternal id).2 with
          views := (st.1.GetWebViewInternal id).2.views.set a (v.Init E).1 },
        st.2 ++ [⟨id, a, (v.Init E).2⟩]) := by
    simp only [WKRuntime.initPending, hres, hv]
  rw [hinit]
  refine ⟨Consistent.set _ hc1 a v _ hv (Init_id E v), hfr.2.2.1, ?_, a, (v.Init E).2, rfl, hent⟩
  intro id2 p hl
  exact hpers id2 p hl

/-- The loop of the flush on a consistent registry: one `Init()` invocation per
identifier of the list, in order, each on the object registered for it. -/
theorem flushLoop_spec (E : Engine) (ids : List String) :
    ∀ st : WKRuntime × List InitCall, st.1.Consistent →
      (∀ c ∈ st.2, st.1.wkWebViewMap_.lookup c.id = some (some c.view)) →
      (ids.foldl (WKRuntime.initPending E) st).1.Consistent ∧
      (ids.foldl (WKRuntime.initPending E) st).1.pendingInitialization_ =
        st.1.pendingInitialization_ ∧
      (ids.foldl (WKRuntime.initPending E) st).2.map InitCall.id =
        st.2.map InitCall.id ++ ids ∧
      (∀ c ∈ (ids.foldl (WKRuntime.initPending E) st).2,
        (ids.foldl (WKRuntime.initPending E) st).1.wkWebViewMap_.lookup c.id =
          some (some c.view)) := by
  induction ids with
  | nil => intro st h hcalls; exact ⟨h, rfl, by simp, hcalls⟩
  | cons id ids ih =>
    intro st h hcalls
    obtain ⟨hc, hp, hpers, a, ev, hev, hent⟩ := initPending_spec E st id h
    have hcalls2 : ∀ c ∈ (WKRuntime.initPending E st id).2,
        (WKRuntime.initPending E st id).1.wkWebViewMap_.lookup c.id = some (some c.view) := by
      intro c hcm
      rw [hev, List.mem_append] at hcm
      rcases hcm with hcm | hcm
      · exact hpers _ _ (hcalls c hcm)
      · simp only [List.mem_singleton] at hcm
        subst hcm
        exact hent
    obtain ⟨i1, i2, i3, i4⟩ := ih (WKRuntime.initPending E st id) hc hcalls2
    rw [List.foldl_cons]
    refine ⟨i1, by rw [i2, hp], ?_, i4⟩
    rw [i3, hev]
    simp

/-- The flush on a consistent registry. -/
theorem Flush_spec (E : Engine) (rt : WKRuntime) (h : rt.Consistent) :
    (WKRuntime.FlushPendingInitsOnUIReady E rt).2.map InitCall.id = rt.pendingInitialization_ ∧
    (WKRuntime.FlushPendingInitsOnUIReady E rt).1.pendingInitialization_ = [] ∧
    (∀ c ∈ (WKRuntime.FlushPendingInitsOnUIReady E rt).2,
      (WKRuntime.FlushPendingInitsOnUIReady E rt).1.wkWebViewMap_.lookup c.id =
        some (some c.view)) := by
  unfold WKRuntime.FlushPendingInitsOnUIReady
  by_cases hp : rt.pendingInitialization_ = []
  · simp [hp]
  · simp only [hp, if_false]
    obtain ⟨_, h2, h3, h4⟩ := flushLoop_spec E rt.pendingInitialization_
      ({ rt with pendingInitialization_ := [] }, []) h (by simp)
    exact ⟨by simpa using h3, h2, h4⟩

/-- One round of the flush loop, object by object: `Init()` runs on the object at
the address `a` registered for the identifier (the object already there, or the
one the lookup creates), the call is recorded with the calls that `Init()` made,
the object at `a` is the result of `Init()`, and no other object changes. -/
theorem initPending_step (E : Engine) (st : WKRuntime × List InitCall) (id : String)
    (h : st.1.Consistent) :
    ∃ a, (st.1.views[a]?.getD { id_ := id }).id_ = id ∧
      (WKRuntime.initPending E st id).2 =
        st.2 ++ [⟨id, a, ((st.1.views[a]?.getD { id_ := id }).Init E).2⟩] ∧
      (WKRuntime.initPending E st id).1.views[a]? =
        some ((st.1.views[a]?.getD { id_ := id }).Init E).1 ∧
      (∀ b, b ≠ a → (WKRuntime.initPending E st id).1.views[b]? = st.1.views[b]?) ∧
      (∀ b w, st.1.views[b]? = some w → w.id_ ≠ id → b ≠ a) := by
  cases hl : st.1.wkWebViewMap_.lookup id with
  | none =>
    have hnone : st.1.views[st.1.views.length]? = none := List.getElem?_eq_none (le_refl _)
    refine ⟨st.1.views.length, ?_, ?_, ?_, ?_, ?_⟩
    · rw [hnone]; rfl
    · rw [hnone]
      simp [WKRuntime.initPending, WKRuntime.GetWebViewInternal, hl]
    · rw [hnone]
      simp [WKRuntime.initPending, WKRuntime.GetWebViewInternal, hl]
    · intro b hb
      simp only [WKRuntime.initPending, WKRuntime.GetWebViewInternal, hl]
      simp only [List.getElem?_append_right (le_refl _), Nat.sub_self, List.getElem?_cons_zero]
      rw [List.getElem?_set_ne (Ne.symm hb)]
      rcases Nat.lt_or_gt_of_ne hb with hlt | hgt
      · rw [List.getElem?_append_left hlt]
      · rw [List.getElem?_eq_none (by simp; omega), List.getElem?_eq_none (by omega)]
    · intro b w hw _ hba
      rw [hba, hnone] at hw
      cases hw
  | some p =>
    obtain ⟨a, hp, hview⟩ := h.1 id p hl
    subst hp
    obtain ⟨v, hv⟩ : ∃ v, st.1.views[a]? = some v := by
      cases hq : st.1.views[a]? with
      | none => rw [hq] at hview; simp at hview
      | some v => exact ⟨v, rfl⟩
    have hid : v.id_ = id := by
      rw [hv] at hview
      simpa using hview
    have halt : a < st.1.views.length := by
      by_contra hge
      rw [List.getElem?_eq_none (Nat.le_of_not_lt hge)] at hv
      cases hv
    refine ⟨a, ?_, ?_, ?_, ?_, ?_⟩
    · rw [hv]; exact hid
    · rw [hv]
      simp [WKRuntime.initPending, WKRuntime.GetWebViewInternal, hl, hv]
    · rw [hv]
      simp [WKRuntime.initPending, WKRuntime.GetWebViewInternal, hl, hv, halt]
    · intro b hb
      simp only [WKRuntime.initPending, WKRuntime.GetWebViewInternal, hl, hv]
      exact List.getElem?_set_ne (Ne.symm hb)
    · intro b w hw hne hba
      rw [hba, hv] at hw
      cases hw
      exact hne hid

/-- The loop of the flush over distinct identifiers, object by object: every
recorded call carries the calls that `Init()` made on the object its identifier
was registered for when the loop started (or on the new object, when there was
none), that object is the result of `Init()` at the end, and the objects of
identifiers outside the list are unchanged. -/
theorem flushLoop_init (E : Engine) (ids : List String) :
    ∀ st : WKRuntime × List InitCall, st.1.Consistent → ids.Nodup →
      (∀ (a : Nat) (v : WKWebView), st.1.views[a]? = some v → v.id_ ∉ ids →
        (ids.foldl (WKRuntime.initPending E) st).1.views[a]? = some v) ∧
      (∀ c ∈ (ids.foldl (WKRuntime.initPending E) st).2,
        c ∈ st.2 ∨
        (c.id ∈ ids ∧ (st.1.views[c.view]?.getD { id_ := c.id }).id_ = c.id ∧
          c.events = ((st.1.views[c.view]?.getD { id_ := c.id }).Init E).2 ∧
          (ids.foldl (WKRuntime.initPending E) st).1.views[c.view]? =
            some ((st.1.views[c.view]?.getD { id_ := c.id }).Init E).1)) := by
  induction ids with
  | nil =>
    intro st _ _
    exact ⟨fun a v h0 _ => h0, fun c hc => Or.inl hc⟩
  | cons id ids ih =>
    intro st h hnd
    rw [List.nodup_cons] at hnd
    obtain ⟨a, hVid, hcalls, hat, hothers, hne⟩ := initPending_step E st id h
    have hc := (initPending_spec E st id h).1
    obtain ⟨hA, hB⟩ := ih (WKRuntime.initPending E st id) hc hnd.2
    rw [List.foldl_cons]
    refine ⟨?_, ?_⟩
    · intro a0 v0 h0 hnot
      have h1 : v0.id_ ≠ id := fun e => hnot (e ▸ List.mem_cons_self _ _)
      have h2 : v0.id_ ∉ ids := fun e => hnot (List.mem_cons_of_mem _ e)
      apply hA a0 v0 _ h2
      rw [hothers a0 (hne a0 v0 h0 h1)]
      exact h0
    · intro c hcm
      rcases hB c hcm with hold | ⟨hmem, hV, hev, hfin⟩
      · rw [hcalls, List.mem_append] at hold
        rcases hold with hold | hold
        · exact Or.inl hold
        · simp only [List.mem_singleton] at hold
          subst hold
          refine Or.inr ⟨List.mem_cons_self _ _, hVid, rfl, ?_⟩
          apply hA a _ hat
          rw [Init_id, hVid]
          exact hnd.1
      · have hca : c.view ≠ a := by
          intro e
          rw [e, hat] at hV
          simp only [Option.getD_some] at hV
          rw [Init_id, hVid] at hV
          exact hnd.1 (hV ▸ hmem)
        rw [hothers c.view hca] at hV hev hfin
        exact Or.inr ⟨List.mem_cons_of_mem _ hmem, hV, hev, hfin⟩

/-- The flush of a duplicate-free pending list on a consistent registry, object by
object. -/
theorem Flush_init (E : Engine) (rt : WKRuntime) (h : rt.Consistent)
    (hnd : rt.pendingInitialization_.Nodup) :
    (∀ c ∈ (WKRuntime.FlushPendingInitsOnUIReady E rt).2,
      (rt.views[c.view]?.getD { id_ := c.id }).id_ = c.id ∧
      c.events = ((rt.views[c.view]?.getD { id_ := c.id }).Init E).2 ∧
      (WKRuntime.FlushPendingInitsOnUIReady E rt).1.views[c.view]? =
        some ((rt.views[c.view]?.getD { id_ := c.id }).Init E).1) ∧
    (∀ (a : Nat) (v : WKWebView), rt.views[a]? = some v → v.id_ ∉ rt.pendingInitialization_ →
      (WKRuntime.FlushPendingInitsOnUIReady E rt).1.views[a]? = some v) := by
  unfold WKRuntime.FlushPendingInitsOnUIReady
  by_cases hp : rt.pendingInitialization_ = []
  · simp only [hp, if_true]
    exact ⟨fun c hc => (by cases hc), fun a v h0 _ => h0⟩
  · simp only [hp, if_false]
    obtain ⟨hA, hB⟩ := flushLoop_init E rt.pendingInitialization_
      ({ rt with pendingInitialization_ := [] }, []) h hnd
    refine ⟨?_, hA⟩
    intro c hc
    rcases hB c hc with hold | ⟨_, h1, h2, h3⟩
    · cases hold
    · exact ⟨h1, h2, h3⟩

/-- Requests made before readiness only extend the pending list, by the
identifiers not yet in it. -/
theorem requestAll_spec (ids : List String) :
    ∀ rt : WKRuntime, rt.uiReady_ = false → rt.pendingInitialization_.Nodup →
      ∃ pending, WKRuntime.requestAll ids rt =
          some { rt with pendingInitialization_ := pending } ∧
        pending.Nodup ∧
        ∀ id, id ∈ pending ↔ (id ∈ rt.pendingInitialization_ ∨ id ∈ ids) := by
  induction ids with
  | nil =>
    intro rt _ hnd
    exact ⟨rt.pendingInitialization_, rfl, hnd, by simp⟩
  | cons id0 ids ih =>
    intro rt hr hnd
    by_cases hmem : id0 ∈ rt.pendingInitialization_
    · obtain ⟨pending, h1, h2, h3⟩ := ih rt hr hnd
      have hd : rt.DoRequestWebViewInit id0 = some rt := by
        simp [WKRuntime.DoRequestWebViewInit, hr, hmem]
      refine ⟨pending, ?_, h2, ?_⟩
      · rw [WKRuntime.requestAll, hd]
        exact h1
      · intro id
        rw [h3 id]
        constructor
        · rintro (h | h)
          · exact Or.inl h
          · exact Or.inr (List.mem_cons_of_mem _ h)
        · rintro (h | h)
          · exact Or.inl h
          · rcases List.mem_cons.mp h with h | h
            · subst h; exact Or.inl hmem
            · exact Or.inr h
    · obtain ⟨pending, h1, h2, h3⟩ :=
        ih { rt with pendingInitialization_ := rt.pendingInitialization_ ++ [id0] } hr
          (by
            show (rt.pendingInitialization_ ++ [id0]).Nodup
            rw [List.nodup_append]
            refine ⟨hnd, by simp, ?_⟩
            intro x hx hx2
            simp only [List.mem_singleton] at hx2
            subst hx2
            exact hmem hx)
      have hd : rt.DoRequestWebViewInit id0 =
          some { rt with pendingInitialization_ := rt.pendingInitialization_ ++ [id0] } := by
        simp [WKRuntime.DoRequestWebViewInit, hr, hmem]
      refine ⟨pending, ?_, h2, ?_⟩
      · rw [WKRuntime.requestAll, hd]
        exact h1
      · intro id
        rw [h3 id]
        simp only [List.mem_append, List.mem_singleton, List.mem_cons]
        tauto

/-- C11: for every sequence of `RequestViewInit` calls made before readiness on
a consistent registry with nothing pending (identifiers may repeat), the calls
succeed and leave a pending list without duplicates that holds exactly the
identifiers requested; the readiness flush invokes `Init()` once for each entry
of that list, in order, on the view registered for it, and for nothing else, and
leaves the pending list empty, so that a second flush invokes nothing and changes
nothing. Each invocation is the run of `Init()` on the view the identifier had
before the flush, or on the new view the flush creates for it: the recorded calls
are those `Init()` made, the view stored at the end is the one `Init()` left, and
the views of identifiers that were not requested are unchanged. -/
theorem pending_inits_flushed_once (E : Engine) (rt : WKRuntime) (ids : List String)
    (hready : rt.uiReady_ = false) (hpend : rt.pendingInitialization_ = [])
    (hcons : rt.Consistent) :
    ∃ rt1, WKRuntime.requestAll ids rt = some rt1 ∧
      rt1.pendingInitialization_.Nodup ∧
      (∀ id, id ∈ rt1.pendingInitialization_ ↔ id ∈ ids) ∧
      (rt1.onUIReady E).2.map InitCall.id = rt1.pendingInitialization_ ∧
      (∀ c ∈ (rt1.onUIReady E).2,
        (rt1.onUIReady E).1.wkWebViewMap_.lookup c.id = some (some c.view)) ∧
      (rt1.onUIReady E).1.pendingInitialization_ = [] ∧
      WKRuntime.FlushPendingInitsOnUIReady E (rt1.onUIReady E).1 =
        ((rt1.onUIReady E).1, []) ∧
      rt1.views = rt.views ∧
      (∀ c ∈ (rt1.onUIReady E).2,
        (rt.views[c.view]?.getD { id_ := c.id }).id_ = c.id ∧
        c.events = ((rt.views[c.view]?.getD { id_ := c.id }).Init E).2 ∧
        (rt1.onUIReady E).1.views[c.view]? =
          some ((rt.views[c.view]?.getD { id_ := c.id }).Init E).1) ∧
      (∀ (a : Nat) (v : WKWebView), rt.views[a]? = some v → v.id_ ∉ ids →
        (rt1.onUIReady E).1.views[a]? = some v) := by
  obtain ⟨pending, h1, h2, h3⟩ :=
    requestAll_spec ids rt hready (by rw [hpend]; exact List.nodup_nil)
  have hiff : ∀ id, id ∈ pending ↔ id ∈ ids := by
    intro id
    rw [h3 id, hpend]
    simp
  refine ⟨_, h1, h2, hiff, ?_⟩
  have hc : WKRuntime.Consistent
      { ({ rt with pendingInitialization_ := pending } : WKRuntime) with uiReady_ := true } :=
    hcons
  obtain ⟨f1, f2, f3⟩ := Flush_spec E _ hc
  obtain ⟨g1, g2⟩ := Flush_init E _ hc h2
  refine ⟨f1, f3, f2, ?_, rfl, g1, ?_⟩
  · unfold WKRuntime.FlushPendingInitsOnUIReady
    simp only [WKRuntime.onUIReady] at f2 ⊢
    rw [if_pos f2]
  · intro a v h0 hnot
    exact g2 a v h0 (fun hm => hnot ((hiff _).mp hm))

/-- C11 on the empty registry for the requests a, b, a: the pending list is a, b;
the flush creates the views of a and of b, runs `Init()` on each and records the
calls each `Init()` made. -/
theorem pending_inits_flushed_once_witness :
    ({} : WKRuntime).uiReady_ = false ∧ ({} : WKRuntime).pendingInitialization_ = [] ∧
    WKRuntime.requestAll ["a", "b", "a"] {} = some { pendingInitialization_ := ["a", "b"] } ∧
    (WKRuntime.onUIReady sampleEngine { pendingInitialization_ := ["a", "b"] }).2 =
      [⟨"a", 0, (WKWebView.Init sampleEngine { id_ := "a" }).2⟩,
        ⟨"b", 1, (WKWebView.Init sampleEngine { id_ := "b" }).2⟩] ∧
    (WKRuntime.onUIReady sampleEngine { pendingInitialization_ := ["a", "b"] }).1.views =
      [(WKWebView.Init sampleEngine { id_ := "a" }).1,
        (WKWebView.Init sampleEngine { id_ := "b" }).1] ∧
    (WKWebView.Init sampleEngine { id_ := "a" }).2.length = 7 ∧
    ∃ rt1, WKRuntime.requestAll ["a", "b", "a"] {} = some rt1 ∧
      rt1.pendingInitialization_.Nodup ∧
      (∀ id, id ∈ rt1.pendingInitialization_ ↔ id ∈ ["a", "b", "a"]) ∧
      (rt1.onUIReady sampleEngine).2.map InitCall.id = rt1.pendingInitialization_ ∧
      (∀ c ∈ (rt1.onUIReady sampleEngine).2,
        (rt1.onUIReady sampleEngine).1.wkWebViewMap_.lookup c.id = some (some c.view)) ∧
      (rt1.onUIReady sampleEngine).1.pendingInitialization_ = [] ∧
      WKRuntime.FlushPendingInitsOnUIReady sampleEngine (rt1.onUIReady sampleEngine).1 =
        ((rt1.onUIReady sampleEngine).1, []) ∧
      rt1.views = ({} : WKRuntime).views ∧
      (∀ c ∈ (rt1.onUIReady sampleEngine).2,
        ((({} : WKRuntime).views[c.view]?).getD { id_ := c.id }).id_ = c.id ∧
        c.events =
          (((({} : WKRuntime).views[c.view]?).getD { id_ := c.id }).Init sampleEngine).2 ∧
        (rt1.onUIReady sampleEngine).1.views[c.view]? =
          some (((({} : WKRuntime).views[c.view]?).getD { id_ := c.id }).Init sampleEngine).1) ∧
      (∀ (a : Nat) (v : WKWebView), ({} : WKRuntime).views[a]? = some v →
        v.id_ ∉ ["a", "b", "a"] → (rt1.onUIReady sampleEngine).1.views[a]? = some v) :=
  ⟨rfl, rfl, by decide, by decide, by decide, by decide,
    pending_inits_flushed_once sampleEngine {} ["a", "b", "a"] rfl rfl Consistent.empty⟩

/-! ## Claims on `WKWebView::Init` -/

theorem InitializeRenderer_keeps (E : Engine) (v : WKWebView) :
    (v.InitializeRenderer E).1.webView_ = v.webView_ ∧
    (v.InitializeRenderer E).1.wpeView_ = v.wpeView_ ∧
    (v.InitializeRenderer E).1.signalHandlers_ = v.signalHandlers_ := by
  unfold WKWebView.InitializeRenderer
  split
  · exact ⟨rfl, rfl, rfl⟩
  · split
    · exact ⟨rfl, rfl, rfl⟩
    · split <;> exact ⟨rfl, rfl, rfl⟩

/-- The engine view, the platform view and the handler list after `Init` on a
view without engine view. -/
theorem Init_fields (E : Engine) (v : WKWebView) (hnone : v.webView_ = none) :
    match E.newWebView v.id_ with
    | none => (v.Init E).1 = v
    | some w =>
      (v.Init E).1.webView_ = some w ∧ (v.Init E).1.wpeView_ = E.getWpeView w ∧
      (v.Init E).1.signalHandlers_ = v.signalHandlers_ ++
        (if (E.getWpeView w).isSome then
          [E.signalConnect w "load-changed", E.signalConnect w "load-failed",
            E.signalConnect w "load-failed-with-tls-errors"]
         else []) := by
  cases hn : E.newWebView v.id_ with
  | none => simp [WKWebView.Init, hnone, hn]
  | some w =>
    simp only
    cases hw : E.getWpeView w with
    | none => simp [WKWebView.Init, hnone, hn, hw]
    | some wpe =>
      unfold WKWebView.Init
      simp only [hnone, hn, hw, Option.isSome_none, Bool.false_eq_true, if_false,
        Option.isSome_some, if_true]
      split
      · have hk := InitializeRenderer_keeps E
          { v with webView_ := some w, wpeView_ := some wpe,
                   signalHandlers_ := v.signalHandlers_ ++
                    [E.signalConnect w "load-changed", E.signalConnect w "load-failed",
                      E.signalConnect w "load-failed-with-tls-errors"] }
        exact hk
      · exact ⟨rfl, rfl, rfl⟩

/-- C13 as stated fails: when the first `Init` creates the engine view but finds
no platform view for it, the view has an engine view and no signal handler; the
second `Init` is a no-op, and the handler list holds no token, not three. -/
theorem Init_without_platform_view_has_no_handlers :
    ((WKWebView.Init noWpeViewEngine { id_ := "a" }).1).webView_ = some 100 ∧
    ((WKWebView.Init noWpeViewEngine { id_ := "a" }).1).signalHandlers_ = [] ∧
    WKWebView.Init noWpeViewEngine (WKWebView.Init noWpeViewEngine { id_ := "a" }).1 =
      ((WKWebView.Init noWpeViewEngine { id_ := "a" }).1, []) ∧
    (WKWebView.Init noWpeViewEngine
      (WKWebView.Init noWpeViewEngine { id_ := "a" }).1).1.signalHandlers_.length ≠ 3 := by
  decide

/-- C13, amended: `WKWebView::Init` is idempotent. On a view that has an engine
view a call of `Init` changes no field and makes no call at all, so it connects
no signal handler and creates no renderer. For a view without engine view and
without handlers whose first `Init` creates the engine view, the handler list
after the first and after the second `Init` holds exactly three tokens when the
first `Init` also obtained the platform view, and none when it did not. -/
theorem Init_idempotent (E : Engine) (v : WKWebView) :
    (v.webView_.isSome = true → v.Init E = (v, [])) ∧
    (v.webView_ = none → v.signalHandlers_ = [] → (v.Init E).1.webView_.isSome = true →
      (v.Init E).1.Init E = ((v.Init E).1, []) ∧
      ((v.Init E).1.wpeView_.isSome = true →
        (v.Init E).1.signalHandlers_.length = 3 ∧
        ((v.Init E).1.Init E).1.signalHandlers_.length = 3) ∧
      ((v.Init E).1.wpeView_ = none →
        (v.Init E).1.signalHandlers_ = [] ∧
        ((v.Init E).1.Init E).1.signalHandlers_ = [])) := by
  have hnoop : ∀ w : WKWebView, w.webView_.isSome = true → w.Init E = (w, []) := by
    intro w hw
    simp [WKWebView.Init, hw]
  refine ⟨hnoop v, ?_⟩
  intro hnone hh hcreated
  have hsecond := hnoop (v.Init E).1 hcreated
  have hf := Init_fields E v hnone
  cases hn : E.newWebView v.id_ with
  | none =>
    rw [hn] at hf
    simp only at hf
    rw [hf, hnone] at hcreated
    simp at hcreated
  | some w =>
    rw [hn] at hf
    obtain ⟨_, hwpe, hsig⟩ := hf
    rw [hsecond]
    refine ⟨rfl, ?_, ?_⟩
    · intro h
      rw [hwpe] at h
      simp [hsig, hh, h]
    · intro h
      rw [hwpe] at h
      simp [hsig, hh, h]

/-- C13, amended, on a new view with the sample engine: the first `Init` connects
three handlers and the second `Init` changes nothing. -/
theorem Init_idempotent_witness :
    ({ id_ := "a" } : WKWebView).webView_ = none ∧
    ({ id_ := "a" } : WKWebView).signalHandlers_ = [] ∧
    (WKWebView.Init sampleEngine { id_ := "a" }).1.webView_.isSome = true ∧
    (WKWebView.Init sampleEngine { id_ := "a" }).1.signalHandlers_.length = 3 ∧
    WKWebView.Init sampleEngine (WKWebView.Init sampleEngine { id_ := "a" }).1 =
      ((WKWebView.Init sampleEngine { id_ := "a" }).1, []) :=
  ⟨rfl, rfl, by decide, by decide,
    ((Init_idempotent sampleEngine { id_ := "a" }).2 rfl rfl (by decide)).1⟩

/-! ## Claims on the splitter as an inverse of the joiner -/

/-- What the scan has stored and holds, written out with a ':' after every
stored segment, is what it started from followed by the C string it read. -/
theorem scan_rebuild (suf : List Char) :
    ∀ (cur : List Char) (out : List (List Char)),
      ((scan suf cur out).2.map (fun q => q ++ [':'])).flatten ++ (scan suf cur out).1 =
        (out.map (fun q => q ++ [':'])).flatten ++ cur ++ cstr suf := by
  induction suf with
  | nil => intro cur out; simp [scan, cstr]
  | cons c rest ih =>
    intro cur out
    by_cases h0 : c = '\x00'
    · simp [scan, cstr, h0]
    · have hc : cstr (c :: rest) = c :: cstr rest := by simp [cstr, h0]
      by_cases h1 : c = ':'
      · subst h1
        rw [hc]
        simp only [scan, h0, if_false, if_true]
        rw [ih]
        simp
      · rw [hc]
        simp only [scan, h0, h1, if_false]
        rw [ih]
        simp

/-- No segment the scan stores or holds contains ':'. -/
theorem scan_no_colon (suf : List Char) :
    ∀ (cur : List Char) (out : List (List Char)),
      (∀ q ∈ out, ':' ∉ q) → ':' ∉ cur →
      (∀ q ∈ (scan suf cur out).2, ':' ∉ q) ∧ ':' ∉ (scan suf cur out).1 := by
  induction suf with
  | nil => intro cur out ho hc; exact ⟨ho, hc⟩
  | cons c rest ih =>
    intro cur out ho hc
    by_cases h0 : c = '\x00'
    · simpa [scan, h0] using And.intro ho hc
    · by_cases h1 : c = ':'
      · simp only [scan, h0, h1, if_false, if_true]
        apply ih
        · intro q hq
          rcases List.mem_append.mp hq with hq | hq
          · exact ho q hq
          · simp only [List.mem_singleton] at hq
            subst hq
            exact hc
        · simp
      · simp only [scan, h0, h1, if_false]
        apply ih _ _ ho
        intro hmem
        rcases List.mem_append.mp hmem with hm | hm
        · exact hc hm
        · simp only [List.mem_singleton] at hm
          exact h1 hm.symm

theorem joinTail_snoc (segs : List (List Char)) (last : List Char) :
    ((segs ++ [last]).map (fun q => ':' :: q)).flatten =
      ':' :: ((segs.map (fun q => q ++ [':'])).flatten ++ last) := by
  induction segs with
  | nil => simp
  | cons q segs ih =>
    simp only [List.cons_append, List.map_cons, List.flatten_cons, ih]
    simp

/-- The joiner writes a ':' after every segment but the last. -/
theorem JoinWithColon_snoc (segs : List (List Char)) (last : List Char) :
    JoinWithColon (segs ++ [last]) = (segs.map (fun q => q ++ [':'])).flatten ++ last := by
  cases segs with
  | nil => simp [JoinWithColon_cons]
  | cons q segs =>
    rw [List.cons_append, JoinWithColon_cons, joinTail_snoc]
    simp

/-- C29: for every buffer s, read as a C string (up to its first NUL, all of s
when it holds none), `SplitByColon` returns the number of segments it stored, no
stored segment contains ':', and joining the stored segments with ':' gives the
string back when it does not end with ':' and gives it without its last ':' when
it does; the empty string yields zero segments, a null input yields -1 with the
output cleared, and the copy of `SplitByColon` in the content process image
computes what the copy in the network process image computes. -/
theorem SplitByColon_then_join (s : List Char) :
    (SplitByColon (some s)).1 = ((SplitByColon (some s)).2.length : Int) ∧
    (∀ q ∈ (SplitByColon (some s)).2, ':' ∉ q) ∧
    ((cstr s).getLast? ≠ some ':' → JoinWithColon (SplitByColon (some s)).2 = cstr s) ∧
    ((cstr s).getLast? = some ':' →
      JoinWithColon (SplitByColon (some s)).2 ++ [':'] = cstr s) ∧
    ('\x00' ∉ s → cstr s = s) ∧
    SplitByColon (some []) = (0, []) ∧
    SplitByColon none = (-1, []) ∧
    (∀ str, WebProcess.SplitByColon str = SplitByColon str) := by
  have hre := scan_rebuild s [] []
  have hnc := scan_no_colon s [] [] (by simp) (by simp)
  simp only [List.map_nil, List.flatten_nil, List.nil_append] at hre
  have hcs : '\x00' ∉ s → cstr s = s := by
    intro h
    unfold cstr
    rw [List.takeWhile_eq_self_iff]
    intro c hc
    simp only [ne_eq, decide_not, Bool.not_eq_true', decide_eq_false_iff_not]
    intro h0
    exact h (h0 ▸ hc)
  rw [SplitByColon_some]
  refine ⟨rfl, ?_, ?_, ?_, hcs, by decide, rfl, fun _ => rfl⟩
  · intro q hq
    by_cases hcur : (scan s [] []).1 = []
    · simp only [hcur, ne_eq, not_true_eq_false, if_false] at hq
      exact hnc.1 q hq
    · simp only [hcur, ne_eq, not_false_eq_true, if_true] at hq
      rcases List.mem_append.mp hq with hq | hq
      · exact hnc.1 q hq
      · simp only [List.mem_singleton] at hq
        subst hq
        exact hnc.2
  · intro hlast
    by_cases hcur : (scan s [] []).1 = []
    · simp only [hcur, ne_eq, not_true_eq_false, if_false]
      rw [hcur, List.append_nil] at hre
      rcases List.eq_nil_or_concat (scan s [] []).2 with hO | ⟨O, q, hO⟩
      · rw [hO] at hre ⊢
        simp at hre
        rw [hre]
        rfl
      · exfalso
        apply hlast
        rw [List.concat_eq_append] at hO
        rw [← hre, hO]
        simp
    · simp only [hcur, ne_eq, not_false_eq_true, if_true]
      rw [JoinWithColon_snoc, hre]
  · intro hlast
    by_cases hcur : (scan s [] []).1 = []
    · simp only [hcur, ne_eq, not_true_eq_false, if_false]
      rw [hcur, List.append_nil] at hre
      rcases List.eq_nil_or_concat (scan s [] []).2 with hO | ⟨O, q, hO⟩
      · rw [hO] at hre
        simp at hre
        rw [hre] at hlast
        simp at hlast
      · rw [List.concat_eq_append] at hO
        rw [hO] at hre ⊢
        rw [JoinWithColon_snoc, ← hre]
        simp
    · exfalso
      rw [← hre, List.getLast?_append_of_ne_nil _ hcur] at hlast
      have hmem : ':' ∈ (scan s [] []).1 := List.mem_of_getLast?_eq_some hlast
      exact hnc.2 hmem

/-- C29 on the blobs "a::" (two segments, one ':' lost) and "a:b" (given back
as it is). -/
theorem SplitByColon_then_join_witness :
    (cstr "a::".toList).getLast? = some ':' ∧
    SplitByColon (some "a::".toList) = (2, [['a'], []]) ∧
    JoinWithColon (SplitByColon (some "a::".toList)).2 ++ [':'] = cstr "a::".toList ∧
    (cstr "a:b".toList).getLast? ≠ some ':' ∧
    JoinWithColon (SplitByColon (some "a:b".toList)).2 = cstr "a:b".toList :=
  ⟨by decide, by decide, (SplitByColon_then_join "a::".toList).2.2.2.1 (by decide),
    by decide, (SplitByColon_then_join "a:b".toList).2.2.1 (by decide)⟩

/-! ## Claims on the retry loop of `GetDir` -/

theorem GetDirNext_bounds (size written : Int) (h1 : 1 ≤ size) (h2 : size ≤ 65536) :
    size < GetDirNext size written ∧ GetDirNext size written ≤ 131072 := by
  unfold GetDirNext
  split <;> omega

theorem GetDirLoop_past_max (fn : DirQuery) (outStr : List Char) (fuel : Nat) (size : Int)
    (h : 65536 < size) :
    GetDirLoop fn outStr fuel size = (AbilityRuntime_ErrorCode.PARAM_INVALID, outStr) ∧
      GetDirCalls fn fuel size = [] := by
  have hgt : ¬ size ≤ 64 * 1024 := by omega
  cases fuel with
  | zero => exact ⟨rfl, rfl⟩
  | succ fuel => simp only [GetDirLoop, GetDirCalls, if_neg hgt, and_self]

theorem GetDirCalls_fuel (fn : DirQuery) :
    ∀ (fuel : Nat) (size : Int), 1 ≤ size → 65537 - size ≤ (fuel : Int) →
      ∀ k : Nat, GetDirCalls fn (fuel + k) size = GetDirCalls fn fuel size := by
  intro fuel
  induction fuel with
  | zero =>
    intro size _ hbig k
    simp only [Nat.cast_zero] at hbig
    rw [(GetDirLoop_past_max fn [] (0 + k) size (by omega)).2,
      (GetDirLoop_past_max fn [] 0 size (by omega)).2]
  | succ fuel ih =>
    intro size hpos hbig k
    have hk : fuel + 1 + k = (fuel + k) + 1 := by omega
    rw [hk]
    simp only [GetDirCalls]
    by_cases hle : size ≤ 64 * 1024
    · have hb := GetDirNext_bounds size (fn size).written hpos (by omega)
      rw [ih (GetDirNext size (fn size).written) (by omega) (by push_cast at hbig ⊢; omega) k]
    · simp only [if_neg hle]

/-- The loop of `GetDir` and the calls it makes, for any start size from 1 up and
any iteration bound that covers the distance to the maximum. -/
theorem GetDirLoop_spec (fn : DirQuery) (outStr : List Char) :
    ∀ (fuel : Nat) (size : Int), 1 ≤ size → 65537 - size ≤ (fuel : Int) →
      (∀ x ∈ GetDirCalls fn fuel size, size ≤ x ∧ x ≤ 65536) ∧
      (GetDirCalls fn fuel size).Pairwise (fun a b => a < b) ∧
      (∀ x ∈ GetDirCalls fn fuel size, (fn x).ret ≠ AbilityRuntime_ErrorCode.PARAM_INVALID →
        (GetDirCalls fn fuel size).getLast? = some x ∧
        GetDirLoop fn outStr fuel size =
          (if (fn x).ret = AbilityRuntime_ErrorCode.NO_ERROR then
            (AbilityRuntime_ErrorCode.NO_ERROR, cstr ((fn x).data.take (x.toNat - 1)))
           else ((fn x).ret, outStr))) ∧
      ((∀ x ∈ GetDirCalls fn fuel size, (fn x).ret = AbilityRuntime_ErrorCode.PARAM_INVALID) →
        GetDirLoop fn outStr fuel size = (AbilityRuntime_ErrorCode.PARAM_INVALID, outStr)) := by
  intro fuel
  induction fuel with
  | zero =>
    intro size _ hbig
    simp only [Nat.cast_zero] at hbig
    simp [GetDirCalls, GetDirLoop]
  | succ fuel ih =>
    intro size hpos hbig
    by_cases hle : size ≤ 64 * 1024
    · by_cases h0 : (fn size).ret = AbilityRuntime_ErrorCode.NO_ERROR
      · have hcs : GetDirCalls fn (fuel + 1) size = [size] := by
          simp only [GetDirCalls, if_pos hle, if_pos h0]
        have hl : GetDirLoop fn outStr (fuel + 1) size =
            (AbilityRuntime_ErrorCode.NO_ERROR, cstr ((fn size).data.take (size.toNat - 1))) := by
          simp only [GetDirLoop, if_pos hle, if_pos h0]
        rw [hcs, hl]
        refine ⟨?_, List.pairwise_singleton _ _, ?_, ?_⟩
        · intro x hx
          simp only [List.mem_singleton] at hx
          subst hx
          omega
        · intro x hx _
          simp only [List.mem_singleton] at hx
          subst hx
          simp [h0]
        · intro hall
          have := hall size (by simp)
          rw [h0] at this
          cases this
      · by_cases h1 : (fn size).ret = AbilityRuntime_ErrorCode.PARAM_INVALID
        · have hb := GetDirNext_bounds size (fn size).written hpos (by omega)
          obtain ⟨i1, i2, i3, i4⟩ := ih (GetDirNext size (fn size).written) (by omega)
            (by push_cast at hbig ⊢; omega)
          have hcs : GetDirCalls fn (fuel + 1) size =
              size :: GetDirCalls fn fuel (GetDirNext size (fn size).written) := by
            simp only [GetDirCalls, if_pos hle, if_neg h0, if_pos h1]
          have hl : GetDirLoop fn outStr (fuel + 1) size =
              GetDirLoop fn outStr fuel (GetDirNext size (fn size).written) := by
            simp only [GetDirLoop, if_pos hle, if_neg h0, if_pos h1, GetDirNext]
          rw [hcs, hl]
          refine ⟨?_, ?_, ?_, ?_⟩
          · intro x hx
            rcases List.mem_cons.mp hx with hx | hx
            · subst hx; omega
            · have := i1 x hx; omega
          · rw [List.pairwise_cons]
            exact ⟨fun x hx => by have := i1 x hx; omega, i2⟩
          · intro x hx hne
            rcases List.mem_cons.mp hx with hx | hx
            · subst hx; exact absurd h1 hne
            · obtain ⟨j1, j2⟩ := i3 x hx hne
              refine ⟨?_, j2⟩
              cases hrest : GetDirCalls fn fuel (GetDirNext size (fn size).written) with
              | nil => rw [hrest] at hx; cases hx
              | cons y ys => rw [List.getLast?_cons_cons, ← hrest]; exact j1
          · intro hall
            exact i4 (fun x hx => hall x (List.mem_cons_of_mem _ hx))
        · have hcs : GetDirCalls fn (fuel + 1) size = [size] := by
            simp only [GetDirCalls, if_pos hle, if_neg h0, if_neg h1]
          have hl : GetDirLoop fn outStr (fuel + 1) size = ((fn size).ret, outStr) := by
            simp only [GetDirLoop, if_pos hle, if_neg h0, if_neg h1]
          rw [hcs, hl]
          refine ⟨?_, List.pairwise_singleton _ _, ?_, ?_⟩
          · intro x hx
            simp only [List.mem_singleton] at hx
            subst hx
            omega
          · intro x hx _
            simp only [List.mem_singleton] at hx
            subst hx
            simp [h0]
          · intro hall
            exact absurd (hall size (by simp)) h1
    · have hp := GetDirLoop_past_max fn outStr (fuel + 1) size (by omega)
      rw [hp.1, hp.2]
      simp

theorem cstr_no_nul (l : List Char) : '\x00' ∉ cstr l := by
  intro h
  have := List.mem_takeWhile_imp h
  simp at this

theorem cstr_take_length (l : List Char) (n : Nat) : (cstr (l.take n)).length ≤ n := by
  unfold cstr
  exact le_trans (List.Sublist.length_le (List.takeWhile_sublist _))
    (by rw [List.length_take]; exact Nat.min_le_left _ _)

/-- C30: `GetDir` ends for every directory query function: the iteration bound of
the model is never what stops it, the sizes it passes to the query are strictly
increasing and lie between 512 and 65536, and the next size computed from any of
them stays below 2^31; it returns NO_ERROR exactly when some call returned
NO_ERROR, the output then being the C string of the first size - 1 bytes of the
buffer (no NUL inside, at most size - 1 long); a call that returns any other code
than PARAM_INVALID is the last one and its code is returned with the output
untouched; when every call asks for a resize the result is PARAM_INVALID, and a
size above 65536 is never passed to the query. -/
theorem GetDir_terminates_and_reports (fn : DirQuery) (outStr : List Char) :
    (∀ k : Nat, GetDirLoop fn outStr (65536 + k) 512 = GetDir fn outStr ∧
      GetDirCalls fn (65536 + k) 512 = GetDirCalls fn 65536 512) ∧
    (GetDirCalls fn 65536 512).Pairwise (fun a b => a < b) ∧
    (∀ size ∈ GetDirCalls fn 65536 512, 512 ≤ size ∧ size ≤ 65536 ∧
      ∀ written : Int, size < GetDirNext size written ∧ GetDirNext size written < 2 ^ 31) ∧
    ((GetDir fn outStr).1 = AbilityRuntime_ErrorCode.NO_ERROR ↔
      ∃ size ∈ GetDirCalls fn 65536 512, (fn size).ret = AbilityRuntime_ErrorCode.NO_ERROR) ∧
    (∀ size ∈ GetDirCalls fn 65536 512, (fn size).ret = AbilityRuntime_ErrorCode.NO_ERROR →
      GetDir fn outStr =
        (AbilityRuntime_ErrorCode.NO_ERROR, cstr ((fn size).data.take (size.toNat - 1))) ∧
      '\x00' ∉ (GetDir fn outStr).2 ∧
      ((GetDir fn outStr).2.length : Int) ≤ size - 1) ∧
    (∀ size ∈ GetDirCalls fn 65536 512,
      (fn size).ret ≠ AbilityRuntime_ErrorCode.PARAM_INVALID →
      (GetDir fn outStr).1 = (fn size).ret ∧
      ((fn size).ret ≠ AbilityRuntime_ErrorCode.NO_ERROR → (GetDir fn outStr).2 = outStr) ∧
      (GetDirCalls fn 65536 512).getLast? = some size) ∧
    ((∀ size ∈ GetDirCalls fn 65536 512,
        (fn size).ret = AbilityRuntime_ErrorCode.PARAM_INVALID) →
      GetDir fn outStr = (AbilityRuntime_ErrorCode.PARAM_INVALID, outStr)) ∧
    (∀ (fuel : Nat) (size : Int), 65536 < size →
      GetDirLoop fn outStr fuel size = (AbilityRuntime_ErrorCode.PARAM_INVALID, outStr) ∧
      GetDirCalls fn fuel size = []) := by
  obtain ⟨i1, i2, i3, i4⟩ := GetDirLoop_spec fn outStr 65536 512 (by norm_num) (by norm_num)
  have hG : GetDirLoop fn outStr 65536 512 = GetDir fn outStr := rfl
  rw [hG] at i3 i4
  have hok : ∀ size ∈ GetDirCalls fn 65536 512,
      (fn size).ret = AbilityRuntime_ErrorCode.NO_ERROR →
      GetDir fn outStr =
        (AbilityRuntime_ErrorCode.NO_ERROR, cstr ((fn size).data.take (size.toNat - 1))) := by
    intro size hs h0
    have := (i3 size hs (by rw [h0]; intro h; cases h)).2
    rw [if_pos h0] at this
    exact this
  refine ⟨fun k => ⟨GetDir_fuel fn outStr k,
      GetDirCalls_fuel fn 65536 512 (by norm_num) (by norm_num) k⟩, i2, ?_, ?_, ?_, ?_, i4,
    fun fuel size h => GetDirLoop_past_max fn outStr fuel size h⟩
  · intro size hs
    have hb := i1 size hs
    refine ⟨hb.1, hb.2, fun written => ?_⟩
    have := GetDirNext_bounds size written (by omega) hb.2
    exact ⟨this.1, by omega⟩
  · constructor
    · intro hr
      by_contra hno
      push_neg at hno
      by_cases hall : ∀ size ∈ GetDirCalls fn 65536 512,
          (fn size).ret = AbilityRuntime_ErrorCode.PARAM_INVALID
      · rw [i4 hall] at hr
        cases hr
      · push_neg at hall
        obtain ⟨x, hx, hne⟩ := hall
        have := (i3 x hx hne).2
        rw [if_neg (hno x hx)] at this
        rw [this] at hr
        exact hno x hx hr
    · rintro ⟨size, hs, h0⟩
      rw [hok size hs h0]
  · intro size hs h0
    have hb := i1 size hs
    refine ⟨hok size hs h0, ?_, ?_⟩
    · rw [hok size hs h0]
      exact cstr_no_nul _
    · rw [hok size hs h0]
      have := cstr_take_length (fn size).data (size.toNat - 1)
      simp only
      omega
  · intro size hs hne
    obtain ⟨j1, j2⟩ := i3 size hs hne
    refine ⟨?_, ?_, j1⟩
    · rw [j2]
      split
      · rename_i h0
        exact h0.symm
      · rfl
    · intro h0
      rw [j2, if_neg h0]

/-- C30 on a query that twice asks for a larger buffer: the sizes passed are 512,
1501 and 3002, and the directory of the third call is returned. -/
theorem GetDir_terminates_and_reports_witness :
    GetDirCalls growDir 65536 512 = [512, 1501, 3002] ∧
    (growDir 3002).ret = AbilityRuntime_ErrorCode.NO_ERROR ∧
    GetDir growDir [] = (AbilityRuntime_ErrorCode.NO_ERROR, "/tmp".toList) ∧
    (GetDir growDir []).1 = AbilityRuntime_ErrorCode.NO_ERROR :=
  ⟨by decide, by decide, by decide,
    (GetDir_terminates_and_reports growDir []).2.2.2.1.mpr ⟨3002, by decide, by decide⟩⟩

/-! ## Claims on the environment set-up -/

/-- The indexing of `Environment::Initialize` stays inside the vector exactly when
the vector has at least 5 elements. -/
theorem Environment_Initialize_in_bounds (params : List (List Char)) :
    (Environment.Initialize params).isSome = true ↔ 5 ≤ params.length := by
  rcases params with _ | ⟨a, _ | ⟨b, _ | ⟨c, _ | ⟨d, _ | ⟨e, rest⟩⟩⟩⟩⟩ <;>
    simp [Environment.Initialize]

/-- Both process images pass `Environment::Initialize` a vector of at least 5
elements whenever they call it. -/
theorem Main_environment_params (ld : Loader) (args : NativeChildProcess_Args)
    (params : List (List Char))
    (h : Effect.environmentInitialize params ∈ NetworkProcess.Main ld args ∨
      Effect.environmentInitialize params ∈ WebProcess.Main ld args) :
    5 ≤ params.length ∧ (Environment.Initialize params).isSome = true := by
  have h5 : 5 ≤ params.length := by
    by_cases hlen : (SplitByColon args.entryParams).2.length < 5
    · rcases h with h | h
      · cases hl : ld.engineLoads <;> simp [NetworkProcess.Main, hlen, hl] at h
      · simp [WebProcess.Main, hlen] at h
    · have hr : params = (SplitByColon args.entryParams).2 := by
        rcases h with h | h
        · cases hl : ld.engineLoads <;> cases hf : args.fdList.head? <;>
            cases he : ld.entrypointFound <;>
            simp [NetworkProcess.Main, runEntrypoint, hl, hf, he] at h <;>
            split at h <;> simp at h <;> exact h
        · cases hl : ld.engineLoads <;> cases hf : args.fdList.head? <;>
            cases he : ld.entrypointFound <;>
            simp [WebProcess.Main, runEntrypoint, hl, hf, he] at h <;>
            split at h <;> simp at h <;> exact h
      rw [hr]
      omega
  exact ⟨h5, (Environment_Initialize_in_bounds params).mpr h5⟩

/-- When all four directories resolve, the constructor passes a vector of 5
elements and the indexing stays inside it. -/
theorem constructorEnvironment_resolved (P : Platform)
    (h : (GetEnvronmentParamsFromApplicationContext P ["WPEUIProcess".toList]).1 = true) :
    (WKRuntime.constructorParams P).length = 5 ∧
      (WKRuntime.constructorEnvironment P).isSome = true := by
  have hlen : (WKRuntime.constructorParams P).length = 5 := by
    unfold WKRuntime.constructorParams
    unfold GetEnvronmentParamsFromApplicationContext at h ⊢
    simp only [] at h ⊢
    split at h
    · cases h
    · rw [if_neg (by assumption)]
      split at h
      · cases h
      · rw [if_neg (by assumption)]
        split at h
        · cases h
        · rw [if_neg (by assumption)]
          split at h
          · cases h
          · rw [if_neg (by assumption)]
            rfl
  exact ⟨hlen, (Environment_Initialize_in_bounds _).mpr (by omega)⟩

/-- C24: on a platform whose files directory does not resolve,
`GetEnvronmentParamsFromApplicationContext` returns false and appends nothing,
so the constructor `WKRuntime::WKRuntime()`, which does not look at the returned
flag, passes `Environment::Initialize` a vector of one element and the read of
`params[1]` is past its end. -/
theorem constructor_indexes_past_the_vector :
    GetEnvronmentParamsFromApplicationContext brokenPlatform ["WPEUIProcess".toList] =
      (false, ["WPEUIProcess".toList]) ∧
    (WKRuntime.constructorParams brokenPlatform).length = 1 ∧
    (WKRuntime.constructorParams brokenPlatform)[1]? = none ∧
    WKRuntime.constructorEnvironment brokenPlatform = none := by
  decide

/-! ## Claims on the timer dispatch and the teardown of the platform view -/

/-- C21 as stated fails: a view armed by one submission whose import fails at the
fire is left with the timer disarmed (ready time -1), and dispatches that follow
without a new submission return at the first check and attempt nothing, also
when the import would now succeed. -/
theorem failed_import_leaves_timer_disarmed :
    (wpeViewOHOSRenderBuffer true 1000 freshView 7).2.1.frameSource =
      some { readyTime := 1000 + 16666 } ∧
    (frameSourceDispatch importFails (wpeViewOHOSRenderBuffer true 1000 freshView 7).2.1).2.2 =
      [FrameEvent.promoted 7, FrameEvent.importFailed 7] ∧
    (frameSourceDispatch importFails
      (wpeViewOHOSRenderBuffer true 1000 freshView 7).2.1).2.1.frameSource =
      some { readyTime := -1 } ∧
    frameSourceDispatch importOk
      (frameSourceDispatch importFails (wpeViewOHOSRenderBuffer true 1000 freshView 7).2.1).2.1 =
      (SourceReturn.G_SOURCE_CONTINUE,
        (frameSourceDispatch importFails (wpeViewOHOSRenderBuffer true 1000 freshView 7).2.1).2.1,
        []) := by
  decide

/-- An accepted submission at a time from 0 on arms the frame source of the view
and stores the buffer in the pending slot. -/
theorem submission_arms (now : Int) (v : WPEViewOHOS) (b : Nat) (src : GSource)
    (hnow : 0 ≤ now) (hsrc : v.frameSource = some src) :
    ∃ t : Int, t ≠ -1 ∧
      (wpeViewOHOSRenderBuffer true now v b).2.1 =
        { v with pendingBuffer := some b, lastFrameTime := now,
                 frameSource := some { src with readyTime := t } } := by
  refine ⟨if (if v.lastFrameTime = 0 then now else v.lastFrameTime) + 1000000 / 60 ≤ now then 0
    else (if v.lastFrameTime = 0 then now else v.lastFrameTime) + 1000000 / 60, ?_, ?_⟩
  · split <;> omega
  · simp [wpeViewOHOSRenderBuffer, g_source_set_ready_time, hsrc]

/-- A dispatch of an armed frame source disarms it and runs the callback. -/
theorem frameSourceDispatch_armed (imp : Nat → Option Nat) (v : WPEViewOHOS) (src : GSource)
    (hsrc : v.frameSource = some src) (harmed : src.readyTime ≠ -1) :
    frameSourceDispatch imp v =
      frameSourceCallback imp { v with frameSource := some { src with readyTime := -1 } } := by
  simp [frameSourceDispatch, hsrc, harmed, g_source_set_ready_time]

/-- A dispatch that produced any event found the source armed. -/
theorem frameSourceDispatch_events (imp : Nat → Option Nat) (v : WPEViewOHOS)
    (h : (frameSourceDispatch imp v).2.2 ≠ []) :
    ∃ src, v.frameSource = some src ∧ src.readyTime ≠ -1 := by
  cases hsrc : v.frameSource with
  | none => simp [frameSourceDispatch, hsrc] at h
  | some src =>
    refine ⟨src, rfl, ?_⟩
    intro hr
    simp [frameSourceDispatch, hsrc, hr] at h

/-- What a callback run that reports a failed import of `c` found and left. -/
theorem frameSourceCallback_failed (imp : Nat → Option Nat) (v : WPEViewOHOS) (c : Nat)
    (hfail : FrameEvent.importFailed c ∈ (frameSourceCallback imp v).2.2) :
    imp c = none ∧ (promotePending v).1.committedBuffer = some c ∧
      (promotePending v).1.pendingBuffer = none ∧
      (promotePending v).1.frameSource = v.frameSource ∧
      (frameSourceCallback imp v).1 = SourceReturn.G_SOURCE_CONTINUE := by
  cases hp : v.pendingBuffer with
  | none =>
    cases hc : v.committedBuffer with
    | none => simp [frameSourceCallback, promotePending, hp, hc] at hfail
    | some c0 =>
      cases hi : imp c0 with
      | none =>
        simp [frameSourceCallback, promotePending, hp, hc, hi] at hfail
        subst hfail
        simp [frameSourceCallback, promotePending, hp, hc, hi]
      | some image =>
        simp [frameSourceCallback, promotePending, hp, hc, hi] at hfail
  | some p =>
    cases hi : imp p with
    | none =>
      cases hc : v.committedBuffer <;>
        simp [frameSourceCallback, promotePending, hp, hc, hi] at hfail <;>
        subst hfail <;>
        simp [frameSourceCallback, promotePending, hp, hc, hi]
    | some image =>
      cases hc : v.committedBuffer <;>
        simp [frameSourceCallback, promotePending, hp, hc, hi] at hfail

/-- C21, amended: a timer dispatch in which the import of the committed buffer c
fails returns CONTINUE and draws and reports nothing, and it leaves c committed,
the pending slot empty and the timer disarmed (ready time -1): every dispatch
that follows without a new submission returns at once, changes nothing and
attempts nothing. The next accepted submission (at a time from 0 on) arms the
timer again, and the dispatch that follows it promotes and attempts the newly
submitted buffer. -/
theorem failed_import_waits_for_submission (imp : Nat → Option Nat) (v : WPEViewOHOS) (c : Nat)
    (hfail : FrameEvent.importFailed c ∈ (frameSourceDispatch imp v).2.2) :
    (frameSourceDispatch imp v).1 = SourceReturn.G_SOURCE_CONTINUE ∧
    (frameSourceDispatch imp v).2.1.committedBuffer = some c ∧
    (frameSourceDispatch imp v).2.1.pendingBuffer = none ∧
    (frameSourceDispatch imp v).2.1.frameSource.map GSource.readyTime = some (-1) ∧
    (∀ e ∈ (frameSourceDispatch imp v).2.2,
      (∀ b image, e ≠ FrameEvent.render b image) ∧ ∀ b, e ≠ FrameEvent.bufferRendered b) ∧
    (∀ imp2 : Nat → Option Nat,
      frameSourceDispatch imp2 (frameSourceDispatch imp v).2.1 =
        (SourceReturn.G_SOURCE_CONTINUE, (frameSourceDispatch imp v).2.1, [])) ∧
    (∀ (now : Int) (b : Nat) (imp2 : Nat → Option Nat), 0 ≤ now →
      (wpeViewOHOSRenderBuffer true now (frameSourceDispatch imp v).2.1 b).2.1.frameSource.map
        GSource.readyTime ≠ some (-1) ∧
      (frameSourceDispatch imp2
        (wpeViewOHOSRenderBuffer true now (frameSourceDispatch imp v).2.1 b).2.1).2.1.committedBuffer
        = some b ∧
      (imp2 b = none → FrameEvent.importFailed b ∈ (frameSourceDispatch imp2
        (wpeViewOHOSRenderBuffer true now (frameSourceDispatch imp v).2.1 b).2.1).2.2) ∧
      (∀ image, imp2 b = some image → FrameEvent.bufferRendered b ∈ (frameSourceDispatch imp2
        (wpeViewOHOSRenderBuffer true now (frameSourceDispatch imp v).2.1 b).2.1).2.2)) := by
  obtain ⟨src, hsrc, harmed⟩ := frameSourceDispatch_events imp v
    (by intro h; rw [h] at hfail; cases hfail)
  have hd := frameSourceDispatch_armed imp v src hsrc harmed
  rw [hd] at hfail ⊢
  obtain ⟨hi, hc, hp, hf, hret⟩ := frameSourceCallback_failed imp _ c hfail
  have hview := frameSourceCallback_view imp
    { v with frameSource := some { src with readyTime := -1 } }
  rw [hview]
  have hdis : ∀ imp2 : Nat → Option Nat,
      frameSourceDispatch imp2
          (promotePending { v with frameSource := some { src with readyTime := -1 } }).1 =
        (SourceReturn.G_SOURCE_CONTINUE,
          (promotePending { v with frameSource := some { src with readyTime := -1 } }).1, []) := by
    intro imp2
    simp [frameSourceDispatch, hf]
  refine ⟨hret, hc, hp, by rw [hf]; rfl, ?_, hdis, ?_⟩
  · exact cannot_draw_events imp _ (Or.inr ⟨c, hc, hi⟩)
  · intro now b imp2 hnow
    obtain ⟨t, ht, hsub⟩ := submission_arms now _ b _ hnow hf
    rw [hsub]
    have harm2 := frameSourceDispatch_armed imp2
      { (promotePending { v with frameSource := some { src with readyTime := -1 } }).1 with
        pendingBuffer := some b, lastFrameTime := now,
        frameSource := some { ({ src with readyTime := -1 } : GSource) with readyTime := t } }
      _ rfl ht
    rw [harm2]
    have hpro := frameSourceCallback_promote imp2
      { (promotePending { v with frameSource := some { src with readyTime := -1 } }).1 with
        pendingBuffer := some b, lastFrameTime := now,
        frameSource := some { readyTime := -1, destroyed := src.destroyed } } b rfl
    refine ⟨?_, ?_, ?_, ?_⟩
    · simpa using ht
    · rw [hpro.1]
    · intro h2
      rw [hpro.2, h2]
      simp
    · intro image h2
      rw [hpro.2, h2]
      simp

/-- C21 at a view armed by the submission of buffer 7 whose import fails. -/
theorem failed_import_waits_for_submission_witness :
    FrameEvent.importFailed 7 ∈
      (frameSourceDispatch importFails (wpeViewOHOSRenderBuffer true 2000 freshView 7).2.1).2.2 ∧
    (frameSourceDispatch importFails
      (wpeViewOHOSRenderBuffer true 2000 freshView 7).2.1).2.1.frameSource.map
        GSource.readyTime = some (-1) :=
  ⟨by decide,
    (failed_import_waits_for_submission importFails
      (wpeViewOHOSRenderBuffer true 2000 freshView 7).2.1 7 (by decide)).2.2.2.1⟩

/-- C23: for every state of the view, the calls of `wpeViewOHOSDispose` fall into
three consecutive parts: first the log line and the destruction of the frame
source, then the releases of the buffer references, then the release of the
renderer and the dispose of the parent class; the source is destroyed exactly
when there is one, a buffer is released exactly when it is in the pending or the
committed slot, the renderer is released exactly when there is one; afterwards
the frame source, both slots and the renderer are empty. -/
theorem dispose_order (v : WPEViewOHOS) :
    (∃ first buffers last : List DisposeEvent,
      (wpeViewOHOSDispose v).2 = first ++ buffers ++ last ∧
      (∀ e ∈ first, e = DisposeEvent.logD "WPEViewOHOS::dispose" ∨
        e = DisposeEvent.sourceDestroy) ∧
      (∀ e ∈ buffers, ∃ b, e = DisposeEvent.unref b) ∧
      (∀ e ∈ last, (∃ r, e = DisposeEvent.rendererReset r) ∨ e = DisposeEvent.parentDispose)) ∧
    (DisposeEvent.sourceDestroy ∈ (wpeViewOHOSDispose v).2 ↔ v.frameSource.isSome = true) ∧
    (∀ b, DisposeEvent.unref b ∈ (wpeViewOHOSDispose v).2 ↔
      (v.pendingBuffer = some b ∨ v.committedBuffer = some b)) ∧
    (∀ r, DisposeEvent.rendererReset r ∈ (wpeViewOHOSDispose v).2 ↔ v.renderer = some r) ∧
    (wpeViewOHOSDispose v).2.getLast? = some DisposeEvent.parentDispose ∧
    (wpeViewOHOSDispose v).1.frameSource = none ∧
    (wpeViewOHOSDispose v).1.pendingBuffer = none ∧
    (wpeViewOHOSDispose v).1.committedBuffer = none ∧
    (wpeViewOHOSDispose v).1.renderer = none := by
  refine ⟨⟨[DisposeEvent.logD "WPEViewOHOS::dispose"] ++
        (if v.frameSource.isSome then [DisposeEvent.sourceDestroy] else []),
      g_clear_object v.pendingBuffer ++ g_clear_object v.committedBuffer,
      (match v.renderer with
        | none => []
        | some r => [DisposeEvent.rendererReset r]) ++ [DisposeEvent.parentDispose],
      ?_, ?_, ?_, ?_⟩, ?_, ?_, ?_, ?_, rfl, rfl, rfl, rfl⟩
  · simp [wpeViewOHOSDispose]
  · intro e he
    cases hf : v.frameSource <;> simp [hf] at he <;> simp [he]
  · intro e he
    cases hp : v.pendingBuffer <;> cases hc : v.committedBuffer <;>
      simp [g_clear_object, hp, hc] at he
    · exact ⟨_, he⟩
    · exact ⟨_, he⟩
    · rcases he with he | he <;> exact ⟨_, he⟩
  · intro e he
    cases hr : v.renderer <;> simp [hr] at he
    · exact Or.inr he
    · rcases he with he | he
      · exact Or.inl ⟨_, he⟩
      · exact Or.inr he
  · cases hf : v.frameSource <;> cases hp : v.pendingBuffer <;>
      cases hc : v.committedBuffer <;> cases hr : v.renderer <;>
      simp [wpeViewOHOSDispose, g_clear_object, hf, hp, hc, hr]
  · intro b
    cases hf : v.frameSource <;> cases hp : v.pendingBuffer <;>
      cases hc : v.committedBuffer <;> cases hr : v.renderer <;>
      simp [wpeViewOHOSDispose, g_clear_object, hf, hp, hc, hr, eq_comm]
  · intro r
    cases hf : v.frameSource <;> cases hp : v.pendingBuffer <;>
      cases hc : v.committedBuffer <;> cases hr : v.renderer <;>
      simp [wpeViewOHOSDispose, g_clear_object, hf, hp, hc, hr, eq_comm]
  · cases hf : v.frameSource <;> cases hp : v.pendingBuffer <;>
      cases hc : v.committedBuffer <;> cases hr : v.renderer <;>
      simp [wpeViewOHOSDispose, g_clear_object, hf, hp, hc, hr]

/-- C23 at a view with a frame source, both slots filled and a renderer. -/
theorem dispose_order_witness :
    (wpeViewOHOSDispose fullView).2 =
      [DisposeEvent.logD "WPEViewOHOS::dispose", DisposeEvent.sourceDestroy,
        DisposeEvent.unref 2, DisposeEvent.unref 1, DisposeEvent.rendererReset ⟨1, 10, 10⟩,
        DisposeEvent.parentDispose] ∧
    DisposeEvent.sourceDestroy ∈ (wpeViewOHOSDispose fullView).2 :=
  ⟨by decide, (dispose_order fullView).2.1.mpr (by decide)⟩

/-! ## Claims on the touch dispatch -/

theorem touchLoop_suffix (view : Nat) (event : OH_NativeXComponent_TouchEvent) :
    ∀ (suf pre : List OH_NativeXComponent_TouchPoint), event.touchPoints = pre ++ suf →
      touchLoop view event suf.length pre.length =
        some (suf.map (fun point =>
          { type := touchEventType event.type, view := view,
            time := event.timeStamp % 4294967296,
            sequenceId := event.id % 4294967296, x := point.x, y := point.y })) := by
  intro suf
  induction suf with
  | nil => intro pre _; rfl
  | cons q suf ih =>
    intro pre h
    have hq : event.touchPoints[pre.length]? = some q := by
      rw [h, List.getElem?_append_right (le_refl _)]
      simp
    have := ih (pre ++ [q]) (by rw [h]; simp)
    rw [List.length_append, List.length_singleton] at this
    simp only [List.length_cons, touchLoop, hq, this, Option.map_some', List.map_cons]

/-- What the touch dispatch emits for an event whose `numPoints` is the number of
its samples: one engine event per sample, in sample order, with the mapped kind,
the time stamp and the `id` of the event (both modulo 2^32), and the coordinates
of the sample. -/
theorem dispatch_touch_event_samples (view : Nat) (event : OH_NativeXComponent_TouchEvent)
    (h : event.numPoints = (event.touchPoints.length : Int)) :
    wpe_view_ohos_dispatch_touch_event (some view) (some event) =
      some (event.touchPoints.map (fun point =>
        { type := touchEventType event.type, view := view,
          time := event.timeStamp % 4294967296,
          sequenceId := event.id % 4294967296, x := point.x, y := point.y })) := by
  have := touchLoop_suffix view event event.touchPoints [] rfl
  simp only [wpe_view_ohos_dispatch_touch_event, h, Int.toNat_ofNat]
  exact this

/-- C22: on a touch-down event of finger 1 that carries the samples of finger 0
at (10, 20) and of finger 1 at (30, 40), `wpe_view_ohos_dispatch_touch_event`
emits two touch-down events with the time stamp of the event and the coordinates
of the samples, but both carry the identifier 1 of the event: the first one does
not carry the identifier 0 of its sample. -/
theorem dispatch_touch_event_uses_event_id :
    wpe_view_ohos_dispatch_touch_event (some 200) (some twoFingerDown) =
      some [⟨WPEEventType.WPE_EVENT_TOUCH_DOWN, 200, 5, 1, 10, 20⟩,
        ⟨WPEEventType.WPE_EVENT_TOUCH_DOWN, 200, 5, 1, 30, 40⟩] ∧
    twoFingerDown.touchPoints.map OH_NativeXComponent_TouchPoint.id = [0, 1] ∧
    (wpe_view_ohos_dispatch_touch_event (some 200) (some twoFingerDown)).map
      (fun evs => evs.map WPEEventTouch.sequenceId) = some [1, 1] := by
  decide

/-! ## Claims on the entry points of the host -/

theorem initPending_context (E : Engine) (st : WKRuntime × List InitCall) (id : String) :
    (WKRuntime.initPending E st id).1.mainContext_ = st.1.mainContext_ ∧
      (WKRuntime.initPending E st id).1.uiReady_ = st.1.uiReady_ := by
  have hfr := GetWebViewInternal_frame st.1 id
  unfold WKRuntime.initPending
  split
  · exact ⟨hfr.2.2.2.2, hfr.2.2.2.1⟩
  · split
    · exact ⟨hfr.2.2.2.2, hfr.2.2.2.1⟩
    · exact ⟨hfr.2.2.2.2, hfr.2.2.2.1⟩

/-- The flush of the pending identifiers leaves the context and the readiness
flag as they are. -/
theorem Flush_context (E : Engine) (rt : WKRuntime) :
    (WKRuntime.FlushPendingInitsOnUIReady E rt).1.mainContext_ = rt.mainContext_ ∧
      (WKRuntime.FlushPendingInitsOnUIReady E rt).1.uiReady_ = rt.uiReady_ := by
  have hfold : ∀ (ids : List String) (st : WKRuntime × List InitCall),
      (ids.foldl (WKRuntime.initPending E) st).1.mainContext_ = st.1.mainContext_ ∧
        (ids.foldl (WKRuntime.initPending E) st).1.uiReady_ = st.1.uiReady_ := by
    intro ids
    induction ids with
    | nil => intro st; exact ⟨rfl, rfl⟩
    | cons id ids ih =>
      intro st
      have h1 := initPending_context E st id
      have h2 := ih (WKRuntime.initPending E st id)
      rw [List.foldl_cons]
      exact ⟨h2.1.trans h1.1, h2.2.trans h1.2⟩
  unfold WKRuntime.FlushPendingInitsOnUIReady
  by_cases hp : rt.pendingInitialization_ = []
  · simp [hp]
  · simp only [hp, if_false]
    exact hfold _ _

/-- The states of the worker thread, as whether the context is set and whether
readiness is published: the context is set from the first state on; when the
display connects, readiness is published while the context is set, the context
is reset after the loop has stopped while readiness is still published, and
readiness is withdrawn last. -/
theorem UIProcessThread_states (E : Engine) (displayConnects : Bool) (rt : WKRuntime) :
    (WKRuntime.UIProcessThread E displayConnects rt).map
        (fun s => (s.mainContext_.isSome, s.uiReady_)) =
      if displayConnects then
        [(true, rt.uiReady_), (true, true), (true, true), (false, true), (false, false)]
      else [(true, rt.uiReady_)] := by
  cases displayConnects with
  | false => rfl
  | true =>
    have hf := Flush_context E { rt with mainContext_ := some [], uiReady_ := true }
    simp [WKRuntime.UIProcessThread, hf.1, hf.2]

/-- The entry points reach the dereference in `DoInvoke` exactly when the context
is set; the initialization request does so only when readiness is published. -/
theorem entry_points_need_context (rt : WKRuntime) (id url : String) (window : Option Nat)
    (width height : Int) :
    ((OnSurfaceCreatedCB rt id window width height).isSome = rt.mainContext_.isSome) ∧
    ((OnSurfaceChangedCB rt id window width height).isSome = rt.mainContext_.isSome) ∧
    ((OnSurfaceDestroyedCB rt id window).isSome = rt.mainContext_.isSome) ∧
    ((DispatchTouchEventCB rt id true).isSome = rt.mainContext_.isSome) ∧
    ((NapiLoadURL rt id url).isSome = rt.mainContext_.isSome) ∧
    ((rt.DoRequestWebViewInit id).isSome = (!rt.uiReady_ || rt.mainContext_.isSome)) := by
  cases hm : rt.mainContext_ <;> cases hu : rt.uiReady_ <;>
    simp [OnSurfaceCreatedCB, OnSurfaceChangedCB, OnSurfaceDestroyedCB, DispatchTouchEventCB,
      NapiLoadURL, WKRuntime.Invoke, WKRuntime.DoInvoke, WKRuntime.DoRequestWebViewInit, hm, hu]
  all_goals split <;> rfl

/-- C25: in the state the constructor of the host leaves (worker thread spawned,
`mainContext_` not yet built) the surface, touch and loadURL entry points reach
the dereference of the null `mainContext_` in `DoInvoke`; the same holds for them
in the two states after the loop has stopped, and for the initialization request
in the state where the context is reset while readiness is still published. The
table lists, for each state of the worker thread in order, whether readiness is
published and whether the initialization request and the surface-created
callback dereference a set context. -/
theorem Invoke_before_context_is_built :
    ({} : WKRuntime).mainContext_ = none ∧
    OnSurfaceCreatedCB {} "view" (some 1) 100 100 = none ∧
    OnSurfaceChangedCB {} "view" (some 1) 100 100 = none ∧
    OnSurfaceDestroyedCB {} "view" (some 1) = none ∧
    DispatchTouchEventCB {} "view" true = none ∧
    NapiLoadURL {} "view" "https://example.org" = none ∧
    (WKRuntime.DoRequestWebViewInit {} "view").isSome = true ∧
    (WKRuntime.UIProcessThread sampleEngine true {}).map
        (fun s => (s.uiReady_, (s.DoRequestWebViewInit "view").isSome,
          (OnSurfaceCreatedCB s "view" (some 1) 100 100).isSome)) =
      [(false, true, true), (true, true, true), (true, true, true), (true, false, false),
        (false, true, false)] ∧
    (WKRuntime.UIProcessThread sampleEngine false {}).map
        (fun s => (s.uiReady_, (s.DoRequestWebViewInit "view").isSome,
          (OnSurfaceCreatedCB s "view" (some 1) 100 100).isSome)) =
      [(false, true, true)] := by
  decide

/-! ## Claims on the surface events of `WKWebView` -/

/-- C26: on a new view, `OnSurfaceCreated` for window 1, then `OnSurfaceDestroyed`
for window 1 (both before the engine view exists), then `Init`: the third call
initializes a renderer for window 1, whose surface was destroyed, and the view
ends with a renderer although its last surface event is the destruction;
`nativeWindow_` still holds window 1 because `OnSurfaceDestroyed` does not reset
it. When `Init` comes first, the destruction releases the renderer. -/
theorem Init_after_surface_destroyed_creates_renderer :
    (WKWebView.run sampleEngine
        [ViewOp.OnSurfaceCreated (some 1) 100 100, ViewOp.OnSurfaceDestroyed (some 1),
          ViewOp.Init] { id_ := "view" }).2.map
        (fun evs => evs.filter ViewEvent.isRendererInitialize) =
      [[], [], [ViewEvent.rendererInitialize 1 100 100 true]] ∧
    (WKWebView.run sampleEngine
        [ViewOp.OnSurfaceCreated (some 1) 100 100, ViewOp.OnSurfaceDestroyed (some 1),
          ViewOp.Init] { id_ := "view" }).1.wpeViewRenderer_ = some ⟨1, 100, 100⟩ ∧
    (WKWebView.run sampleEngine
        [ViewOp.OnSurfaceCreated (some 1) 100 100, ViewOp.OnSurfaceDestroyed (some 1)]
        { id_ := "view" }).1.nativeWindow_ = some 1 ∧
    (WKWebView.run sampleEngine
        [ViewOp.Init, ViewOp.OnSurfaceCreated (some 1) 100 100,
          ViewOp.OnSurfaceDestroyed (some 1)] { id_ := "view" }).1.wpeViewRenderer_ = none := by
  decide

/-- C27: for a new view, a window w that is not null and any width and height,
on an engine that creates the engine view, has a platform view for it and
initializes the renderer for w at that size, `Init` followed by
`OnSurfaceCreated(w, width, height)` and `OnSurfaceCreated(w, width, height)`
followed by `Init` end in the same view: engine view and platform view present,
the three handler tokens, window and size stored, one renderer for w at that
size; in both orders the renderer is initialized exactly once and attached to the
platform view exactly once. -/
theorem Init_commutes_with_OnSurfaceCreated (E : Engine) (id : String) (w : Nat)
    (width height : Int) (webView wpeView : Nat)
    (hnew : E.newWebView id = some webView) (hwpe : E.getWpeView webView = some wpeView)
    (hren : E.rendererInitialize w width height = true) :
    (WKWebView.run E [ViewOp.Init, ViewOp.OnSurfaceCreated (some w) width height]
        { id_ := id }).1 =
      (WKWebView.run E [ViewOp.OnSurfaceCreated (some w) width height, ViewOp.Init]
        { id_ := id }).1 ∧
    (WKWebView.run E [ViewOp.Init, ViewOp.OnSurfaceCreated (some w) width height]
        { id_ := id }).1 =
      { id_ := id, nativeWindow_ := some w, width_ := width, height_ := height,
        webView_ := some webView, wpeView_ := some wpeView,
        wpeViewRenderer_ := some ⟨w, width, height⟩,
        signalHandlers_ := [E.signalConnect webView "load-changed",
          E.signalConnect webView "load-failed",
          E.signalConnect webView "load-failed-with-tls-errors"] } ∧
    ((WKWebView.run E [ViewOp.Init, ViewOp.OnSurfaceCreated (some w) width height]
        { id_ := id }).2.flatten.filter ViewEvent.isRendererInitialize) =
      [ViewEvent.rendererInitialize w width height true] ∧
    ((WKWebView.run E [ViewOp.OnSurfaceCreated (some w) width height, ViewOp.Init]
        { id_ := id }).2.flatten.filter ViewEvent.isRendererInitialize) =
      [ViewEvent.rendererInitialize w width height true] ∧
    ((WKWebView.run E [ViewOp.Init, ViewOp.OnSurfaceCreated (some w) width height]
        { id_ := id }).2.flatten.count
        (ViewEvent.setRenderer (some wpeView) (some ⟨w, width, height⟩))) = 1 ∧
    ((WKWebView.run E [ViewOp.OnSurfaceCreated (some w) width height, ViewOp.Init]
        { id_ := id }).2.flatten.count
        (ViewEvent.setRenderer (some wpeView) (some ⟨w, width, height⟩))) = 1 := by
  simp [WKWebView.run, WKWebView.apply, WKWebView.Init, WKWebView.OnSurfaceCreated,
    WKWebView.InitializeRenderer, ViewEvent.isRendererInitialize, hnew, hwpe, hren]

/-- C27 on the sample engine with window 1 at 100 by 100. -/
theorem Init_commutes_with_OnSurfaceCreated_witness :
    sampleEngine.newWebView "view" = some 100 ∧ sampleEngine.getWpeView 100 = some 200 ∧
    sampleEngine.rendererInitialize 1 100 100 = true ∧
    (WKWebView.run sampleEngine [ViewOp.Init, ViewOp.OnSurfaceCreated (some 1) 100 100]
        { id_ := "view" }).1 =
      (WKWebView.run sampleEngine [ViewOp.OnSurfaceCreated (some 1) 100 100, ViewOp.Init]
        { id_ := "view" }).1 :=
  ⟨rfl, rfl, rfl,
    (Init_commutes_with_OnSurfaceCreated sampleEngine "view" 1 100 100 100 200 rfl rfl rfl).1⟩

/-! ## Claims on the reachable states of `WKWebView` -/

theorem InitializeRenderer_window (E : Engine) (v : WKWebView)
    (h : v.wpeViewRenderer_.isSome = true → v.nativeWindow_.isSome = true) :
    (v.InitializeRenderer E).1.wpeViewRenderer_.isSome = true →
      (v.InitializeRenderer E).1.nativeWindow_.isSome = true := by
  unfold WKWebView.InitializeRenderer
  cases hw : v.nativeWindow_ with
  | none => simpa [hw] using h
  | some window =>
    simp only []
    split
    · simp [hw]
    · split <;> simp [hw]

theorem InitializeRenderer_wellFormed (E : Engine) (v : WKWebView) (h : v.WellFormed)
    (hwpe : v.wpeView_.isSome = true) : (v.InitializeRenderer E).1.WellFormed := by
  obtain ⟨k1, k2, k3⟩ := InitializeRenderer_keeps E v
  unfold WKWebView.WellFormed
  rw [k1, k2, k3]
  refine ⟨h.1, ?_, h.2.2⟩
  intro hnone
  rw [hnone] at hwpe
  cases hwpe

/-- Every method call keeps the relation between the fields. -/
theorem apply_wellFormed (E : Engine) (v : WKWebView) (op : ViewOp) (h : v.WellFormed) :
    (v.apply E op).1.WellFormed := by
  cases op with
  | Init =>
    simp only [WKWebView.apply]
    cases hweb : v.webView_ with
    | some w0 =>
      have : v.Init E = (v, []) := by simp [WKWebView.Init, hweb]
      rw [this]
      exact h
    | none =>
      have hh : v.signalHandlers_ = [] := (h.2.1 (h.1 hweb)).1
      have hr : v.wpeViewRenderer_ = none := (h.2.1 (h.1 hweb)).2
      cases hn : E.newWebView v.id_ with
      | none =>
        have : v.Init E = (v, [ViewEvent.logD "WKWebView::Init", ViewEvent.webViewNew v.id_,
            ViewEvent.logE "Failed to create WebKitWebView"]) := by
          simp [WKWebView.Init, hweb, hn]
        rw [this]
        exact h
      | some w =>
        cases hw : E.getWpeView w with
        | none =>
          have : (v.Init E).1 = { v with webView_ := some w, wpeView_ := none } := by
            simp [WKWebView.Init, hweb, hn, hw]
          rw [this]
          exact ⟨fun h0 => (by cases h0), fun _ => ⟨hh, hr⟩, fun h0 => (by cases h0)⟩
        | some wpe =>
          have hv2 : WKWebView.WellFormed
              { v with webView_ := some w, wpeView_ := some wpe,
                       signalHandlers_ := v.signalHandlers_ ++
                        [E.signalConnect w "load-changed", E.signalConnect w "load-failed",
                          E.signalConnect w "load-failed-with-tls-errors"] } :=
            ⟨fun h0 => (by cases h0), fun h0 => (by cases h0), fun _ => (by simp [hh])⟩
          unfold WKWebView.Init
          simp only [hweb, hn, hw, Option.isSome_none, Bool.false_eq_true, if_false]
          split
          · exact InitializeRenderer_wellFormed E _ hv2 rfl
          · exact hv2
  | LoadURL url =>
    simp only [WKWebView.apply, WKWebView.LoadURL]
    split <;> exact h
  | OnSurfaceCreated window width height =>
    simp only [WKWebView.apply, WKWebView.OnSurfaceCreated]
    have hv1 : WKWebView.WellFormed
        { v with nativeWindow_ := window, width_ := width, height_ := height } := h
    split
    · rename_i hc
      simp only [Bool.and_eq_true] at hc
      exact InitializeRenderer_wellFormed E _ hv1 hc.2
    · exact hv1
  | OnSurfaceChanged window width height => exact h
  | OnSurfaceDestroyed window =>
    simp only [WKWebView.apply, WKWebView.OnSurfaceDestroyed]
    split
    · exact h
    · rename_i wpe hw
      split
      · exact h
      · refine ⟨h.1, ?_, h.2.2⟩
        intro h0
        have h1 : v.wpeView_ = none := h0
        rw [hw] at h1
        cases h1
  | DispatchTouchEvent => exact h

/-- Every method call other than `OnSurfaceCreated` with a null window keeps
"a renderer only with a native window". -/
theorem apply_window (E : Engine) (v : WKWebView) (op : ViewOp)
    (hop : op.windowNotNull = true)
    (h : v.wpeViewRenderer_.isSome = true → v.nativeWindow_.isSome = true) :
    (v.apply E op).1.wpeViewRenderer_.isSome = true →
      (v.apply E op).1.nativeWindow_.isSome = true := by
  cases op with
  | Init =>
    simp only [WKWebView.apply]
    cases hweb : v.webView_ with
    | some w0 =>
      have : v.Init E = (v, []) := by simp [WKWebView.Init, hweb]
      rw [this]
      exact h
    | none =>
      cases hn : E.newWebView v.id_ with
      | none =>
        have : (v.Init E).1 = v := by simp [WKWebView.Init, hweb, hn]
        rw [this]
        exact h
      | some w =>
        cases hw : E.getWpeView w with
        | none =>
          have : (v.Init E).1 = { v with webView_ := some w, wpeView_ := none } := by
            simp [WKWebView.Init, hweb, hn, hw]
          rw [this]
          exact h
        | some wpe =>
          unfold WKWebView.Init
          simp only [hweb, hn, hw, Option.isSome_none, Bool.false_eq_true, if_false]
          split
          · exact InitializeRenderer_window E _ h
          · exact h
  | LoadURL url =>
    simp only [WKWebView.apply, WKWebView.LoadURL]
    split <;> exact h
  | OnSurfaceCreated window width height =>
    cases window with
    | none => cases hop
    | some w =>
      simp only [WKWebView.apply, WKWebView.OnSurfaceCreated]
      split
      · exact InitializeRenderer_window E _ (fun _ => rfl)
      · exact fun _ => rfl
  | OnSurfaceChanged window width height => exact h
  | OnSurfaceDestroyed window =>
    simp only [WKWebView.apply, WKWebView.OnSurfaceDestroyed]
    split
    · exact h
    · split
      · exact h
      · intro h0
        cases h0
  | DispatchTouchEvent => exact h

theorem run_wellFormed (E : Engine) (ops : List ViewOp) :
    ∀ v : WKWebView, v.WellFormed → (WKWebView.run E ops v).1.WellFormed := by
  induction ops with
  | nil => intro v h; exact h
  | cons op ops ih => intro v h; exact ih _ (apply_wellFormed E v op h)

theorem run_window (E : Engine) (ops : List ViewOp) :
    ∀ v : WKWebView, (∀ op ∈ ops, op.windowNotNull = true) →
      (v.wpeViewRenderer_.isSome = true → v.nativeWindow_.isSome = true) →
      (WKWebView.run E ops v).1.wpeViewRenderer_.isSome = true →
        (WKWebView.run E ops v).1.nativeWindow_.isSome = true := by
  induction ops with
  | nil => intro v _ h; exact h
  | cons op ops ih =>
    intro v hops h
    exact ih _ (fun o ho => hops o (List.mem_cons_of_mem _ ho))
      (apply_window E v op (hops op (List.mem_cons_self _ _)) h)

/-- C28 as stated fails: after `Init` and `OnSurfaceCreated` for window 1 the view
has a renderer; a further `OnSurfaceCreated` that carries a null window stores
the null window and leaves the renderer in place. -/
theorem renderer_without_native_window :
    (WKWebView.run sampleEngine
        [ViewOp.Init, ViewOp.OnSurfaceCreated (some 1) 100 100,
          ViewOp.OnSurfaceCreated none 0 0] { id_ := "view" }).1.wpeViewRenderer_ =
      some ⟨1, 100, 100⟩ ∧
    (WKWebView.run sampleEngine
        [ViewOp.Init, ViewOp.OnSurfaceCreated (some 1) 100 100,
          ViewOp.OnSurfaceCreated none 0 0] { id_ := "view" }).1.nativeWindow_ = none := by
  decide

/-- C28, amended: in every state reached from a new view through any sequence of
`Init`, `LoadURL`, `OnSurfaceCreated`, `OnSurfaceChanged`, `OnSurfaceDestroyed`
and `DispatchTouchEvent`, the handler list has 0 or 3 tokens and is non-empty
only if the engine view and the platform view are both present, and a renderer
is present only if the platform view is present; so the destructor disconnects
no handler from a null engine view and detaches no renderer from a null platform
view. When no `OnSurfaceCreated` of the sequence carries a null window, a
renderer is present only if the native window is present as well; an
`OnSurfaceCreated` with a null window on a view that has a renderer stores the
null window and the size, keeps the renderer and makes no call. -/
theorem reachable_view_invariants (E : Engine) (id : String) (ops : List ViewOp) :
    ((WKWebView.run E ops { id_ := id }).1.signalHandlers_.length = 0 ∨
      (WKWebView.run E ops { id_ := id }).1.signalHandlers_.length = 3) ∧
    ((WKWebView.run E ops { id_ := id }).1.signalHandlers_ ≠ [] →
      (WKWebView.run E ops { id_ := id }).1.webView_.isSome = true ∧
      (WKWebView.run E ops { id_ := id }).1.wpeView_.isSome = true) ∧
    ((WKWebView.run E ops { id_ := id }).1.wpeViewRenderer_.isSome = true →
      (WKWebView.run E ops { id_ := id }).1.wpeView_.isSome = true) ∧
    ((∀ op ∈ ops, op.windowNotNull = true) →
      (WKWebView.run E ops { id_ := id }).1.wpeViewRenderer_.isSome = true →
      (WKWebView.run E ops { id_ := id }).1.nativeWindow_.isSome = true) ∧
    (∀ e ∈ (WKWebView.run E ops { id_ := id }).1.destructor.2,
      (∀ token, e ≠ ViewEvent.signalHandlerDisconnect none token) ∧
      (∀ r, e ≠ ViewEvent.setRenderer none r)) ∧
    (∀ (v : WKWebView) (width height : Int), v.wpeViewRenderer_.isSome = true →
      v.OnSurfaceCreated E none width height =
        ({ v with nativeWindow_ := none, width_ := width, height_ := height }, [])) := by
  have hnull : ∀ (v : WKWebView) (width height : Int), v.wpeViewRenderer_.isSome = true →
      v.OnSurfaceCreated E none width height =
        ({ v with nativeWindow_ := none, width_ := width, height_ := height }, []) := by
    intro v width height hr
    cases hv : v.wpeViewRenderer_ with
    | none => rw [hv] at hr; cases hr
    | some r => simp [WKWebView.OnSurfaceCreated, hv]
  have hwf := run_wellFormed E ops { id_ := id }
    ⟨fun _ => rfl, fun _ => ⟨rfl, rfl⟩, fun h0 => (by cases h0)⟩
  have hwin := run_window E ops { id_ := id }
  generalize (WKWebView.run E ops { id_ := id }).1 = v at hwf hwin
  obtain ⟨h1, h2, h3⟩ := hwf
  have hwpe : v.signalHandlers_ ≠ [] → v.wpeView_.isSome = true := by
    intro hne
    cases hw : v.wpeView_ with
    | none => exact absurd (h2 hw).1 hne
    | some wpe => rfl
  have hweb : v.wpeView_.isSome = true → v.webView_.isSome = true := by
    intro hw
    cases hv : v.webView_ with
    | none => rw [h1 hv] at hw; cases hw
    | some w => rfl
  have hren : v.wpeViewRenderer_.isSome = true → v.wpeView_.isSome = true := by
    intro hr
    cases hw : v.wpeView_ with
    | none => rw [(h2 hw).2] at hr; cases hr
    | some wpe => rfl
  refine ⟨?_, fun hne => ⟨hweb (hwpe hne), hwpe hne⟩, hren,
    fun hops => hwin hops (fun h0 => (by cases h0)), ?_, hnull⟩
  · cases hw : v.wpeView_ with
    | none => left; rw [(h2 hw).1]; rfl
    | some wpe => right; exact h3 (by rw [hw]; rfl)
  · intro e he
    simp only [WKWebView.destructor, List.mem_append, List.mem_singleton, List.mem_map] at he
    rcases he with ((he | ⟨token, hmem, he⟩) | he) | he
    · subst he
      exact ⟨fun _ => (by simp), fun _ => (by simp)⟩
    · subst he
      have hne : v.signalHandlers_ ≠ [] := List.ne_nil_of_mem hmem
      have := hweb (hwpe hne)
      cases hv : v.webView_ with
      | none => rw [hv] at this; cases this
      | some w => exact ⟨fun _ => (by simp), fun _ => (by simp)⟩
    · cases hv : v.webView_ with
      | none => rw [hv] at he; cases he
      | some w =>
        rw [hv] at he
        simp only [List.mem_singleton] at he
        subst he
        exact ⟨fun _ => (by simp), fun _ => (by simp)⟩
    · cases hr : v.wpeViewRenderer_ with
      | none => rw [hr] at he; cases he
      | some r =>
        have := hren (by rw [hr]; rfl)
        cases hw : v.wpeView_ with
        | none => rw [hw] at this; cases this
        | some wpe =>
          rw [hr, hw] at he
          simp only [List.mem_cons, List.mem_singleton, List.not_mem_nil, or_false] at he
          rcases he with he | he <;> subst he <;>
            exact ⟨fun _ => (by simp), fun _ => (by simp)⟩

/-- C28, amended, on the sample engine after `OnSurfaceCreated` for window 1,
`Init`, a load and a touch event. -/
theorem reachable_view_invariants_witness :
    (∀ op ∈ [ViewOp.OnSurfaceCreated (some 1) 100 100, ViewOp.Init,
        ViewOp.LoadURL "https://example.org", ViewOp.DispatchTouchEvent],
      op.windowNotNull = true) ∧
    (WKWebView.run sampleEngine
      [ViewOp.OnSurfaceCreated (some 1) 100 100, ViewOp.Init,
        ViewOp.LoadURL "https://example.org", ViewOp.DispatchTouchEvent]
      { id_ := "view" }).1.wpeViewRenderer_.isSome = true ∧
    (WKWebView.run sampleEngine
      [ViewOp.OnSurfaceCreated (some 1) 100 100, ViewOp.Init,
        ViewOp.LoadURL "https://example.org", ViewOp.DispatchTouchEvent]
      { id_ := "view" }).1.nativeWindow_.isSome = true :=
  ⟨by decide, by decide,
    (reachable_view_invariants sampleEngine "view"
      [ViewOp.OnSurfaceCreated (some 1) 100 100, ViewOp.Init,
        ViewOp.LoadURL "https://example.org", ViewOp.DispatchTouchEvent]).2.2.2.1
      (by decide) (by decide)⟩

end WebKitView
